import Mathlib

/-!
# sqlofi: annotation compiler and SQL builders

A shallow embedding of the Go packages under `internal/` and `sqlite/` of
`github.com/Nevoral/sqlofi`, and of the first generator in its root package,
followed by theorems about them.

Modelling conventions

* A Go `string` is a `Str`, a list of characters.  The byte-oriented and the
  rune-oriented operations of the source coincide on ASCII text, which is what
  the keywords of the annotation language are made of.  Case mapping
  (`strings.ToUpper`, `strings.ToLower`) and digit classification are modelled
  on the ASCII range; white space is the full `unicode.IsSpace` set.  Where a
  statement depends on what the case mapping does to the other runes, it is
  made over the rune mapping as a parameter (`ParseReferenceWith`,
  `ToSnakeCaseWith`, `Select.BuildWith`, ...) or for ASCII tokens.
* A `panic` (explicit, or a run-time error such as an index out of range or a
  nil dereference) is the `error` side of `Except Panic`.  A function that
  returns `(value, error)` and may also panic returns
  `Except Panic (Except Str value)`.
* A pointer receiver that is mutated becomes explicit state passing: the
  function returns the new state.
* Values obtained through `reflect` are modelled by `GoValue`, `GoType` and
  `StructField`.
* A pointer that may legitimately be nil (`from`, `where`, `subquery`, ...) is
  an `Option`; the elements of a slice of pointers are taken to be non-nil.
-/

namespace Sqlofi

/-- A Go string. -/
abbrev Str := List Char

/-! ## Package `strings` / `unicode` -/

/-- Go `unicode.IsSpace`. -/
def isSpace (c : Char) : Bool :=
  c = '\t' || c = '\n' || c.toNat = 0x0B || c.toNat = 0x0C || c = '\r' || c = ' ' ||
  c.toNat = 0x85 || c.toNat = 0xA0 || c.toNat = 0x1680 ||
  (0x2000 ≤ c.toNat && c.toNat ≤ 0x200A) ||
  c.toNat = 0x2028 || c.toNat = 0x2029 || c.toNat = 0x202F || c.toNat = 0x205F ||
  c.toNat = 0x3000

/-- Upper-case mapping of one rune (ASCII range). -/
def upperRune (c : Char) : Char :=
  if 'a' ≤ c ∧ c ≤ 'z' then Char.ofNat (c.toNat - 32) else c

/-- Lower-case mapping of one rune (ASCII range). -/
def lowerRune (c : Char) : Char :=
  if 'A' ≤ c ∧ c ≤ 'Z' then Char.ofNat (c.toNat + 32) else c

/-- Go `unicode.IsDigit` (ASCII range). -/
def isDigit (c : Char) : Bool := decide ('0' ≤ c ∧ c ≤ '9')

namespace strings

/-- Go `strings.ToUpper`. -/
def ToUpper (s : Str) : Str := s.map upperRune

/-- Go `strings.ToLower`. -/
def ToLower (s : Str) : Str := s.map lowerRune

/-- Go `strings.HasPrefix`. -/
def HasPrefix (s p : Str) : Bool := p.isPrefixOf s

/-- Go `strings.HasSuffix`. -/
def HasSuffix (s p : Str) : Bool := p.reverse.isPrefixOf s.reverse

/-- Go `strings.Contains`. -/
def Contains : Str → Str → Bool
  | [], sub => sub.isEmpty
  | c :: cs, sub => sub.isPrefixOf (c :: cs) || Contains cs sub

/-- Go `strings.Index`: the offset of the first occurrence, `none` for -1. -/
def Index : Str → Str → Option Nat
  | [], sub => if sub.isEmpty then some 0 else none
  | c :: cs, sub =>
    if sub.isPrefixOf (c :: cs) then some 0 else (Index cs sub).map (· + 1)

/-- Go `strings.LastIndex`, through the first occurrence in the reversed text. -/
def LastIndex (s sub : Str) : Option Nat :=
  (Index s.reverse sub.reverse).map (fun k => s.length - sub.length - k)

/-- Go `strings.Count(s, sep)` for a separator of one character, the only form
the sources use (`" "`, `"("`, `")"`). -/
def Count (s : Str) (sep : Char) : Nat := s.count sep

/-- Go `strings.TrimSpace`. -/
def TrimSpace (s : Str) : Str :=
  ((s.dropWhile isSpace).reverse.dropWhile isSpace).reverse

/-- Go `strings.TrimPrefix`. -/
def TrimPrefix (s p : Str) : Str := if HasPrefix s p then s.drop p.length else s

/-- Go `strings.Fields`, with the field being collected in `cur`. -/
def fieldsAux : Str → Str → List Str
  | [], cur => if cur.isEmpty then [] else [cur]
  | c :: cs, cur =>
    if isSpace c then
      (if cur.isEmpty then fieldsAux cs [] else cur :: fieldsAux cs [])
    else fieldsAux cs (cur ++ [c])

/-- Go `strings.Fields`. -/
def Fields (s : Str) : List Str := fieldsAux s []

/-- Go `strings.Split(s, sep)` for a separator of one character, with the piece
being collected in `cur`. -/
def splitAux (sep : Char) : Str → Str → List Str
  | [], cur => [cur]
  | c :: cs, cur => if c = sep then cur :: splitAux sep cs [] else splitAux sep cs (cur ++ [c])

/-- Go `strings.Split(s, sep)` for a separator of one character. -/
def Split (s : Str) (sep : Char) : List Str := splitAux sep s []

/-- Go `strings.Join`. -/
def Join : List Str → Str → Str
  | [], _ => []
  | [a], _ => a
  | a :: b :: rest, sep => a ++ sep ++ Join (b :: rest) sep

end strings

/-- Decimal digits of a natural number, most significant first. -/
def natDigits : Nat → Nat → Str → Str
  | 0, _, acc => acc
  | fuel + 1, n, acc =>
    let acc1 := Char.ofNat (48 + n % 10) :: acc
    if n / 10 = 0 then acc1 else natDigits fuel (n / 10) acc1

/-- Go `fmt.Sprintf("%d", n)` for an `int`. -/
def fmtInt : Int → Str
  | Int.ofNat n => natDigits (n + 1) n []
  | Int.negSucc n => '-' :: natDigits (n + 2) (n + 1) []

/-! ## Panics -/

/-- The ways in which the Go code aborts. -/
inductive Panic where
  /-- An explicit `panic(msg)` or `panic(err)` with the given text. -/
  | msg (text : Str)
  /-- Run-time error: index out of range. -/
  | indexOutOfRange
  /-- Run-time error: nil pointer dereference. -/
  | nilDereference
  /-- Run-time error: slice bounds out of range. -/
  | sliceOutOfRange
  /-- Not a Go panic: the iteration bound of a loop of the model was reached. -/
  | outOfFuel
  deriving DecidableEq, Repr

/-- Equality of results is decidable. -/
instance instDecidableEqExcept {ε α : Type} [DecidableEq ε] [DecidableEq α] :
    DecidableEq (Except ε α)
  | .ok a, .ok b =>
    if h : a = b then isTrue (congrArg Except.ok h)
    else isFalse (fun h1 => h (Except.ok.inj h1))
  | .error a, .error b =>
    if h : a = b then isTrue (congrArg Except.error h)
    else isFalse (fun h1 => h (Except.error.inj h1))
  | .ok _, .error _ => isFalse (fun h => Except.noConfusion h)
  | .error _, .ok _ => isFalse (fun h => Except.noConfusion h)

/-! ## Package `utils` -/

/-- Go `utils.ToSnakeCase`, the loop over the runes with their position: an
underscore is written before every ASCII capital that is not at offset 0. -/
def snakeRunes : Bool → Str → Str
  | _, [] => []
  | first, r :: rs =>
    (if !first && decide ('A' ≤ r ∧ r ≤ 'Z') then ['_', r] else [r]) ++ snakeRunes false rs

/-- Go `utils.ToSnakeCase`. -/
def ToSnakeCase (s : Str) : Str := strings.ToLower (snakeRunes true s)

/-- Go `utils.Join`: the separator argument is not used, the elements are
snake-cased and separated by a comma and a space. -/
def utilsJoin : List Str → Str → Str
  | [], _ => []
  | e :: es, _ => es.foldl (fun out elem => out ++ ", ".toList ++ ToSnakeCase elem) (ToSnakeCase e)

/-! ## Package `reflect`, as far as the sources use it -/

/-- The Go types that `types.GetSQLiteType` tells apart. -/
inductive GoType where
  | bool | int | float | string
  | nullBool | nullInt16 | nullInt32 | nullInt64 | nullFloat64 | nullString | nullTime | nullByte
  | time | bytes
  | struct | iface | map | array
  | ptr (elem : GoType)
  | other
  deriving DecidableEq, Repr

/-- Whether `t.Kind() == reflect.Struct`. -/
def GoType.isStructKind : GoType → Bool
  | .nullBool | .nullInt16 | .nullInt32 | .nullInt64 | .nullFloat64 | .nullString
  | .nullTime | .nullByte | .time | .struct => true
  | _ => false

/-- A `reflect.StructField`: `tag` is the value of the `sqlofi` key of the
field tag (`field.Tag.Get("sqlofi")`). -/
structure StructField where
  name : Str
  type : GoType
  tag : Str
  deriving DecidableEq, Repr

/-- A value of type `any` handed to the library as a model. A pointer to a
struct is the struct: the sources dereference it first. -/
inductive GoValue where
  | nil
  | struct (name : Str) (fields : List StructField)
  | str (s : Str)
  | other
  deriving DecidableEq, Repr

/-! ## Package `reflectUtil` -/

/-- Go `reflectutil.GetStructName`. -/
def GetStructName : GoValue → Str
  | .struct name _ => name
  | .str s => s
  | _ => []

/-- Go `reflectutil.GetStructFieldsNames`. -/
def GetStructFieldsNames : GoValue → List Str
  | .struct _ fields => fields.map (·.name)
  | _ => []

/-- Go `reflectutil.GetStructFields`. -/
def GetStructFields : GoValue → List StructField
  | .struct _ fields => fields
  | _ => []

/-! ## Package `types` -/

/-- Go `types.SQLiteType`, a string type. -/
abbrev SQLiteType := Str

def NULL : SQLiteType := "NULL".toList
def TEXT : SQLiteType := "TEXT".toList
def INTEGER : SQLiteType := "INTEGER".toList
def REAL : SQLiteType := "REAL".toList
def BLOB : SQLiteType := "BLOB".toList

/-- Go `SQLiteType.String`. -/
def SQLiteType.String (t : SQLiteType) : Str := if t = [] then "NULL".toList else t

/-- Go `types.GetSQLiteType`. -/
def GetSQLiteType : GoType → SQLiteType × Bool
  | .ptr elem => ((GetSQLiteType elem).1, (GetSQLiteType elem).2 || elem.isStructKind)
  | .nullBool | .nullInt16 | .nullInt32 | .nullInt64 => (INTEGER, false)
  | .nullFloat64 => (REAL, false)
  | .nullString | .nullTime => (TEXT, false)
  | .nullByte => (BLOB, false)
  | .bool | .int => (INTEGER, false)
  | .float => (REAL, false)
  | .string => (TEXT, false)
  | .time => (TEXT, false)
  | .bytes => (BLOB, false)
  | .struct | .iface | .map | .array | .other => (TEXT, false)

/-- Go `types.LiteralValue`, a string type. -/
abbrev LiteralValue := Str

def NULL_VALUE : LiteralValue := "NULL".toList
def TRUE_VALUE : LiteralValue := "TRUE".toList
def FALSE_VALUE : LiteralValue := "FALSE".toList
def CURRENT_TIME_VALUE : LiteralValue := "CURRENT_TIME".toList
def CURRENT_DATE_VALUE : LiteralValue := "CURRENT_DATE".toList
def CURRENT_TIMESTAMP_VALUE : LiteralValue := "CURRENT_TIMESTAMP".toList

/-- Go `LiteralValue.String`. -/
def LiteralValue.String (l : LiteralValue) : Str := if l = [] then "NULL".toList else l

/-! ## Package `sortorder` -/

/-- Go `sortorder.SortOrder`, a string type. -/
abbrev SortOrder := Str

def UNSORTED : SortOrder := []
def ASC : SortOrder := "ASC".toList
def DESC : SortOrder := "DESC".toList

/-! ## Package `expr` -/

/-- Go `expr.Expression`. -/
structure Expression where
  expression : Str
  deriving DecidableEq, Repr

/-- Go `expr.NewExpression`. -/
def NewExpression (expression : Str) : Expression := { expression := expression }

/-- Go `Expression.Build`. -/
def Expression.Build (e : Expression) : Str := e.expression

/-! ## Packages `check`, `generated`, `unique`, `primarykey` -/

/-- Go `check.NewCheck(ex).Build()`. -/
def CheckBuild (ex : Expression) : Str := "CHECK (".toList ++ ex.Build ++ ")".toList

/-- Go `generated.StorageType`, a string type. -/
abbrev StorageType := Str

def NO_STORAGE : StorageType := []
def STORED : StorageType := "STORED".toList
def VIRTUAL : StorageType := "VIRTUAL".toList

/-- Go `generated.NewGenerated`. -/
def NewGenerated (always : Bool) (ex : Expression) (storage : StorageType) : Str :=
  let alw : Str := if always then "GENERATED ALWAYS ".toList else []
  let stored : Str := if storage ≠ NO_STORAGE then storage else []
  alw ++ "AS (".toList ++ ex.Build ++ ")".toList ++ stored

/-- Go `unique.NewColumnUnique`. -/
def NewColumnUnique (conflict : Str) : Str :=
  let con : Str := if conflict ≠ [] then " ".toList ++ conflict else []
  "UNIQUE".toList ++ con

/-- Go `primarykey.ColumnPrimaryKey`. -/
structure ColumnPrimaryKey where
  sortOrder : SortOrder
  conflict : Str := []
  autoincrement : Bool := false
  deriving DecidableEq, Repr

/-- Go `primarykey.NewColumnPrimaryKey`. -/
def NewColumnPrimaryKey (sortOrder : SortOrder) : ColumnPrimaryKey := { sortOrder := sortOrder }

/-- Go `ColumnPrimaryKey.Conflict`. -/
def ColumnPrimaryKey.Conflict (c : ColumnPrimaryKey) (conflict : Str) : ColumnPrimaryKey :=
  { c with conflict := conflict }

/-- Go `ColumnPrimaryKey.Autoincrement`. -/
def ColumnPrimaryKey.Autoincrement (c : ColumnPrimaryKey) (value : Bool) : ColumnPrimaryKey :=
  { c with autoincrement := value }

/-- Go `ColumnPrimaryKey.Build`. -/
def ColumnPrimaryKey.Build (c : ColumnPrimaryKey) : Str :=
  let sort : Str := if c.sortOrder ≠ UNSORTED then " ".toList ++ c.sortOrder else []
  let conflict : Str := if c.conflict ≠ [] then " ".toList ++ c.conflict else []
  let autoincrement : Str := if c.autoincrement then " AUTOINCREMENT".toList else []
  "PRIMARY KEY".toList ++ sort ++ conflict ++ autoincrement

/-! ## Packages `notnull` and `collate` -/

/-- Modelled from the spec: `notnull.NewNotNull`, whose package
`internal/sqlite/NotNull` is not among the sources. Spec 4.1: "NOT NULL /
UNIQUE: optional trailing `ON CONFLICT <action>`"; the clause builder renders
the keyword and, when a conflict action is given, that trailing part. -/
def NewNotNull (conflict : Str) : Str :=
  "NOT NULL".toList ++ (if conflict ≠ [] then " ON CONFLICT ".toList ++ conflict else [])

/-- Modelled from the spec: `collate.NewCollate`, whose package
`internal/sqlite/Collate` is not among the sources. Spec 4.1: "COLLATE: single
following token is the collation name"; the clause builder renders the keyword
followed by that name. -/
def NewCollate (name : Str) : Str := "COLLATE ".toList ++ name

/-! ## Package `defaultConstr` -/

/-- The three argument types of the generic `NewDefaultValue`. -/
inductive DefaultArg where
  | expr (e : Expression)
  | literal (l : LiteralValue)
  | signed (n : Str)
  deriving DecidableEq, Repr

/-- Go `defaultConstr.NewDefaultValue`. -/
def NewDefaultValue : DefaultArg → Str
  | .expr e => "(".toList ++ e.Build ++ ")".toList
  | .literal l => l.String
  | .signed n => n

/-- The number test of `parseDefaultValue`: a leading sign at offset 0 and any
dot are passed over, every other rune has to be a digit. -/
def isNumberRunes : Bool → Str → Bool
  | _, [] => true
  | first, c :: cs =>
    if first && (c = '+' || c = '-') then isNumberRunes false cs
    else if c = '.' then isNumberRunes false cs
    else if !isDigit c then false
    else isNumberRunes false cs

/-- Go `content[1 : len(content)-1]`. -/
def stripEnds (content : Str) : Except Panic Str :=
  if content.length < 2 then .error .sliceOutOfRange
  else .ok ((content.drop 1).take (content.length - 2))

/-- Go `defaultConstr.parseDefaultValue`. -/
def parseDefaultValue (content0 : Str) : Except Panic Str :=
  let content := strings.TrimSpace content0
  if strings.ToUpper content = "NULL".toList then .ok (NewDefaultValue (.literal NULL_VALUE))
  else if strings.ToUpper content = "TRUE".toList then .ok (NewDefaultValue (.literal TRUE_VALUE))
  else if strings.ToUpper content = "FALSE".toList then .ok (NewDefaultValue (.literal FALSE_VALUE))
  else if strings.HasPrefix (strings.ToUpper content) "CURRENT_TIME".toList then
    .ok (NewDefaultValue (.literal CURRENT_TIME_VALUE))
  else if strings.HasPrefix (strings.ToUpper content) "CURRENT_DATE".toList then
    .ok (NewDefaultValue (.literal CURRENT_DATE_VALUE))
  else if strings.HasPrefix (strings.ToUpper content) "CURRENT_TIMESTAMP".toList then
    .ok (NewDefaultValue (.literal CURRENT_TIMESTAMP_VALUE))
  else if (strings.HasPrefix content [Char.ofNat 39] && strings.HasSuffix content [Char.ofNat 39]) ||
      (strings.HasPrefix content ['"'] && strings.HasSuffix content ['"']) then
    (stripEnds content).map (fun value => NewDefaultValue (.literal value))
  else if strings.HasPrefix content ['('] && strings.HasSuffix content [')'] then
    (stripEnds content).map (fun e => NewDefaultValue (.expr (NewExpression e)))
  else if isNumberRunes true content then .ok (NewDefaultValue (.signed content))
  else .ok (NewDefaultValue (.expr (NewExpression content)))

/-- Go `defaultConstr.ParseDefault`. -/
def ParseDefault (content0 : Str) : Except Panic Str :=
  let content := strings.TrimSpace content0
  if content = [] then .ok []
  else
    let content1 :=
      if strings.HasPrefix (strings.ToUpper content) "DEFAULT".toList then
        strings.TrimSpace (content.drop "DEFAULT".toList.length)
      else content
    (parseDefaultValue content1).map (fun defaultVal => "DEFAULT ".toList ++ defaultVal)

/-! ## Package `foreignkey` -/

/-- Go `foreignkey.References`; the two `*string` fields are options. -/
structure References where
  tableTypeReference : Bool := false
  columnsName : List Str := []
  foreignTable : GoValue := .nil
  foreignColumnsName : List Str := []
  onDeleteVal : Str := []
  onUpdateVal : Str := []
  matchVal : Str := []
  deferrableVal : Option Str := none
  notDeferrableVal : Option Str := none
  deriving DecidableEq, Repr

/-- Go `References.OnDelete`. -/
def References.OnDelete (r : References) (action : Str) : References :=
  { r with onDeleteVal := action }

/-- Go `References.OnUpdate`. -/
def References.OnUpdate (r : References) (action : Str) : References :=
  { r with onUpdateVal := action }

/-- Go `References.Match`. -/
def References.Match (r : References) (name : Str) : References :=
  { r with matchVal := name }

/-- Go `References.Deferrable`. -/
def References.Deferrable (r : References) (action : Str) : References :=
  if r.notDeferrableVal ≠ none then r else { r with deferrableVal := some action }

/-- Go `References.NotDeferrable`. -/
def References.NotDeferrable (r : References) (action : Str) : References :=
  if r.deferrableVal ≠ none then r else { r with notDeferrableVal := some action }

/-- Go `References.GetColumns`. -/
def References.GetColumns (r : References) : List Str := r.columnsName

/-- Go `References.ForeighColumns`. -/
def References.ForeighColumns (r : References) (columns : List Str) : Except Panic References :=
  if !r.tableTypeReference then
    .error (.msg "Error: foreign key reference has to have only one".toList)
  else if columns.length ≠ r.columnsName.length then
    .error (.msg "Error len of foreign table columns isn't same as len of columns".toList)
  else .ok { r with foreignColumnsName := columns }

/-- Go `References.ForeignTable`. -/
def References.ForeignTable (r : References) (foreignTablePtr : GoValue) : References :=
  { r with foreignTable := foreignTablePtr }

/-- Go `foreignkey.rowAction`. -/
def rowAction (value0 : Str) : Except Str Str :=
  let value := strings.TrimSpace value0
  if value = "CASCADE".toList ∨ value = "SET NULL".toList ∨ value = "SET DEFAULT".toList ∨
      value = "RESTRICT".toList ∨ value = "NO ACTION".toList then .ok value
  else .error ("invalid RowAction: ".toList ++ value)

/-- Go `foreignkey.defferableAction`. -/
def defferableAction (value0 : Str) : Except Str Str :=
  let value := strings.TrimSpace value0
  if value = "INITIALLY DEFERRED".toList ∨ value = "INITIALLY IMMEDIATE".toList ∨ value = [] then
    .ok value
  else .error ("invalid DeferrableAction: ".toList ++ value)

/-- The boundary scan of `ParseReference` (the first `for` loop): `rest` is
`tag[index:]`. It returns the index at the `break` and whether the break was at
a closing parenthesis; reading `tag[index]` past the end is the run-time
error. `index+k < length` of the source is `k < len(tag[index:])`. -/
def scanTablePart : Str → Nat → Except Panic (Nat × Bool)
  | [], _ => .error .indexOutOfRange
  | c :: cs, index =>
    if c = ')' then .ok (index, true)
    else if 3 < (c :: cs).length && (c :: cs).take 3 = " ON".toList then .ok (index, false)
    else if 6 < (c :: cs).length && (c :: cs).take 6 = " MATCH".toList then .ok (index, false)
    else if 8 < (c :: cs).length && (c :: cs).take 8 = " NOT DEF".toList then .ok (index, false)
    else if 8 < (c :: cs).length && (c :: cs).take 8 = " DEFERRA".toList then .ok (index, false)
    else scanTablePart cs (index + 1)

/-- The table name and the target columns that `ParseReference` reads from
the table part. -/
def parseTablePart (tablePart : Str) : Str × List Str :=
  match strings.Index tablePart ['('] with
  | some idx =>
    let foreignTableName := strings.TrimSpace (tablePart.take idx)
    match strings.LastIndex tablePart [')'] with
    | some endIdx =>
      if endIdx > idx then
        let colStr := (tablePart.take endIdx).drop (idx + 1)
        (foreignTableName, ((strings.Split colStr ',').map strings.TrimSpace).filter (fun col => col ≠ []))
      else (foreignTableName, [])
    | none => (foreignTableName, [])
  | none => (strings.TrimSpace tablePart, [])

/-- The candidate loop of `ParseReference`: the last candidate whose name
equals the target name is kept. -/
def lookupForeignTable (foreignTables : List GoValue) (foreignTableName : Str) : GoValue :=
  foreignTables.foldl (fun found t => if foreignTableName = GetStructName t then t else found) .nil

/-- The clause keywords of `ParseReference`. -/
def patterns : List Str :=
  ["ON DELETE".toList, "ON UPDATE".toList, "MATCH".toList, "DEFERRABLE".toList,
   "NOT DEFERRABLE".toList]

/-- The start of the next clause, counted from `nextStart`: `after` is
`tag[nextStart:]`. -/
def nextClauseStart (after : Str) : Nat :=
  patterns.foldl (fun best nextPattern =>
    match strings.Index after nextPattern with
    | some idx => if idx < best then idx else best
    | none => best) after.length

/-- The clause loop of `ParseReference`: `rest` is `tag[index:]`; after a
clause has been cut out, `skip` counts the characters up to its end, where
the source sets `index = nextClauseStart`. -/
def collectClauses : Str → Nat → List Str
  | [], _ => []
  | _ :: cs, skip + 1 => collectClauses cs skip
  | c :: cs, 0 =>
    match patterns.find? (fun pattern => pattern.isPrefixOf (c :: cs)) with
    | some pattern =>
      let n := pattern.length + nextClauseStart ((c :: cs).drop pattern.length)
      strings.TrimSpace ((c :: cs).take n) :: collectClauses cs (n - 1)
    | none => collectClauses cs 0

/-- The `switch` of `ParseReference` that applies one clause. -/
def applyClause (refs : References) (clause : Str) : References :=
  if strings.HasPrefix clause "ON DELETE".toList then
    match rowAction (strings.TrimSpace (strings.TrimPrefix clause "ON DELETE".toList)) with
    | .ok action => refs.OnDelete action
    | .error _ => refs
  else if strings.HasPrefix clause "ON UPDATE".toList then
    match rowAction (strings.TrimSpace (strings.TrimPrefix clause "ON UPDATE".toList)) with
    | .ok action => refs.OnUpdate action
    | .error _ => refs
  else if strings.HasPrefix clause "MATCH".toList then
    refs.Match (strings.TrimSpace (strings.TrimPrefix clause "MATCH".toList))
  else if strings.HasPrefix clause "DEFERRABLE".toList then
    match defferableAction (strings.TrimSpace (strings.TrimPrefix clause "DEFERRABLE".toList)) with
    | .ok action => refs.Deferrable action
    | .error _ => refs
  else if strings.HasPrefix clause "NOT DEFERRABLE".toList then
    match defferableAction (strings.TrimSpace (strings.TrimPrefix clause "NOT DEFERRABLE".toList)) with
    | .ok action => refs.NotDeferrable action
    | .error _ => refs
  else refs

/-- Go `foreignkey.ParseReference`. The outer `Except` is a panic, the inner
one the returned `error`. -/
def ParseReference (colName : Str) (foreignTables : List GoValue) (tag0 : Str) :
    Except Panic (Except Str References) :=
  let tag := strings.TrimSpace tag0
  if !strings.HasPrefix (strings.ToUpper tag) "REFERENCES".toList then
    .ok (.error ("Error tag doesn't start with REFERENCES instead starts with ".toList ++
      (strings.Split tag ' ').headD []))
  else
    let tag1 := strings.TrimSpace (tag.drop "REFERENCES".toList.length)
    match scanTablePart tag1 0 with
    | .error p => .error p
    | .ok (index, atParen) =>
      let tablePart := if atParen then tag1.take (index + 1) else tag1.take index
      let tag2 := strings.TrimSpace (tag1.drop index)
      let foreignTableName := (parseTablePart tablePart).1
      let refs : References :=
        { columnsName := [colName]
          foreignColumnsName := (parseTablePart tablePart).2
          foreignTable := lookupForeignTable foreignTables foreignTableName }
      if refs.foreignTable = .nil then
        .ok (.error
          ("Error from provided structs as foreign tables none of them are matching ".toList ++
            foreignTableName))
      else
        .ok (.ok ((collectClauses tag2 0).foldl applyClause refs))

/-- Go `foreignkey.NewTableForeignTable`. -/
def NewTableForeignTable (foreignTablePtr : GoValue) (columns : List Str) : References :=
  { tableTypeReference := true, columnsName := columns, foreignTable := foreignTablePtr }

/-- Go `foreignkey.NewReferences`. -/
def NewReferences (columName : Str) (foreignTablePtr : GoValue) (foreignColumn : Str) :
    References :=
  { tableTypeReference := false, columnsName := [columName], foreignTable := foreignTablePtr,
    foreignColumnsName := [foreignColumn] }

/-- Go `References.Build`. -/
def References.Build (r : References) : Except Panic Str :=
  let tableName := GetStructName r.foreignTable
  let foreignColName := GetStructFieldsNames r.foreignTable
  match r.foreignColumnsName.find? (fun col => !foreignColName.contains col) with
  | some col =>
    .error (.msg ("column '".toList ++ col ++ "' not found in foreign table '".toList ++
      tableName ++ "'".toList))
  | none =>
    let pre : Str :=
      if r.tableTypeReference then
        "FOREIGN KEY (".toList ++ utilsJoin r.columnsName ", ".toList ++ ") ".toList
      else []
    let colName : Str :=
      if r.foreignColumnsName.length > 0 then
        " (".toList ++ utilsJoin r.foreignColumnsName ", ".toList ++ ")".toList
      else []
    let a1 : Str := if r.onDeleteVal ≠ [] then " ON DELETE ".toList ++ r.onDeleteVal else []
    let a2 : Str := a1 ++ (if r.onUpdateVal ≠ [] then " ON UPDATE ".toList ++ r.onUpdateVal else [])
    let a3 : Str := a2 ++ (if r.matchVal ≠ [] then " MATCH ".toList ++ r.matchVal else [])
    let a4 : Str := a3 ++
      (match r.deferrableVal with
       | some v => " DEFERRABLE".toList ++ (if v ≠ [] then " ".toList ++ v else [])
       | none => [])
    let actions : Str := a4 ++
      (match r.notDeferrableVal with
       | some v => " NOT DEFERRABLE".toList ++ (if v ≠ [] then " ".toList ++ v else [])
       | none => [])
    .ok (pre ++ "REFERENCES ".toList ++ ToSnakeCase tableName ++ colName ++ actions)

/-! ## Package `column` -/

def CONSTRAINT : Str := "CONSTRAINT".toList
def PRIMARY_KEY : Str := "PRIMARY KEY".toList
def NOT_NULL : Str := "NOT NULL".toList
def UNIQUE : Str := "UNIQUE".toList
def CHECK : Str := "CHECK".toList
def DEFAULT : Str := "DEFAULT".toList
def COLLATE : Str := "COLLATE".toList
def REFERENCES : Str := "REFERENCES".toList
def GENERATED : Str := "GENERATED".toList
def AS : Str := "AS".toList

/-- Go `column.isConstraintKeyword`. -/
def isConstraintKeyword (token0 : Str) : Bool :=
  let token := strings.ToUpper token0
  strings.Contains CONSTRAINT token || strings.Contains PRIMARY_KEY token || strings.Contains NOT_NULL token ||
  strings.Contains UNIQUE token || strings.Contains CHECK token || strings.Contains DEFAULT token ||
  strings.Contains COLLATE token || strings.Contains REFERENCES token || strings.Contains GENERATED token

/-- Go `column.Column`. -/
structure Column where
  name : Str
  colType : SQLiteType
  constraint : List Str := []
  models : List GoValue := []
  hasPrimaryKey : Bool := false
  hasNotNull : Bool := false
  hasUnique : Bool := false
  hasDefault : Bool := false
  hasCheck : Bool := false
  hasCollate : Bool := false
  hasForeignKey : Bool := false
  hasGenerated : Bool := false
  hasAutoincrement : Bool := false
  deriving DecidableEq, Repr

/-- Go `column.NewColumn`. -/
def NewColumn (name : Str) (colType : SQLiteType) : Column := { name := name, colType := colType }

/-- The fragment appended by every constraint method: the rendered clause,
behind `CONSTRAINT <name> ` when a name is given. -/
def named (constraintName : Str) (fragment : Str) : Str :=
  if constraintName = [] then fragment
  else "CONSTRAINT ".toList ++ constraintName ++ " ".toList ++ fragment

/-- Go `Column.PrimaryKey`. -/
def Column.PrimaryKey (c : Column) (constraintName : Str) (sortOrder : SortOrder)
    (conflict : Str) (autoincrement : Bool) : Except Panic Column :=
  let c1 := { c with hasNotNull := true }
  if autoincrement && c1.colType ≠ INTEGER then
    .error (.msg "AUTOINCREMENT is only allowed on INTEGER PRIMARY KEY columns".toList)
  else if c1.hasGenerated then
    .error (.msg "GENERATED column cannot be PRIMARY KEY".toList)
  else if c1.hasDefault then
    .error (.msg "PRIMARY KEY column cannot have DEFAULT value".toList)
  else
    .ok { c1 with
      hasPrimaryKey := true
      hasAutoincrement := autoincrement
      constraint := c1.constraint ++
        [named constraintName
          (((NewColumnPrimaryKey sortOrder).Conflict conflict).Autoincrement autoincrement).Build] }

/-- Go `Column.NotNull`. -/
def Column.NotNull (c : Column) (constraintName : Str) (conflict : Str) : Column :=
  { c with
    hasNotNull := true
    constraint := c.constraint ++ [named constraintName (NewNotNull conflict)] }

/-- Go `Column.Unique`. -/
def Column.Unique (c : Column) (constraintName : Str) (conflict : Str) : Except Panic Column :=
  if c.hasGenerated then .error (.msg "GENERATED column cannot be UNIQUE".toList)
  else
    .ok { c with
      hasUnique := true
      constraint := c.constraint ++ [named constraintName (NewColumnUnique conflict)] }

/-- Go `Column.Check`. -/
def Column.Check (c : Column) (constraintName : Str) (ex : Expression) : Column :=
  { c with
    hasCheck := true
    constraint := c.constraint ++ [named constraintName (CheckBuild ex)] }

/-- Go `Column.Default`. -/
def Column.Default (c : Column) (constraintName : Str) (content : Str) : Except Panic Column :=
  if c.hasPrimaryKey then .error (.msg "PRIMARY KEY column cannot have DEFAULT value".toList)
  else if c.hasGenerated then .error (.msg "GENERATED column cannot have DEFAULT value".toList)
  else
    match ParseDefault content with
    | .error p => .error p
    | .ok fragment =>
      .ok { c with
        hasDefault := true
        constraint := c.constraint ++ [named constraintName fragment] }

/-- Go `Column.Collate`. -/
def Column.Collate (c : Column) (constraintName : Str) (name : Str) : Column :=
  { c with
    hasCollate := true
    constraint := c.constraint ++ [named constraintName (NewCollate name)] }

/-- Go `Column.ForeignKey`. -/
def Column.ForeignKey (c : Column) (constraintName : Str) (content : Str) : Except Panic Column :=
  if c.hasGenerated then .error (.msg "GENERATED column cannot be FOREIGN KEY".toList)
  else
    match ParseReference c.name c.models content with
    | .error p => .error p
    | .ok (.error err) => .error (.msg err)
    | .ok (.ok ref) =>
      match ref.Build with
      | .error p => .error p
      | .ok fragment =>
        .ok { c with
          hasForeignKey := true
          constraint := c.constraint ++ [named constraintName fragment] }

/-- Go `Column.Generated`. -/
def Column.Generated (c : Column) (constraintName : Str) (always : Bool) (ex : Expression)
    (storageType : StorageType) : Except Panic Column :=
  if c.hasPrimaryKey then .error (.msg "GENERATED column cannot be PRIMARY KEY".toList)
  else if c.hasUnique then .error (.msg "GENERATED column cannot be UNIQUE".toList)
  else if c.hasDefault then .error (.msg "GENERATED column cannot have DEFAULT value".toList)
  else if c.hasForeignKey then .error (.msg "GENERATED column cannot be FOREIGN KEY".toList)
  else
    .ok { c with
      hasGenerated := true
      constraint := c.constraint ++ [named constraintName (NewGenerated always ex storageType)] }

/-- Go `Column.Build`. -/
def Column.Build (c : Column) : Str :=
  let constraintStr : Str :=
    if c.constraint.length > 0 then " ".toList ++ strings.Join c.constraint " ".toList else []
  c.name ++ (" ".toList ++ c.colType.String) ++ constraintStr

/-- Go `column.parseConflictClause`. -/
def parseConflictClause (str : Str) : Str :=
  let u := strings.ToUpper str
  if u = "ROLLBACK".toList ∨ u = "ABORT".toList ∨ u = "FAIL".toList ∨ u = "IGNORE".toList ∨
      u = "REPLACE".toList then str
  else []

/-- The loop of `findBalancedParentheses` over `tokens[startIndex:]`. -/
def balancedLoop : List Str → Int → Str → Str
  | [], _, _ => []
  | token :: rest, level, builder =>
    let level1 := level + (strings.Count token '(' : Int) - (strings.Count token ')' : Int)
    let builder1 := builder ++ token ++ " ".toList
    if level1 = 0 then strings.TrimSpace builder1 else balancedLoop rest level1 builder1

/-- Go `column.findBalancedParentheses`. -/
def findBalancedParentheses (tokens : List Str) (startIndex : Nat) : Str :=
  if startIndex ≥ tokens.length ∨ tokens.getD startIndex [] ≠ "(".toList then []
  else balancedLoop (tokens.drop startIndex) 0 []

/-- The loop of `extractReferencesClause` over `tokens[1:]`. -/
def referencesLoop : List Str → Bool → Str → Str
  | [], _, builder => builder
  | token :: rest, inParentheses, builder =>
    if strings.HasPrefix token "(".toList then referencesLoop rest true (builder ++ " ".toList ++ token)
    else if strings.HasSuffix token ")".toList then
      referencesLoop rest false (builder ++ " ".toList ++ token)
    else if !inParentheses && isConstraintKeyword token then builder
    else referencesLoop rest inParentheses (builder ++ " ".toList ++ token)

/-- Go `column.extractReferencesClause`. -/
def extractReferencesClause (tokens : List Str) : Str :=
  if tokens.length < 2 ∨ strings.ToUpper (tokens.getD 0 []) ≠ "REFERENCES".toList then []
  else referencesLoop (tokens.drop 1) false (tokens.getD 0 [])

/-- The local variables of the PRIMARY KEY branch of `parseColumnTag`. -/
structure PkOptions where
  sortOrder : SortOrder
  conflict : Str
  autoincrement : Bool
  i : Nat
  deriving DecidableEq, Repr

/-- The look-ahead loop of the PRIMARY KEY branch, `for j := i + 1; ...`:
`rest` is `tokens[j:]`. -/
def pkScan : List Str → Nat → PkOptions → PkOptions
  | [], _, o => o
  | t :: rest, j, o =>
    let opt := strings.ToUpper t
    if opt = "ASC".toList then pkScan rest (j + 1) { o with sortOrder := ASC, i := j }
    else if opt = "DESC".toList then pkScan rest (j + 1) { o with sortOrder := DESC, i := j }
    else if opt = "AUTOINCREMENT".toList then
      pkScan rest (j + 1) { o with autoincrement := true, i := j }
    else if strings.HasPrefix opt "ON".toList && !rest.isEmpty then
      pkScan rest (j + 1)
        { o with conflict := parseConflictClause (strings.ToUpper (rest.headD [])), i := j + 1 }
    else if isConstraintKeyword opt then { o with i := j - 1 }
    else pkScan rest (j + 1) o

/-- The optional `ON CONFLICT <action>` read by the NOT NULL and UNIQUE
branches, with `i` at the last token of the keyword: the conflict text and the
new value of `i`. -/
def conflictSuffix (tokens : List Str) (i : Nat) : Str × Nat :=
  if i + 2 < tokens.length ∧ strings.ToUpper (tokens.getD (i + 1) []) = "ON".toList ∧
      strings.ToUpper (tokens.getD (i + 2) []) = "CONFLICT".toList ∧ i + 3 < tokens.length then
    (parseConflictClause (strings.ToUpper (tokens.getD (i + 3) [])), i + 3)
  else ([], i)

/-- The GENERATED branch of `parseColumnTag`, entered with `i` at the keyword. -/
def generatedBranch (tokens : List Str) (i : Nat) (constraintName : Str) (c : Column) :
    Except Panic (Nat × Column) :=
  if i + 3 < tokens.length ∧ strings.ToUpper (tokens.getD (i + 1) []) = "ALWAYS".toList ∧
      strings.ToUpper (tokens.getD (i + 2) []) = "AS".toList then
    let exprStr := findBalancedParentheses tokens (i + 3)
    if exprStr ≠ [] then
      let generatedExpr := NewExpression exprStr
      let nextPos := i + 3 + strings.Count exprStr ' ' + 1
      let storageStr := strings.ToUpper (tokens.getD nextPos [])
      let (storageType, i1) :=
        if nextPos < tokens.length then
          if storageStr = "STORED".toList then (STORED, nextPos)
          else if storageStr = "VIRTUAL".toList then (VIRTUAL, nextPos)
          else (VIRTUAL, i)
        else (VIRTUAL, i)
      match c.Generated constraintName true generatedExpr storageType with
      | .error p => .error p
      | .ok c1 => .ok (i1 + (strings.Count exprStr ' ' + 3), c1)
    else .ok (i, c)
  else .ok (i, c)

/-- One pass through the body of the token loop of `parseColumnTag`, entered
with the cursor `i < len(tokens)`: the value of `i` at the end of the body
(before the `i++` of the loop) and the column. -/
def parseColumnTagStep (tokens : List Str) (i0 : Nat) (c : Column) :
    Except Panic (Nat × Column) :=
  let token0 := strings.ToUpper (tokens.getD i0 [])
  let named := decide (token0 = CONSTRAINT ∧ i0 + 2 < tokens.length)
  let constraintName : Str := if named then tokens.getD (i0 + 1) [] else []
  let token : Str := if named then strings.ToUpper (tokens.getD (i0 + 2) []) else token0
  let i : Nat := if named then i0 + 2 else i0
  if strings.Contains PRIMARY_KEY token then
    let o := pkScan (tokens.drop (i + 2)) (i + 2)
      { sortOrder := ASC, conflict := [], autoincrement := false, i := i + 1 }
    match c.PrimaryKey constraintName o.sortOrder o.conflict o.autoincrement with
    | .error p => .error p
    | .ok c1 => .ok (o.i, c1)
  else if strings.Contains NOT_NULL token then
    let r := conflictSuffix tokens (i + 1)
    .ok (r.2, c.NotNull constraintName r.1)
  else if strings.Contains UNIQUE token then
    let r := conflictSuffix tokens i
    match c.Unique constraintName r.1 with
    | .error p => .error p
    | .ok c1 => .ok (r.2, c1)
  else if strings.Contains CHECK token then
    let checkExpr := findBalancedParentheses tokens (i + 1)
    if checkExpr ≠ [] then
      .ok (i + (strings.Count checkExpr ' ' + 1), c.Check constraintName (NewExpression checkExpr))
    else .ok (i, c)
  else if strings.Contains DEFAULT token then
    if i + 1 < tokens.length then
      let paren := decide (tokens.getD (i + 1) [] = "(".toList)
      let defaultVal : Str :=
        if paren then findBalancedParentheses tokens (i + 1) else tokens.getD (i + 1) []
      let i1 : Nat := if paren then i + (strings.Count defaultVal ' ' + 1) else i + 1
      match c.Default constraintName defaultVal with
      | .error p => .error p
      | .ok c1 => .ok (i1, c1)
    else .ok (i, c)
  else if strings.Contains COLLATE token then
    if i + 1 < tokens.length then
      .ok (i + 1, c.Collate constraintName (tokens.getD (i + 1) []))
    else .ok (i, c)
  else if strings.Contains REFERENCES token then
    let refStr := extractReferencesClause (tokens.drop i)
    if refStr ≠ [] then
      match c.ForeignKey constraintName refStr with
      | .error p => .error p
      | .ok c1 => .ok (i + strings.Count refStr ' ', c1)
    else .ok (i, c)
  else if strings.Contains GENERATED token then generatedBranch tokens i constraintName c
  else .ok (i, c)

/-- The token loop of `parseColumnTag`, `for i := 0; i < len(tokens); i++`,
bounded by `fuel` passes. -/
def parseColumnTagLoop : Nat → List Str → Nat → Column → Except Panic Column
  | 0, tokens, i, c => if i < tokens.length then .error .outOfFuel else .ok c
  | fuel + 1, tokens, i, c =>
    if i < tokens.length then
      match parseColumnTagStep tokens i c with
      | .error p => .error p
      | .ok (i1, c1) => parseColumnTagLoop fuel tokens (i1 + 1) c1
    else .ok c

/-- Go `Column.parseColumnTag`. Every pass moves the cursor forward, so
`len(tokens)` passes are enough. -/
def Column.parseColumnTag (c : Column) (tag : Str) : Except Panic Column :=
  if tag = [] then .ok c
  else
    let tokens := strings.Fields tag
    if tokens.length = 0 then .ok c
    else parseColumnTagLoop tokens.length tokens 0 c

/-- Go `column.ParseStructField`; `none` is the nil column. -/
def ParseStructField (models : List GoValue) (field : StructField) :
    Except Panic (Option Column) :=
  let tag := field.tag
  if tag = [] ∨ tag = "-".toList then .ok none
  else
    let colName := ToSnakeCase field.name
    let defaultType := (GetSQLiteType field.type).1
    let column := { NewColumn colName defaultType with models := models }
    (column.parseColumnTag tag).map some

/-! ## Package `selectstmt` -/

/-- Go `selectstmt.ResultColumn`, as its four constructors make it: an
expression column (`EXPRESSION`, with its alias, empty when there is none), the
wildcard (`WILDCARD`) and the table wildcard (`TABLE_WILDCARD`). -/
inductive ResultColumn where
  | expression (expression : Expression) (alias_ : Str)
  | wildcard
  | tableWildcard (tableName : Str)
  deriving DecidableEq, Repr

/-- Go `selectstmt.NewExpressionColumn`. -/
def NewExpressionColumn (expression : Expression) : ResultColumn := .expression expression []

/-- Go `selectstmt.NewExpressionColumnWithAlias`. -/
def NewExpressionColumnWithAlias (expression : Expression) (alias_ : Str) : ResultColumn :=
  .expression expression alias_

/-- Go `selectstmt.NewWildcardColumn`. -/
def NewWildcardColumn : ResultColumn := .wildcard

/-- Go `selectstmt.NewTableWildcardColumn`. -/
def NewTableWildcardColumn (tableName : Str) : ResultColumn := .tableWildcard tableName

/-- Go `ResultColumn.Build`. -/
def ResultColumn.Build : ResultColumn → Str
  | .expression e alias_ => if alias_ ≠ [] then e.Build ++ " AS ".toList ++ alias_ else e.Build
  | .wildcard => "*".toList
  | .tableWildcard tableName => ToSnakeCase tableName ++ ".*".toList

/-- Go `selectstmt.OrderBy`. -/
structure OrderBy where
  expression : Expression
  direction : Str
  deriving DecidableEq, Repr

/-- Go `selectstmt.NewOrderBy`. -/
def NewOrderBy (expression : Expression) (direction : Str) : OrderBy :=
  { expression := expression, direction := direction }

/-- Go `OrderBy.Build`. -/
def OrderBy.Build (o : OrderBy) : Str :=
  if o.direction = [] then o.expression.Build
  else o.expression.Build ++ " ".toList ++ o.direction

mutual
/-- Go `selectstmt.Select`; the fields in the order of the source:
`selectType, resultColumns, from, where, groupBy, having, orderBy, limit,
offset, hasLimit, hasOffset, statement`. -/
inductive Select where
  | mk (selectType : Str) (resultColumns : List ResultColumn) (from_ : Option From)
      (where_ : Option Expression) (groupBy : List Expression) (having : Option Expression)
      (orderBy : List OrderBy) (limit : Int) (offset : Int) (hasLimit : Bool) (hasOffset : Bool)
      (statement : Str)
/-- Go `selectstmt.From`: `tableName, alias, subquery, joins`. -/
inductive From where
  | mk (tableName : Str) (alias_ : Str) (subquery : Option Select) (joins : List Join)
/-- Go `selectstmt.Join`: `joinType, tableName, subquery, alias, on, using`. -/
inductive Join where
  | mk (joinType : Str) (tableName : Str) (subquery : Option Select) (alias_ : Str)
      (on_ : Option Expression) (using_ : List Str)
end

/-- Go `selectstmt.NewSelect`: the select type is not stored. -/
def NewSelect (_selectType : Str) (columns : List ResultColumn) : Select :=
  .mk [] columns none none [] none [] 0 0 false false []

/-- Go `Select.From`. -/
def Select.From : Select → From → Select
  | .mk st rc _ w g h o l off hl ho stm, f => .mk st rc (some f) w g h o l off hl ho stm

/-- Go `Select.Where`. -/
def Select.Where : Select → Expression → Select
  | .mk st rc f _ g h o l off hl ho stm, condition => .mk st rc f (some condition) g h o l off hl ho stm

/-- Go `Select.GroupBy`. -/
def Select.GroupBy : Select → List Expression → Select
  | .mk st rc f w _ h o l off hl ho stm, expressions => .mk st rc f w expressions h o l off hl ho stm

/-- Go `Select.Having`. -/
def Select.Having : Select → Expression → Select
  | .mk st rc f w g _ o l off hl ho stm, condition => .mk st rc f w g (some condition) o l off hl ho stm

/-- Go `Select.OrderBy`. -/
def Select.OrderBy : Select → List OrderBy → Select
  | .mk st rc f w g h _ l off hl ho stm, orderBy => .mk st rc f w g h orderBy l off hl ho stm

/-- Go `Select.Limit`. -/
def Select.Limit : Select → Int → Select
  | .mk st rc f w g h o _ off _ ho stm, limit => .mk st rc f w g h o limit off true ho stm

/-- Go `Select.Offset`. -/
def Select.Offset : Select → Int → Select
  | .mk st rc f w g h o l _ hl _ stm, offset => .mk st rc f w g h o l offset hl true stm

/-- Go `selectstmt.NewTableFrom`. -/
def NewTableFrom (tableName : Str) : From := .mk tableName [] none []

/-- Go `selectstmt.NewSubqueryFrom`. -/
def NewSubqueryFrom (subquery : Select) : From := .mk [] [] (some subquery) []

/-- Go `From.Alias`. -/
def From.Alias : From → Str → From
  | .mk tn _ sq js, alias_ => .mk tn alias_ sq js

/-- Go `From.Join`. -/
def From.Join : From → Join → From
  | .mk tn a sq js, join => .mk tn a sq (js ++ [join])

/-- Go `selectstmt.NewTableJoin`. -/
def NewTableJoin (joinType : Str) (tableName : Str) : Join := .mk joinType tableName none [] none []

/-- Go `selectstmt.NewSubqueryJoin`. -/
def NewSubqueryJoin (joinType : Str) (subquery : Select) : Join :=
  .mk joinType [] (some subquery) [] none []

/-- Go `Join.Alias`. -/
def Join.Alias : Join → Str → Join
  | .mk jt tn sq _ on_ us, alias_ => .mk jt tn sq alias_ on_ us

/-- Go `Join.On`. -/
def Join.On : Join → Expression → Join
  | .mk jt tn sq a _ us, condition => .mk jt tn sq a (some condition) us

/-- Go `Join.Using`. -/
def Join.Using : Join → List Str → Join
  | .mk jt tn sq a on_ _, columns => .mk jt tn sq a on_ columns

/-- The optional ` AS <alias>` of `From.Build` and `Join.Build`. -/
def withAlias (source alias_ : Str) : Str :=
  if alias_ ≠ [] then source ++ " AS ".toList ++ alias_ else source

/-- The clause list that `Select.Build` joins, given the rendered FROM source. -/
def selectParts (selectType : Str) (resultColumns : List ResultColumn) (fromText : Option Str)
    (where_ : Option Expression) (groupBy : List Expression) (having : Option Expression)
    (orderBy : List OrderBy) (limit offset : Int) (hasLimit hasOffset : Bool) : List Str :=
  [if selectType ≠ [] then "SELECT ".toList ++ selectType else "SELECT".toList] ++
  [if resultColumns.length = 0 then "*".toList
   else strings.Join (resultColumns.map ResultColumn.Build) ", ".toList] ++
  (match fromText with
   | some f => ["FROM ".toList ++ f]
   | none => []) ++
  (match where_ with
   | some e => ["WHERE ".toList ++ e.Build]
   | none => []) ++
  (if groupBy.length > 0 then
     ["GROUP BY ".toList ++ strings.Join (groupBy.map Expression.Build) ", ".toList]
   else []) ++
  (match having with
   | some e => ["HAVING ".toList ++ e.Build]
   | none => []) ++
  (if orderBy.length > 0 then
     ["ORDER BY ".toList ++ strings.Join (orderBy.map OrderBy.Build) ", ".toList]
   else []) ++
  (if hasLimit then ["LIMIT ".toList ++ fmtInt limit] else []) ++
  (if hasOffset then ["OFFSET ".toList ++ fmtInt offset] else [])

mutual
/-- Go `Select.Build`: the text, and the statement as the call leaves it
(`Join.Build` writes to the joins it reaches). -/
def Select.Build : Select → Str × Select
  | .mk st rc from_ w g h o l off hl ho statement =>
    if statement ≠ [] then (statement, .mk st rc from_ w g h o l off hl ho statement)
    else
      match from_ with
      | none => (strings.Join (selectParts st rc none w g h o l off hl ho) " ".toList,
          .mk st rc none w g h o l off hl ho statement)
      | some f =>
        (strings.Join (selectParts st rc (some (From.Build f).1) w g h o l off hl ho) " ".toList,
          .mk st rc (some (From.Build f).2) w g h o l off hl ho statement)
/-- Go `From.Build`, with the state it leaves. -/
def From.Build : From → Str × From
  | .mk tableName alias_ subquery joins =>
    if tableName ≠ [] then
      (if joins.length = 0 then withAlias (ToSnakeCase tableName) alias_
       else withAlias (ToSnakeCase tableName) alias_ ++ " ".toList ++
         strings.Join (buildJoins joins).1 " ".toList,
       .mk tableName alias_ subquery (buildJoins joins).2)
    else
      match subquery with
      | some q =>
        (if joins.length = 0 then
           withAlias ("(".toList ++ (Select.Build q).1 ++ ")".toList) alias_
         else withAlias ("(".toList ++ (Select.Build q).1 ++ ")".toList) alias_ ++ " ".toList ++
           strings.Join (buildJoins joins).1 " ".toList,
         .mk tableName alias_ (some (Select.Build q).2) (buildJoins joins).2)
      | none =>
        (if joins.length = 0 then withAlias [] alias_
         else withAlias [] alias_ ++ " ".toList ++ strings.Join (buildJoins joins).1 " ".toList,
         .mk tableName alias_ none (buildJoins joins).2)
/-- Go `Join.Build`, with the state it leaves: when there is no ON condition
the USING column names are overwritten by their snake-case form. -/
def Join.Build : Join → Str × Join
  | .mk joinType tableName subquery alias_ on_ using_ =>
    let condition : Str :=
      match on_ with
      | some e => " ON ".toList ++ e.Build
      | none =>
        if using_.length > 0 then
          " USING (".toList ++ strings.Join (using_.map ToSnakeCase) ", ".toList ++ ")".toList
        else []
    let using1 : List Str :=
      match on_ with
      | some _ => using_
      | none => using_.map ToSnakeCase
    if tableName ≠ [] then
      (joinType ++ " ".toList ++ withAlias (ToSnakeCase tableName) alias_ ++ condition,
       .mk joinType tableName subquery alias_ on_ using1)
    else
      match subquery with
      | some q =>
        (joinType ++ " ".toList ++
           withAlias ("(".toList ++ (Select.Build q).1 ++ ")".toList) alias_ ++ condition,
         .mk joinType tableName (some (Select.Build q).2) alias_ on_ using1)
      | none =>
        (joinType ++ " ".toList ++ withAlias [] alias_ ++ condition,
         .mk joinType tableName none alias_ on_ using1)
/-- The loop `for _, join := range f.joins` of `From.Build`: the rendered joins
and the joins as the calls leave them. -/
def buildJoins : List Join → List Str × List Join
  | [] => ([], [])
  | j :: js => ((Join.Build j).1 :: (buildJoins js).1, (Join.Build j).2 :: (buildJoins js).2)
end

/-! ## Packages `pragmas`, `idxcol`, `index` -/

/-- Go `pragmas.Pragma`. -/
structure Pragma where
  schemaName : Str
  name : Str
  eqValue : Str := []
  colValue : Str := []
  deriving DecidableEq, Repr

/-- Go `pragmas.NewPragma`. -/
def NewPragma (schemaName name : Str) : Pragma := { schemaName := schemaName, name := name }

/-- Go `Pragma.FuncType`. -/
def Pragma.FuncType (p : Pragma) (value : Str) : Except Panic Pragma :=
  if p.eqValue ≠ [] then .error (.msg "Error Pragma can be only one of the type func/value".toList)
  else .ok { p with colValue := value }

/-- Go `Pragma.ValueType`. -/
def Pragma.ValueType (p : Pragma) (value : Str) : Except Panic Pragma :=
  if p.colValue ≠ [] then .error (.msg "Error Pragma can be only one of the type func/value".toList)
  else .ok { p with eqValue := value }

/-- Go `Pragma.Build`. -/
def Pragma.Build (p : Pragma) : Str :=
  let sch : Str := if p.schemaName ≠ [] then p.schemaName ++ ".".toList else []
  let value1 : Str := if p.eqValue ≠ [] then " = ".toList ++ p.eqValue else []
  let value : Str := if p.colValue ≠ [] then " (".toList ++ p.eqValue ++ ")".toList else value1
  "PRAGMA ".toList ++ sch ++ p.name ++ value

/-- Go `idxcol.IndexedColumn`. -/
structure IndexedColumn where
  name : Str := []
  collate : Str := []
  sortOrder : SortOrder := []
  expression : Option Expression := none
  deriving DecidableEq, Repr

/-- Go `idxcol.NewIndexedColumnNames`. -/
def NewIndexedColumnNames (name : Str) : IndexedColumn := { name := name }

/-- Go `idxcol.NewIndexedColumnExpresions`. -/
def NewIndexedColumnExpresions (expresion : Expression) : IndexedColumn :=
  { expression := some expresion }

/-- Go `IndexedColumn.Collate`. -/
def IndexedColumn.Collate (i : IndexedColumn) (name : Str) : IndexedColumn :=
  { i with collate := name }

/-- Go `IndexedColumn.ASC`. -/
def IndexedColumn.ASC (i : IndexedColumn) : IndexedColumn :=
  if i.sortOrder = [] then { i with sortOrder := Sqlofi.ASC } else i

/-- Go `IndexedColumn.DESC`. -/
def IndexedColumn.DESC (i : IndexedColumn) : IndexedColumn :=
  if i.sortOrder = [] then { i with sortOrder := Sqlofi.DESC } else i

/-- Go `IndexedColumn.Build`. -/
def IndexedColumn.Build (i : IndexedColumn) : Except Panic Str :=
  let middle : Str := if i.collate ≠ [] then " COLLATE ".toList ++ i.collate else []
  let end_ : Str := if i.sortOrder ≠ [] then " ".toList ++ i.sortOrder else []
  if i.name = [] then
    match i.expression with
    | some e => .ok (e.Build ++ middle ++ end_)
    | none => .error .nilDereference
  else .ok (ToSnakeCase i.name ++ middle ++ end_)

/-- Go `index.Index`. -/
structure Index where
  unique : Bool := false
  ifNotExists : Bool := false
  schemaName : Str := []
  name : Str
  table : GoValue
  columns : List IndexedColumn
  where_ : Option Expression := none
  deriving DecidableEq, Repr

/-- Go `index.NewIndex`. -/
def NewIndex (table : GoValue) (indexName : Str) (indexCols : List IndexedColumn) : Index :=
  { name := indexName, table := table, columns := indexCols }

/-- Go `Index.Unique`. -/
def Index.Unique (i : Index) : Index := { i with unique := true }

/-- Go `Index.IfNotExists`. -/
def Index.IfNotExists (i : Index) : Index := { i with ifNotExists := true }

/-- Go `Index.Schema`. -/
def Index.Schema (i : Index) (schemaName : Str) : Index := { i with schemaName := schemaName }

/-- Go `Index.Where`. -/
def Index.Where (i : Index) (expression : Expression) : Index :=
  { i with where_ := some expression }

/-- The loop `for _, column := range i.columns` of `Index.Build`. -/
def indexColumnsLoop : List IndexedColumn → Str → Except Panic Str
  | [], col => .ok col
  | column :: rest, col =>
    match column.Build with
    | .error p => .error p
    | .ok text => indexColumnsLoop rest (col ++ text ++ ", ".toList)

/-- Go `Index.Build`. -/
def Index.Build (i : Index) : Except Panic Str :=
  let uniq : Str := if i.unique then "UNIQUE ".toList else []
  let ifnot : Str := if i.ifNotExists then "IF NOT EXISTS ".toList else []
  let schema : Str := if i.schemaName ≠ [] then i.schemaName ++ ".".toList else []
  match indexColumnsLoop i.columns [] with
  | .error p => .error p
  | .ok col =>
    let where_ : Str :=
      match i.where_ with
      | some e => " WHERE ".toList ++ e.Build
      | none => []
    .ok ("CREATE ".toList ++ uniq ++ "INDEX ".toList ++ ifnot ++ schema ++ i.name ++
      " ON ".toList ++ GetStructName i.table ++ " (".toList ++ col ++ ")".toList ++ where_)

/-! ## Packages `primarykey` and `unique`: the table-level builders -/

/-- The loop `for _, val := range indexedColumn { col = append(col, val.Build()) }`
of `TablePrimaryKey.Build` and `TableUnique.Build`. -/
def buildIndexedColumns : List IndexedColumn → Except Panic (List Str)
  | [] => .ok []
  | val :: rest =>
    match val.Build with
    | .error p => .error p
    | .ok text =>
      match buildIndexedColumns rest with
      | .error p => .error p
      | .ok col => .ok (text :: col)

/-- Go `primarykey.TablePrimaryKey`. -/
structure TablePrimaryKey where
  indexedColumn : List IndexedColumn
  conflict : Str := []
  deriving DecidableEq, Repr

/-- Go `primarykey.NewTablePrimaryKey`. -/
def NewTablePrimaryKey (idxColumns : List IndexedColumn) : TablePrimaryKey :=
  { indexedColumn := idxColumns }

/-- Go `TablePrimaryKey.OnConflict`. -/
def TablePrimaryKey.OnConflict (t : TablePrimaryKey) (conflict : Str) : TablePrimaryKey :=
  { t with conflict := conflict }

/-- Go `TablePrimaryKey.Build`. -/
def TablePrimaryKey.Build (t : TablePrimaryKey) : Except Panic Str :=
  match buildIndexedColumns t.indexedColumn with
  | .error p => .error p
  | .ok col =>
    let conflict : Str := if t.conflict ≠ [] then " ".toList ++ t.conflict else []
    .ok ("PRIMARY KEY (".toList ++ strings.Join col ", ".toList ++ ")".toList ++ conflict)

/-- Go `unique.TableUnique`. -/
structure TableUnique where
  indexedColumn : List IndexedColumn
  conflict : Str := []
  deriving DecidableEq, Repr

/-- Go `unique.NewTableUnique`. -/
def NewTableUnique (idxColumns : List IndexedColumn) : TableUnique :=
  { indexedColumn := idxColumns }

/-- Go `TableUnique.OnConflict`. -/
def TableUnique.OnConflict (u : TableUnique) (conflict : Str) : TableUnique :=
  { u with conflict := conflict }

/-- Go `TableUnique.Build`: the format is `UNIQUE (%s) %s`. -/
def TableUnique.Build (u : TableUnique) : Except Panic Str :=
  match buildIndexedColumns u.indexedColumn with
  | .error p => .error p
  | .ok col =>
    .ok ("UNIQUE (".toList ++ strings.Join col ", ".toList ++ ") ".toList ++ u.conflict)

/-! ## Package `table` -/

/-- Go `table.Table`. -/
structure Table where
  model : GoValue
  foreignTables : List GoValue
  temporary : Bool := false
  schema : Str := []
  name : Str
  ifNotExists : Bool := false
  selectSTMT : Option Select := none
  constraints : List Str := []
  withoutRowID : Bool := false
  strict : Bool := false

/-- Go `table.NewTable`. -/
def NewTable (model : GoValue) (foreignTablePtrs : List GoValue) : Table :=
  { name := GetStructName model, model := model, foreignTables := foreignTablePtrs }

/-- Go `Table.Temporary`. -/
def Table.Temporary (t : Table) : Table := { t with temporary := true }

/-- Go `Table.IfNotExists`. -/
def Table.IfNotExists (t : Table) : Table := { t with ifNotExists := true }

/-- Go `Table.Schema`. -/
def Table.Schema (t : Table) (schemaName : Str) : Table := { t with schema := schemaName }

/-- Go `Table.Select`. -/
def Table.Select (t : Table) (statement : Select) : Table :=
  { t with selectSTMT := some statement }

/-- Go `Table.WithouRowID`. -/
def Table.WithouRowID (t : Table) : Table := { t with withoutRowID := true }

/-- Go `Table.Strict`. -/
def Table.Strict (t : Table) : Table := { t with strict := true }

/-- Go `Table.PrimaryKey`. -/
def Table.PrimaryKey (t : Table) (constraintName : Str) (key : TablePrimaryKey) :
    Except Panic Table :=
  match key.Build with
  | .error p => .error p
  | .ok text => .ok { t with constraints := t.constraints ++ [named constraintName text] }

/-- Go `Table.Unique`. -/
def Table.Unique (t : Table) (constraintName : Str) (unique : TableUnique) :
    Except Panic Table :=
  match unique.Build with
  | .error p => .error p
  | .ok text => .ok { t with constraints := t.constraints ++ [named constraintName text] }

/-- Go `Table.Check`. -/
def Table.Check (t : Table) (constraintName : Str) (expression : Expression) : Table :=
  { t with constraints := t.constraints ++ [named constraintName (CheckBuild expression)] }

/-- Go `Table.ForeignKey`. -/
def Table.ForeignKey (t : Table) (constraintName : Str) (key : References) :
    Except Panic Table :=
  match key.Build with
  | .error p => .error p
  | .ok text => .ok { t with constraints := t.constraints ++ [named constraintName text] }

/-- The loop of `Table.getColumns` over the fields of the model. -/
def getColumnsLoop (foreignTables : List GoValue) :
    List StructField → Except Panic (List (Option Column))
  | [] => .ok []
  | col :: rest =>
    match ParseStructField foreignTables col with
    | .error p => .error p
    | .ok ref =>
      match getColumnsLoop foreignTables rest with
      | .error p => .error p
      | .ok columns => .ok (ref :: columns)

/-- Go `Table.getColumns`. -/
def Table.getColumns (t : Table) : Except Panic (List (Option Column)) :=
  getColumnsLoop t.foreignTables (GetStructFields t.model)

/-- The loop of `Table.buildColumnsDefinition`; `col.Build()` on the nil column
is the nil dereference, and `index+1 == len(columns)` holds at the last
column. -/
def columnsDefinitionLoop : List (Option Column) → Bool → Str → Except Panic Str
  | [], _, result => .ok result
  | none :: _, _, _ => .error .nilDereference
  | some col :: rest, existConstraints, result =>
    if rest.isEmpty && !existConstraints then .ok (result ++ col.Build)
    else columnsDefinitionLoop rest existConstraints (result ++ col.Build ++ ",\n\t".toList)

/-- Go `Table.buildColumnsDefinition`. -/
def Table.buildColumnsDefinition (t : Table) (existConstraints : Bool) : Except Panic Str :=
  match t.getColumns with
  | .error p => .error p
  | .ok columns => columnsDefinitionLoop columns existConstraints "\t".toList

/-- Go `Table.Build`: the text, and the table as the call leaves it (the
backing SELECT is built through its pointer). -/
def Table.Build (t : Table) : Except Panic (Str × Table) :=
  let typeTable : Str := if t.temporary then " TEMP".toList ++ " TABLE".toList else " TABLE".toList
  let ifNotExist : Str := if t.ifNotExists then " IF NOT EXISTS".toList else []
  let schema : Str := if t.schema ≠ [] then t.schema ++ ".".toList else []
  let head : Str := "CREATE".toList ++ typeTable ++ ifNotExist ++ " ".toList ++ schema ++
    ToSnakeCase t.name ++ " ".toList
  match t.selectSTMT with
  | none =>
    let options1 : Str := if t.withoutRowID then " WITHOUT ROWID".toList else []
    let options : Str :=
      if t.strict then
        (if options1 = [] then " STRICT".toList else options1 ++ ", STRICT".toList)
      else options1
    match t.buildColumnsDefinition (decide (t.constraints.length > 0)) with
    | .error p => .error p
    | .ok columns =>
      .ok (head ++ ("(\n".toList ++ columns ++ strings.Join t.constraints ",\n\t".toList ++
        "\n)".toList ++ options), t)
  | some statement =>
    .ok (head ++ ("AS ".toList ++ (Select.Build statement).1),
      { t with selectSTMT := some (Select.Build statement).2 })

/-! ## Package `sqlite`: the schema -/

/-- Go `sqlite.ConflictClause`, a string type. -/
abbrev ConflictClause := Str

def NO_CONFLICT : ConflictClause := []
def ROLLBACK : ConflictClause := "ROLLBACK".toList
def ABORT : ConflictClause := "ABORT".toList
def FAIL : ConflictClause := "FAIL".toList
def IGNORE : ConflictClause := "IGNORE".toList
def REPLACE : ConflictClause := "REPLACE".toList

/-- Go `ConflictClause.String`. -/
def ConflictClause.String (c : ConflictClause) : Str :=
  if c = NO_CONFLICT then [] else "ON CONFLICT ".toList ++ c

/-- Go `sqlite.TableInfo`: `newPragma("", "table_info").FuncType(tableName)`. -/
def TableInfo (tableName : Str) : Except Panic Pragma :=
  (NewPragma [] "table_info".toList).FuncType tableName

/-- Go `sqlite.RAISE`. The verb `%s` of `fmt.Sprintf` formats an operand that
has a `String` method by calling that method, and `ConflictClause` has one;
`expr.Build()` on the nil expression is the nil dereference. -/
def RAISE (action : ConflictClause) (expr : Option Expression) : Except Panic Str :=
  if action = REPLACE ∨ action = NO_CONFLICT then
    .error (.msg "RAISE statement cannot be used with REPLACE or empty string".toList)
  else if action = IGNORE then
    .ok ("RAISE(".toList ++ ConflictClause.String action ++ ")".toList)
  else
    match expr with
    | none => .error .nilDereference
    | some e =>
      .ok ("RAISE(".toList ++ ConflictClause.String action ++ ", ".toList ++ e.Build ++
        ")".toList)

/-- Go `sqlite.Schema`, without the database handle. -/
structure Schema where
  name : Str
  pragmas : List Pragma := []
  tables : List Table := []
  indexes : List Index := []

/-- Go `sqlite.NewSchema`. -/
def NewSchema (name : Str) : Schema := { name := name }

/-- Go `Schema.Pragma`. -/
def Schema.Pragma (s : Schema) (pragmas : List Pragma) : Schema :=
  { s with pragmas := s.pragmas ++ pragmas }

/-- Go `Schema.Table`. -/
def Schema.Table (s : Schema) (tables : List Table) : Schema :=
  { s with tables := s.tables ++ tables }

/-- Go `Schema.Index`. -/
def Schema.Index (s : Schema) (indexes : List Index) : Schema :=
  { s with indexes := s.indexes ++ indexes }

/-- The loop over the pragmas of `Schema.Build`. -/
def schemaPragmasLoop : List Pragma → Str → Str
  | [], schema => schema
  | pragma :: rest, schema => schemaPragmasLoop rest (schema ++ pragma.Build ++ ";\n".toList)

/-- The loop over the tables of `Schema.Build`, with the tables as the calls
leave them. -/
def schemaTablesLoop : List Table → Str → Except Panic (Str × List Table)
  | [], schema => .ok (schema, [])
  | table :: rest, schema =>
    match table.Build with
    | .error p => .error p
    | .ok (text, table1) =>
      match schemaTablesLoop rest (schema ++ text ++ ";\n\n".toList) with
      | .error p => .error p
      | .ok (schema1, rest1) => .ok (schema1, table1 :: rest1)

/-- The loop over the indexes of `Schema.Build`. -/
def schemaIndexesLoop : List Index → Str → Except Panic Str
  | [], schema => .ok schema
  | index :: rest, schema =>
    match index.Build with
    | .error p => .error p
    | .ok text => schemaIndexesLoop rest (schema ++ text ++ ";\n".toList)

/-- Go `Schema.Build`: the script, and the schema as the call leaves it. -/
def Schema.Build (s : Schema) : Except Panic (Str × Schema) :=
  let schema1 := schemaPragmasLoop s.pragmas [] ++ "\n".toList
  match schemaTablesLoop s.tables schema1 with
  | .error p => .error p
  | .ok (schema2, tables1) =>
    match schemaIndexesLoop s.indexes schema2 with
    | .error p => .error p
    | .ok schema3 => .ok (schema3, { s with tables := tables1 })

/-! ## The case mapping of the library as a parameter

Go `strings.ToUpper` and `strings.ToLower` map a text rune by rune, through
`unicode.ToUpper` and `unicode.ToLower`, which are not part of the sources.
The definitions of this section are `ParseReference`, `ToSnakeCase` and the
`Build` methods that write back what they render, with that rune mapping as
the parameter `upper` or `lower` in the place of `upperRune` and `lowerRune`;
at these two they are the definitions above. The column definitions of a
table, which `Table.Build` renders without a change of the table, are those
of `Table.buildColumnsDefinition`, and the index texts those of `Index.Build`. -/

/-- Go `foreignkey.ParseReference`, over the rune mapping `upper` of
`strings.ToUpper`, which the function calls once, for the keyword test. -/
def ParseReferenceWith (upper : Char → Char) (colName : Str) (foreignTables : List GoValue)
    (tag0 : Str) : Except Panic (Except Str References) :=
  let tag := strings.TrimSpace tag0
  if !strings.HasPrefix (tag.map upper) "REFERENCES".toList then
    .ok (.error ("Error tag doesn't start with REFERENCES instead starts with ".toList ++
      (strings.Split tag ' ').headD []))
  else
    let tag1 := strings.TrimSpace (tag.drop "REFERENCES".toList.length)
    match scanTablePart tag1 0 with
    | .error p => .error p
    | .ok (index, atParen) =>
      let tablePart := if atParen then tag1.take (index + 1) else tag1.take index
      let tag2 := strings.TrimSpace (tag1.drop index)
      let foreignTableName := (parseTablePart tablePart).1
      let refs : References :=
        { columnsName := [colName]
          foreignColumnsName := (parseTablePart tablePart).2
          foreignTable := lookupForeignTable foreignTables foreignTableName }
      if refs.foreignTable = .nil then
        .ok (.error
          ("Error from provided structs as foreign tables none of them are matching ".toList ++
            foreignTableName))
      else
        .ok (.ok ((collectClauses tag2 0).foldl applyClause refs))

/-- Go `utils.ToSnakeCase`, over the rune mapping `lower` of `strings.ToLower`. -/
def ToSnakeCaseWith (lower : Char → Char) (s : Str) : Str := (snakeRunes true s).map lower

/-- Go `ResultColumn.Build`, over `lower`. -/
def ResultColumn.BuildWith (lower : Char → Char) : ResultColumn → Str
  | .expression e alias_ => if alias_ ≠ [] then e.Build ++ " AS ".toList ++ alias_ else e.Build
  | .wildcard => "*".toList
  | .tableWildcard tableName => ToSnakeCaseWith lower tableName ++ ".*".toList

/-- The clause list that `Select.Build` joins, over `lower`. -/
def selectPartsWith (lower : Char → Char) (selectType : Str) (resultColumns : List ResultColumn)
    (fromText : Option Str) (where_ : Option Expression) (groupBy : List Expression)
    (having : Option Expression) (orderBy : List OrderBy) (limit offset : Int)
    (hasLimit hasOffset : Bool) : List Str :=
  [if selectType ≠ [] then "SELECT ".toList ++ selectType else "SELECT".toList] ++
  [if resultColumns.length = 0 then "*".toList
   else strings.Join (resultColumns.map (ResultColumn.BuildWith lower)) ", ".toList] ++
  (match fromText with
   | some f => ["FROM ".toList ++ f]
   | none => []) ++
  (match where_ with
   | some e => ["WHERE ".toList ++ e.Build]
   | none => []) ++
  (if groupBy.length > 0 then
     ["GROUP BY ".toList ++ strings.Join (groupBy.map Expression.Build) ", ".toList]
   else []) ++
  (match having with
   | some e => ["HAVING ".toList ++ e.Build]
   | none => []) ++
  (if orderBy.length > 0 then
     ["ORDER BY ".toList ++ strings.Join (orderBy.map OrderBy.Build) ", ".toList]
   else []) ++
  (if hasLimit then ["LIMIT ".toList ++ fmtInt limit] else []) ++
  (if hasOffset then ["OFFSET ".toList ++ fmtInt offset] else [])

mutual
/-- Go `Select.Build`, over `lower`: the text, and the statement as the call
leaves it. -/
def Select.BuildWith (lower : Char → Char) : Select → Str × Select
  | .mk st rc from_ w g h o l off hl ho statement =>
    if statement ≠ [] then (statement, .mk st rc from_ w g h o l off hl ho statement)
    else
      match from_ with
      | none => (strings.Join (selectPartsWith lower st rc none w g h o l off hl ho) " ".toList,
          .mk st rc none w g h o l off hl ho statement)
      | some f =>
        (strings.Join
            (selectPartsWith lower st rc (some (From.BuildWith lower f).1) w g h o l off hl ho)
            " ".toList,
          .mk st rc (some (From.BuildWith lower f).2) w g h o l off hl ho statement)
/-- Go `From.Build`, over `lower`, with the state it leaves. -/
def From.BuildWith (lower : Char → Char) : From → Str × From
  | .mk tableName alias_ subquery joins =>
    if tableName ≠ [] then
      (if joins.length = 0 then withAlias (ToSnakeCaseWith lower tableName) alias_
       else withAlias (ToSnakeCaseWith lower tableName) alias_ ++ " ".toList ++
         strings.Join (buildJoinsWith lower joins).1 " ".toList,
       .mk tableName alias_ subquery (buildJoinsWith lower joins).2)
    else
      match subquery with
      | some q =>
        (if joins.length = 0 then
           withAlias ("(".toList ++ (Select.BuildWith lower q).1 ++ ")".toList) alias_
         else withAlias ("(".toList ++ (Select.BuildWith lower q).1 ++ ")".toList) alias_ ++
           " ".toList ++ strings.Join (buildJoinsWith lower joins).1 " ".toList,
         .mk tableName alias_ (some (Select.BuildWith lower q).2) (buildJoinsWith lower joins).2)
      | none =>
        (if joins.length = 0 then withAlias [] alias_
         else withAlias [] alias_ ++ " ".toList ++
           strings.Join (buildJoinsWith lower joins).1 " ".toList,
         .mk tableName alias_ none (buildJoinsWith lower joins).2)
/-- Go `Join.Build`, over `lower`, with the state it leaves: when there is no
ON condition the USING column names are overwritten by their snake-case form. -/
def Join.BuildWith (lower : Char → Char) : Join → Str × Join
  | .mk joinType tableName subquery alias_ on_ using_ =>
    let condition : Str :=
      match on_ with
      | some e => " ON ".toList ++ e.Build
      | none =>
        if using_.length > 0 then
          " USING (".toList ++ strings.Join (using_.map (ToSnakeCaseWith lower)) ", ".toList ++
            ")".toList
        else []
    let using1 : List Str :=
      match on_ with
      | some _ => using_
      | none => using_.map (ToSnakeCaseWith lower)
    if tableName ≠ [] then
      (joinType ++ " ".toList ++ withAlias (ToSnakeCaseWith lower tableName) alias_ ++ condition,
       .mk joinType tableName subquery alias_ on_ using1)
    else
      match subquery with
      | some q =>
        (joinType ++ " ".toList ++
           withAlias ("(".toList ++ (Select.BuildWith lower q).1 ++ ")".toList) alias_ ++ condition,
         .mk joinType tableName (some (Select.BuildWith lower q).2) alias_ on_ using1)
      | none =>
        (joinType ++ " ".toList ++ withAlias [] alias_ ++ condition,
         .mk joinType tableName none alias_ on_ using1)
/-- The loop `for _, join := range f.joins` of `From.Build`, over `lower`. -/
def buildJoinsWith (lower : Char → Char) : List Join → List Str × List Join
  | [] => ([], [])
  | j :: js =>
    ((Join.BuildWith lower j).1 :: (buildJoinsWith lower js).1,
      (Join.BuildWith lower j).2 :: (buildJoinsWith lower js).2)
end

/-- Go `Table.Build`, over `lower`: the text, and the table as the call leaves
it. -/
def Table.BuildWith (lower : Char → Char) (t : Table) : Except Panic (Str × Table) :=
  let typeTable : Str := if t.temporary then " TEMP".toList ++ " TABLE".toList else " TABLE".toList
  let ifNotExist : Str := if t.ifNotExists then " IF NOT EXISTS".toList else []
  let schema : Str := if t.schema ≠ [] then t.schema ++ ".".toList else []
  let head : Str := "CREATE".toList ++ typeTable ++ ifNotExist ++ " ".toList ++ schema ++
    ToSnakeCaseWith lower t.name ++ " ".toList
  match t.selectSTMT with
  | none =>
    let options1 : Str := if t.withoutRowID then " WITHOUT ROWID".toList else []
    let options : Str :=
      if t.strict then
        (if options1 = [] then " STRICT".toList else options1 ++ ", STRICT".toList)
      else options1
    match t.buildColumnsDefinition (decide (t.constraints.length > 0)) with
    | .error p => .error p
    | .ok columns =>
      .ok (head ++ ("(\n".toList ++ columns ++ strings.Join t.constraints ",\n\t".toList ++
        "\n)".toList ++ options), t)
  | some statement =>
    .ok (head ++ ("AS ".toList ++ (Select.BuildWith lower statement).1),
      { t with selectSTMT := some (Select.BuildWith lower statement).2 })

/-- The loop over the tables of `Schema.Build`, over `lower`. -/
def schemaTablesLoopWith (lower : Char → Char) :
    List Table → Str → Except Panic (Str × List Table)
  | [], schema => .ok (schema, [])
  | table :: rest, schema =>
    match table.BuildWith lower with
    | .error p => .error p
    | .ok (text, table1) =>
      match schemaTablesLoopWith lower rest (schema ++ text ++ ";\n\n".toList) with
      | .error p => .error p
      | .ok (schema1, rest1) => .ok (schema1, table1 :: rest1)

/-- Go `Schema.Build`, over `lower`: the script, and the schema as the call
leaves it. -/
def Schema.BuildWith (lower : Char → Char) (s : Schema) : Except Panic (Str × Schema) :=
  let schema1 := schemaPragmasLoop s.pragmas [] ++ "\n".toList
  match schemaTablesLoopWith lower s.tables schema1 with
  | .error p => .error p
  | .ok (schema2, tables1) =>
    match schemaIndexesLoop s.indexes schema2 with
    | .error p => .error p
    | .ok schema3 => .ok (schema3, { s with tables := tables1 })

/-! ## The root package `sqlofi`: the first generator -/

/-- Go `strings.Cut`: the text before and after the first instance of `sep`,
and whether `sep` was found. -/
def strings.Cut (s sep : Str) : Str × Str × Bool :=
  match strings.Index s sep with
  | some i => (s.take i, s.drop (i + sep.length), true)
  | none => (s, [], false)

/-- Go `strings.CutSuffix`. -/
def strings.CutSuffix (s suffix : Str) : Str × Bool :=
  if strings.HasSuffix s suffix then (s.take (s.length - suffix.length), true) else (s, false)

/-- Go `sqlofi.ForeignKey` of the root package. -/
structure ForeignKey where
  Column : Str := []
  References : Str
  Action : Str
  deriving DecidableEq, Repr

/-- Go `parseForeignKey`. -/
def parseForeignKey (value : Str) : ForeignKey :=
  { References := (strings.Cut value ",".toList).1, Action := (strings.Cut value ",".toList).2.1 }

/-- Go `ForeignKey.String`. -/
def ForeignKey.String (f : ForeignKey) : Str :=
  if f.Action = [] then
    "FOREIGN KEY (".toList ++ f.Column ++ ") REFERENCES ".toList ++ f.References ++ " ".toList ++
      f.Action
  else "FOREIGN KEY (".toList ++ f.Column ++ ") REFERENCES ".toList ++ f.References

/-- Go `sqlofi.GeneratedOption`. -/
structure GeneratedOption where
  computeLogic : Str
  Stored : Bool
  deriving DecidableEq, Repr

/-- Go `parseGenerated`. -/
def parseGenerated (value : Str) : GeneratedOption :=
  { computeLogic := (strings.CutSuffix value ",STORED".toList).1,
    Stored := (strings.CutSuffix value ",STORED".toList).2 }

/-- Go `GeneratedOption.String`. -/
def GeneratedOption.String (g : GeneratedOption) : Str :=
  if g.Stored then "GENERATED ALWAYS AS ".toList ++ g.computeLogic ++ " STORED".toList
  else "GENERATED ALWAYS AS ".toList ++ g.computeLogic ++ " VIRTUAL".toList

/-- Go `sqlofi.IndexOptions`. -/
structure IndexOptions where
  Name : Str
  Unique : Bool
  Where : Str
  Column : Str := []
  deriving DecidableEq, Repr

/-- Go `parseIndex`. -/
def parseIndex (unique : Bool) (value : Str) : IndexOptions :=
  { Name := (strings.Cut value ",WHERE ".toList).1, Unique := unique,
    Where := (strings.Cut value ",WHERE ".toList).2.1 }

/-- Go `sqlofi.TagOptions`; the field `Type` is written `Type_`. -/
structure TagOptions where
  Type_ : Str := []
  PrimaryKey : Bool := false
  ForeignKey : Option Sqlofi.ForeignKey := none
  Unique : Bool := false
  NotNull : Bool := false
  AutoIncrement : Bool := false
  Default : Str := []
  Check : Str := []
  Collate : Str := []
  Generated : Option GeneratedOption := none
  OnConflict : Str := []
  Deferrable : Bool := false
  InitiallyDeferred : Bool := false
  Index : Option IndexOptions := none
  deriving DecidableEq, Repr

/-- Go `TagOptions.Validate`: the error, `none` for `nil`, and the options as
the call leaves them. -/
def TagOptions.Validate (t : TagOptions) : Option Str × TagOptions :=
  if t.AutoIncrement ∧ (!t.PrimaryKey ∨ t.Type_ ≠ "INTEGER".toList) then
    (some "AUTOINCREMENT is only allowed on INTEGER PRIMARY KEY columns".toList, t)
  else if t.Generated ≠ none ∧ t.Default ≠ [] then
    (some "generated column cannot have DEFAULT value".toList, t)
  else if t.Generated ≠ none ∧ t.PrimaryKey then
    (some "generated column cannot be PRIMARY KEY".toList, t)
  else if t.Generated ≠ none ∧ t.Unique then
    (some "generated column cannot be UNIQUE".toList, t)
  else if t.Generated ≠ none ∧ t.ForeignKey ≠ none then
    (some "generated column cannot be FOREIGN KEY".toList, t)
  else
    let t1 : TagOptions := if t.PrimaryKey ∧ !t.NotNull then { t with NotNull := true } else t
    if t1.PrimaryKey ∧ t1.Default ≠ [] then
      (some "PRIMARY KEY column cannot have DEFAULT value".toList, t1)
    else if t1.ForeignKey ≠ none ∧ t1.Generated ≠ none then
      (some "FOREIGN KEY column cannot be generated".toList, t1)
    else
      match t1.Index, t1.Generated with
      | some _, some g =>
        if !g.Stored then (some "cannot create index on VIRTUAL generated column".toList, t1)
        else (none, t1)
      | _, _ => (none, t1)

/-! ## Vocabulary of the theorems -/

/-- The model `T` with the fields `Id` (integer, `PRIMARY KEY AUTOINCREMENT`)
and `Name` (string, `NOT NULL`). -/
def modelT : GoValue :=
  .struct "T".toList
    [{ name := "Id".toList, type := .int, tag := "PRIMARY KEY AUTOINCREMENT".toList },
     { name := "Name".toList, type := .string, tag := "NOT NULL".toList }]

/-- The model `Category` of `cmd/examples/main.go`. -/
def modelCategory : GoValue :=
  .struct "Category".toList
    [{ name := "Id".toList, type := .int, tag := "PRIMARY KEY AUTOINCREMENT".toList },
     { name := "Name".toList, type := .string, tag := "NOT NULL UNIQUE".toList }]

/-- The target entity name that `ParseReference` reads from a tag, when the
tag passes the keyword test and the boundary scan ends inside the tag. -/
def referencedEntity (tag0 : Str) : Option Str :=
  let tag := strings.TrimSpace tag0
  if !strings.HasPrefix (strings.ToUpper tag) "REFERENCES".toList then none
  else
    let tag1 := strings.TrimSpace (tag.drop "REFERENCES".toList.length)
    match scanTablePart tag1 0 with
    | .error _ => none
    | .ok (index, atParen) =>
      some (parseTablePart (if atParen then tag1.take (index + 1) else tag1.take index)).1

/-- One call of a constraint method of `Column`, with its arguments. -/
inductive ColumnCall where
  | primaryKey (constraintName : Str) (sortOrder : SortOrder) (conflict : Str)
      (autoincrement : Bool)
  | notNull (constraintName conflict : Str)
  | unique (constraintName conflict : Str)
  | check (constraintName : Str) (ex : Expression)
  | defaultValue (constraintName content : Str)
  | collate (constraintName name : Str)
  | foreignKey (constraintName content : Str)
  | generated (constraintName : Str) (always : Bool) (ex : Expression)
      (storageType : StorageType)
  deriving DecidableEq, Repr

/-- The method call on a column. -/
def Column.call (c : Column) : ColumnCall → Except Panic Column
  | .primaryKey n so cf a => c.PrimaryKey n so cf a
  | .notNull n cf => .ok (c.NotNull n cf)
  | .unique n cf => c.Unique n cf
  | .check n ex => .ok (c.Check n ex)
  | .defaultValue n content => c.Default n content
  | .collate n name => .ok (c.Collate n name)
  | .foreignKey n content => c.ForeignKey n content
  | .generated n always ex st => c.Generated n always ex st

/-- A sequence of method calls, each on the column the one before returned;
it stops at the first call that panics. -/
def Column.callAll (c : Column) : List ColumnCall → Except Panic Column
  | [] => .ok c
  | call :: rest =>
    match c.call call with
    | .error p => .error p
    | .ok c1 => c1.callAll rest

/-- The invariant of the flags of a column (spec, section 3). -/
def Column.FlagsConsistent (c : Column) : Prop :=
  (c.hasGenerated = true →
    c.hasPrimaryKey = false ∧ c.hasUnique = false ∧ c.hasDefault = false ∧
      c.hasForeignKey = false) ∧
  (c.hasPrimaryKey = true → c.hasDefault = false) ∧
  (c.hasAutoincrement = true → c.hasPrimaryKey = true ∧ c.colType = INTEGER)

/-- A SELECT whose FROM clause joins with USING on camel-case columns, with ON,
and with a subquery. -/
def selectWithJoins : Select :=
  ((NewSelect [] [NewExpressionColumn (NewExpression "o.Id".toList), NewWildcardColumn]).From
    ((((NewTableFrom "OrderItem".toList).Alias "o".toList).Join
        ((NewTableJoin "INNER JOIN".toList "Product".toList).Using
          ["ProductId".toList, "OrderId".toList])).Join
      (((NewSubqueryJoin "LEFT JOIN".toList
          ((NewSelect [] []).From (NewTableFrom "Category".toList))).Alias "c".toList).On
        (NewExpression "c.id = o.category_id".toList)))).Limit 0

/-- A schema with one pragma, the table of the model `T`, a table backed by
`selectWithJoins`, and one index. -/
def exampleSchema : Schema :=
  (((NewSchema "main".toList).Pragma [NewPragma [] "foreign_keys".toList]).Table
    [NewTable modelT [], (NewTable modelCategory []).Select selectWithJoins]).Index
    [NewIndex modelT "idx_name".toList [NewIndexedColumnNames "Name".toList]]

/-- The statement of the spec's example, through the calls of the `sqlite`
package: `SELECT(DISTINCT, a, b)`, `FROM` a table with one INNER JOIN carrying
ON, `WHERE`, `GROUP_BY`, `HAVING`, `ORDER_BY` with an ascending and a
descending key, `LIMIT 10`, `OFFSET 5`. -/
def selectDistinct : Select :=
  (((((((NewSelect "DISTINCT".toList
      [NewExpressionColumn (NewExpression "o.id".toList),
       NewExpressionColumnWithAlias (NewExpression "COUNT(*)".toList) "n".toList]).From
    ((NewTableFrom "Orders".toList).Join
      ((NewTableJoin "INNER JOIN".toList "Customers".toList).On
        (NewExpression "orders.customer_id = customers.id".toList)))).Where
    (NewExpression "o.total > 0".toList)).GroupBy
    [NewExpression "o.id".toList]).Having
    (NewExpression "COUNT(*) > 1".toList)).OrderBy
    [NewOrderBy (NewExpression "o.id".toList) "ASC".toList,
     NewOrderBy (NewExpression "n".toList) "DESC".toList]).Limit 10).Offset 5

/-- A model `Device` with a field whose name is written in capitals. -/
def modelDevice : GoValue :=
  .struct "Device".toList
    [{ name := "Id".toList, type := .int, tag := "PRIMARY KEY AUTOINCREMENT".toList },
     { name := "ONLINE".toList, type := .bool, tag := "NOT NULL".toList }]

/-- One call of a method of `References`, with its arguments. -/
inductive RefCall where
  | onDelete (action : Str)
  | onUpdate (action : Str)
  | matchName (name : Str)
  | deferrable (action : Str)
  | notDeferrable (action : Str)
  | foreighColumns (columns : List Str)
  | foreignTable (foreignTablePtr : GoValue)
  deriving DecidableEq, Repr

/-- The method call on a reference. -/
def References.call (r : References) : RefCall → Except Panic References
  | .onDelete action => .ok (r.OnDelete action)
  | .onUpdate action => .ok (r.OnUpdate action)
  | .matchName name => .ok (r.Match name)
  | .deferrable action => .ok (r.Deferrable action)
  | .notDeferrable action => .ok (r.NotDeferrable action)
  | .foreighColumns columns => r.ForeighColumns columns
  | .foreignTable t => .ok (r.ForeignTable t)

/-- A sequence of method calls, each on the reference the one before returned;
it stops at the first call that panics. -/
def References.callAll (r : References) : List RefCall → Except Panic References
  | [] => .ok r
  | call :: rest =>
    match r.call call with
    | .error p => .error p
    | .ok r1 => r1.callAll rest

/-- A table-level reference with every clause set, as made by
`FOREIGN_KEY(&Category{}, "CategoryId").ForeighColumns("Id")` and the setters. -/
def tableLevelReference : References :=
  { tableTypeReference := true
    columnsName := ["CategoryId".toList]
    foreignTable := modelCategory
    foreignColumnsName := ["Id".toList]
    onDeleteVal := "CASCADE".toList
    onUpdateVal := "SET NULL".toList
    matchVal := "FULL".toList
    deferrableVal := some "INITIALLY DEFERRED".toList }

/-- Whether a token, in capitals, is contained in one of the eight keywords
that the `switch` of `parseColumnTag` tests. -/
def containedInKeyword (token : Str) : Bool :=
  strings.Contains PRIMARY_KEY (strings.ToUpper token) ||
  strings.Contains NOT_NULL (strings.ToUpper token) ||
  strings.Contains UNIQUE (strings.ToUpper token) ||
  strings.Contains CHECK (strings.ToUpper token) ||
  strings.Contains DEFAULT (strings.ToUpper token) ||
  strings.Contains COLLATE (strings.ToUpper token) ||
  strings.Contains REFERENCES (strings.ToUpper token) ||
  strings.Contains GENERATED (strings.ToUpper token)

/-- A model in the manner of `Product` of `cmd/examples/main.go`: the field
`Description` has the empty annotation and the field `Secret` the annotation
`-`. -/
def modelProduct : GoValue :=
  .struct "Product".toList
    [{ name := "Id".toList, type := .int, tag := "PRIMARY KEY AUTOINCREMENT".toList },
     { name := "Name".toList, type := .string, tag := "NOT NULL UNIQUE".toList },
     { name := "Description".toList, type := .string, tag := [] },
     { name := "Secret".toList, type := .string, tag := "-".toList }]

/-- The model `modelProduct` without its two fields that mean no column. -/
def modelProductAnnotated : GoValue :=
  .struct "Product".toList
    [{ name := "Id".toList, type := .int, tag := "PRIMARY KEY AUTOINCREMENT".toList },
     { name := "Name".toList, type := .string, tag := "NOT NULL UNIQUE".toList }]

/-- A model named `OrderItem`, after `cmd/examples/main.go`. -/
def modelOrderItem : GoValue :=
  .struct "OrderItem".toList
    [{ name := "Id".toList, type := .int, tag := "PRIMARY KEY AUTOINCREMENT".toList },
     { name := "Quantity".toList, type := .int, tag := "NOT NULL".toList }]

/-- One call of a method of `Table`, with its arguments. -/
inductive TableCall where
  | temporary
  | ifNotExists
  | schema (schemaName : Str)
  | select (statement : Select)
  | withouRowID
  | strict
  | primaryKey (constraintName : Str) (key : TablePrimaryKey)
  | unique (constraintName : Str) (unique : TableUnique)
  | check (constraintName : Str) (expression : Expression)
  | foreignKey (constraintName : Str) (key : References)

/-- The method call on a table. -/
def Table.call (t : Table) : TableCall → Except Panic Table
  | .temporary => .ok t.Temporary
  | .ifNotExists => .ok t.IfNotExists
  | .schema schemaName => .ok (t.Schema schemaName)
  | .select statement => .ok (t.Select statement)
  | .withouRowID => .ok t.WithouRowID
  | .strict => .ok t.Strict
  | .primaryKey constraintName key => t.PrimaryKey constraintName key
  | .unique constraintName key => t.Unique constraintName key
  | .check constraintName expression => .ok (t.Check constraintName expression)
  | .foreignKey constraintName key => t.ForeignKey constraintName key

/-- A sequence of method calls, each on the table the one before returned; it
stops at the first call that panics. -/
def Table.callAll (t : Table) : List TableCall → Except Panic Table
  | [] => .ok t
  | call :: rest =>
    match t.call call with
    | .error p => .error p
    | .ok t1 => t1.callAll rest

def TableCall.isTemporary : TableCall → Bool
  | .temporary => true
  | _ => false

def TableCall.isIfNotExists : TableCall → Bool
  | .ifNotExists => true
  | _ => false

def TableCall.isSelect : TableCall → Bool
  | .select _ => true
  | _ => false

def TableCall.isWithouRowID : TableCall → Bool
  | .withouRowID => true
  | _ => false

def TableCall.isStrict : TableCall → Bool
  | .strict => true
  | _ => false

/-- The schema name after one more call: a call of `Schema` replaces it. -/
def schemaAfter (current : Str) : TableCall → Str
  | .schema schemaName => schemaName
  | _ => current

/-- The schema name that a sequence of calls leaves: the argument of the last
call of `Schema`, the empty text when there is none. -/
def schemaSet (calls : List TableCall) : Str := calls.foldl schemaAfter []

/-- The entry that a call adds to the table-level constraints: for the four
constraint methods the rendered constraint, behind `CONSTRAINT <name> ` when a
name is given; `none` for the other methods. -/
def TableCall.entry : TableCall → Option (Except Panic Str)
  | .primaryKey constraintName key => some (key.Build.map (named constraintName))
  | .unique constraintName key => some (key.Build.map (named constraintName))
  | .check constraintName expression => some (.ok (named constraintName (CheckBuild expression)))
  | .foreignKey constraintName key => some (key.Build.map (named constraintName))
  | _ => none

/-- One call of `Pragma`, `Table` or `Index` on a schema, with its arguments. -/
inductive SchemaCall where
  | pragma (pragmas : List Pragma)
  | table (tables : List Table)
  | index (indexes : List Index)

/-- The method call on a schema. -/
def Schema.call (s : Schema) : SchemaCall → Schema
  | .pragma pragmas => s.Pragma pragmas
  | .table tables => s.Table tables
  | .index indexes => s.Index indexes

def SchemaCall.pragmas : SchemaCall → List Pragma
  | .pragma pragmas => pragmas
  | _ => []

def SchemaCall.tables : SchemaCall → List Table
  | .table tables => tables
  | _ => []

def SchemaCall.indexes : SchemaCall → List Index
  | .index indexes => indexes
  | _ => []

/-- The source that a join names: the table name in snake case, or the
subquery in parentheses. -/
def joinSource (tableName : Str) (subquery : Option Select) : Str :=
  if tableName ≠ [] then ToSnakeCase tableName
  else
    match subquery with
    | some q => "(".toList ++ (Select.Build q).1 ++ ")".toList
    | none => []

/-- The calls `Temporary().IfNotExists().Schema("main").WithouRowID().Strict()`
and a named CHECK. -/
def optionCalls : List TableCall :=
  [.temporary, .ifNotExists, .schema "main".toList, .withouRowID, .strict,
   .check "positive".toList (NewExpression "id > 0".toList)]

/-- The four constraint methods, called in the order PRIMARY KEY (named),
UNIQUE with a conflict clause, CHECK, FOREIGN KEY (named). -/
def constraintCalls : List TableCall :=
  [.primaryKey "pk_t".toList (NewTablePrimaryKey [NewIndexedColumnNames "Id".toList]),
   .unique [] ((NewTableUnique [NewIndexedColumnNames "Name".toList]).OnConflict
     (ConflictClause.String ROLLBACK)),
   .check [] (NewExpression "id > 0".toList),
   .foreignKey "fk_t".toList tableLevelReference]

/-- The columns that the two fields of the model `T` are parsed to. -/
def columnsOfT : List Column :=
  [{ NewColumn "id".toList INTEGER with
      hasPrimaryKey := true
      hasNotNull := true
      hasAutoincrement := true
      constraint := ["PRIMARY KEY ASC AUTOINCREMENT".toList] },
   { NewColumn "name".toList TEXT with
      hasNotNull := true
      constraint := ["NOT NULL".toList] }]

/-- Calls on a schema in a mixed order: an index first, then a table, a
pragma, another table, another pragma. -/
def mixedSchemaCalls : List SchemaCall :=
  [.index [NewIndex modelT "idx_t".toList []],
   .table [NewTable modelT []],
   .pragma [{ schemaName := [], name := "foreign_keys".toList, eqValue := "ON".toList }],
   .table [NewTable modelCategory []],
   .pragma [NewPragma "main".toList "journal_mode".toList]]

/-- The running depth after a list of tokens: every `(` of a token counts +1
and every `)` counts -1. -/
def parenDepth (tokens : List Str) : Int :=
  (tokens.map (fun token =>
    (strings.Count token '(' : Int) - (strings.Count token ')' : Int))).sum

/-- The text of a span of tokens as `findBalancedParentheses` builds it: every
token followed by a space, and the whole trimmed. -/
def spanText (span : List Str) : Str :=
  strings.TrimSpace ((span.map (fun token => token ++ " ".toList)).flatten)

/-- The sort order that a list of option tokens names last, `ASC` when it
names none. -/
def lastSortOrder (opts : List Str) : SortOrder :=
  opts.foldl
    (fun order t =>
      if strings.ToUpper t = ASC then ASC else if strings.ToUpper t = DESC then DESC else order)
    ASC

/-- Whether the text holds ASCII characters only. On such text the rune
mapping of `strings.ToUpper` is `upperRune`. -/
def isASCII (s : Str) : Bool := s.all (fun c => decide (c.toNat < 128))

/-- The text that `References.Build` renders before the two deferral clauses:
the optional `FOREIGN KEY (...)`, the target and its columns, and the ON
DELETE, ON UPDATE and MATCH clauses that are set. -/
def referenceBeforeDeferral (r : References) : Str :=
  (if r.tableTypeReference = true then
      "FOREIGN KEY (".toList ++ strings.Join (r.columnsName.map ToSnakeCase) ", ".toList ++
        ") ".toList
    else []) ++
  "REFERENCES ".toList ++ ToSnakeCase (GetStructName r.foreignTable) ++
  (if r.foreignColumnsName = [] then []
    else " (".toList ++ strings.Join (r.foreignColumnsName.map ToSnakeCase) ", ".toList ++
      ")".toList) ++
  (if r.onDeleteVal = [] then [] else " ON DELETE ".toList ++ r.onDeleteVal) ++
  (if r.onUpdateVal = [] then [] else " ON UPDATE ".toList ++ r.onUpdateVal) ++
  (if r.matchVal = [] then [] else " MATCH ".toList ++ r.matchVal)

/-! # Theorems -/

/-! ## Characters and case mapping -/

theorem char_le_iff (a b : Char) : a ≤ b ↔ a.toNat ≤ b.toNat := Iff.rfl

theorem toNat_ofNat_small (n : Nat) (h : n < 0xd800) : (Char.ofNat n).toNat = n := by
  have hv : n.isValidChar := Or.inl h
  unfold Char.ofNat
  rw [dif_pos hv]
  rfl

theorem char_toNat_inj {a b : Char} (h : a.toNat = b.toNat) : a = b := by
  rw [← Char.ofNat_toNat a, ← Char.ofNat_toNat b, h]

theorem lowerRune_toNat (c : Char) :
    (lowerRune c).toNat = if 65 ≤ c.toNat ∧ c.toNat ≤ 90 then c.toNat + 32 else c.toNat := by
  unfold lowerRune
  have e1 : ('A' ≤ c ∧ c ≤ 'Z') ↔ (65 ≤ c.toNat ∧ c.toNat ≤ 90) := by
    rw [char_le_iff, char_le_iff]; rfl
  by_cases h : 65 ≤ c.toNat ∧ c.toNat ≤ 90
  · rw [if_pos (e1.mpr h), if_pos h]
    exact toNat_ofNat_small _ (by omega)
  · rw [if_neg (fun h1 => h (e1.mp h1)), if_neg h]

theorem lowerRune_idem (c : Char) : lowerRune (lowerRune c) = lowerRune c := by
  apply char_toNat_inj
  rw [lowerRune_toNat (lowerRune c), lowerRune_toNat c]
  split_ifs <;> omega

theorem lowerRune_not_capital (c : Char) : ¬ ('A' ≤ lowerRune c ∧ lowerRune c ≤ 'Z') := by
  have e1 : ('A' ≤ lowerRune c ∧ lowerRune c ≤ 'Z') ↔
      (65 ≤ (lowerRune c).toNat ∧ (lowerRune c).toNat ≤ 90) := by
    rw [char_le_iff, char_le_iff]; rfl
  rw [e1, lowerRune_toNat]
  split_ifs <;> omega

/-! ## Table rendering -/

/-- C1, as stated, fails: `Table.Build` on the model `T` does not return the
text with `PRIMARY KEY AUTOINCREMENT` and the terminator `;\n`. -/
theorem C1_table_build_not_as_stated :
    (Table.Build (NewTable modelT [])).map Prod.fst ≠
      .ok ("CREATE TABLE t (\n\tid INTEGER PRIMARY KEY AUTOINCREMENT," ++
        "\n\tname TEXT NOT NULL\n);\n").toList := by
  decide

/-- C1, amended: `Table.Build` on the model `T`, without table constraints and
foreign tables, returns exactly
`CREATE TABLE t (\n\tid INTEGER PRIMARY KEY ASC AUTOINCREMENT,\n\tname TEXT NOT NULL\n)`:
the sort order `ASC` that the annotation parser assumes is rendered, and the
statement carries no terminator. -/
theorem C1_table_build_T :
    (Table.Build (NewTable modelT [])).map Prod.fst =
      .ok ("CREATE TABLE t (\n\tid INTEGER PRIMARY KEY ASC AUTOINCREMENT," ++
        "\n\tname TEXT NOT NULL\n)").toList := by
  decide

/-! ## The PRIMARY KEY branch of the annotation parser -/

theorem pkScan_of_options :
    ∀ (rest : List Str) (j : Nat) (o : PkOptions),
      (∀ t ∈ rest, strings.ToUpper t = ASC ∨ strings.ToUpper t = DESC ∨
        strings.ToUpper t = "AUTOINCREMENT".toList) →
      pkScan rest j o =
        { sortOrder := rest.foldl
            (fun order t =>
              if strings.ToUpper t = ASC then ASC
              else if strings.ToUpper t = DESC then DESC else order) o.sortOrder
          conflict := o.conflict
          autoincrement := o.autoincrement ||
            rest.any (fun t => decide (strings.ToUpper t = "AUTOINCREMENT".toList))
          i := if rest = [] then o.i else j + rest.length - 1 } := by
  intro rest
  induction rest with
  | nil => intro j o _; simp [pkScan]
  | cons t rest ih =>
    intro j o h
    have hrest : ∀ x ∈ rest, strings.ToUpper x = ASC ∨ strings.ToUpper x = DESC ∨
        strings.ToUpper x = "AUTOINCREMENT".toList :=
      fun x hx => h x (List.mem_cons_of_mem _ hx)
    have hi : (if rest = [] then j else j + 1 + rest.length - 1) =
        j + (rest.length + 1) - 1 := by
      cases rest with
      | nil => simp
      | cons r rs => simp only [reduceCtorEq, if_false, List.length_cons]; omega
    unfold pkScan
    simp only []
    rcases h t (List.mem_cons_self _ _) with ht | ht | ht
    · have e : strings.ToUpper t = "ASC".toList := ht
      have na : ¬ (strings.ToUpper t = "AUTOINCREMENT".toList) := by rw [e]; decide
      rw [if_pos e, ih _ _ hrest]
      simp only [PkOptions.mk.injEq, List.foldl_cons, if_pos ht, List.any_cons, na, decide_False,
        Bool.false_or, reduceCtorEq, if_false, List.length_cons, hi, and_self]
    · have e : strings.ToUpper t = "DESC".toList := ht
      have n1 : ¬ (strings.ToUpper t = "ASC".toList) := by rw [e]; decide
      have n1a : ¬ (strings.ToUpper t = ASC) := n1
      have na : ¬ (strings.ToUpper t = "AUTOINCREMENT".toList) := by rw [e]; decide
      rw [if_neg n1, if_pos e, ih _ _ hrest]
      simp only [PkOptions.mk.injEq, List.foldl_cons, if_neg n1a, if_pos ht, List.any_cons, na,
        decide_False, Bool.false_or, reduceCtorEq, if_false, List.length_cons, hi, and_self]
    · have n1 : ¬ (strings.ToUpper t = "ASC".toList) := by rw [ht]; decide
      have n2 : ¬ (strings.ToUpper t = "DESC".toList) := by rw [ht]; decide
      have n1a : ¬ (strings.ToUpper t = ASC) := n1
      have n2a : ¬ (strings.ToUpper t = DESC) := n2
      rw [if_neg n1, if_neg n2, if_pos ht, ih _ _ hrest]
      simp only [PkOptions.mk.injEq, List.foldl_cons, if_neg n1a, if_neg n2a, true_and]
      simp only [List.any_cons, ht, decide_True, Bool.true_or, Bool.or_true, reduceCtorEq,
        if_false, List.length_cons, hi, and_self]

theorem lastSortOrder_cases (opts : List Str) :
    lastSortOrder opts = ASC ∨ lastSortOrder opts = DESC := by
  unfold lastSortOrder
  suffices h : ∀ (l : List Str) (start : SortOrder), (start = ASC ∨ start = DESC) →
      (l.foldl (fun order t =>
        if strings.ToUpper t = ASC then ASC
        else if strings.ToUpper t = DESC then DESC else order) start = ASC ∨
       l.foldl (fun order t =>
        if strings.ToUpper t = ASC then ASC
        else if strings.ToUpper t = DESC then DESC else order) start = DESC) from
    h opts ASC (Or.inl rfl)
  intro l
  induction l with
  | nil => intro start h; exact h
  | cons t l ih =>
    intro start h
    rw [List.foldl_cons]
    apply ih
    split_ifs
    · exact Or.inl rfl
    · exact Or.inr rfl
    · exact h

theorem step_of_primary_key_options (c : Column) (k0 k1 : Str) (opts : List Str)
    (hkey : strings.ToUpper k0 = "PRIMARY".toList)
    (hint : c.colType = INTEGER) (hgen : c.hasGenerated = false) (hdef : c.hasDefault = false)
    (hopts : ∀ t ∈ opts, strings.ToUpper t = ASC ∨ strings.ToUpper t = DESC ∨
      strings.ToUpper t = "AUTOINCREMENT".toList)
    (hauto : ∃ t ∈ opts, strings.ToUpper t = "AUTOINCREMENT".toList) :
    parseColumnTagStep (k0 :: k1 :: opts) 0 c =
      .ok (opts.length + 1,
        { c with
          hasNotNull := true
          hasPrimaryKey := true
          hasAutoincrement := true
          constraint := c.constraint ++
            ["PRIMARY KEY ".toList ++ lastSortOrder opts ++ " AUTOINCREMENT".toList] }) := by
  have hne : ¬ (strings.ToUpper k0 = CONSTRAINT) := by rw [hkey]; decide
  have hc : strings.Contains PRIMARY_KEY (strings.ToUpper k0) = true := by rw [hkey]; decide
  have hany : opts.any (fun t => decide (strings.ToUpper t = "AUTOINCREMENT".toList)) = true := by
    obtain ⟨t, ht, h⟩ := hauto
    rw [List.any_eq_true]
    exact ⟨t, ht, by simpa using h⟩
  have hnil : opts ≠ [] := by
    obtain ⟨t, ht, _⟩ := hauto
    exact List.ne_nil_of_mem ht
  have hso : lastSortOrder opts ≠ UNSORTED := by
    rcases lastSortOrder_cases opts with h | h <;> rw [h] <;> decide
  unfold parseColumnTagStep
  simp only [List.getD_cons_zero, hne, false_and, decide_False, Bool.false_eq_true, if_false, hc,
    if_true, Nat.zero_add, List.drop_succ_cons, List.drop_zero,
    pkScan_of_options opts 2 _ hopts, hany, Bool.or_true, hnil]
  simp only [Column.PrimaryKey, hint, hgen, hdef, named, ColumnPrimaryKey.Build,
    ColumnPrimaryKey.Conflict, ColumnPrimaryKey.Autoincrement, NewColumnPrimaryKey]
  simp [lastSortOrder, hso]
  constructor
  · omega
  · unfold lastSortOrder at hso
    rw [if_neg hso]
    rfl

/-- C2, as stated, fails: on an INTEGER column the annotation
`PRIMARY KEY AUTOINCREMENT` does not yield the fragment
`PRIMARY KEY AUTOINCREMENT` but `PRIMARY KEY ASC AUTOINCREMENT`. -/
theorem C2_fragment_not_as_stated :
    ((NewColumn "id".toList INTEGER).parseColumnTag "PRIMARY KEY AUTOINCREMENT".toList).map
        (fun c => c.constraint) ≠ .ok ["PRIMARY KEY AUTOINCREMENT".toList] ∧
    ((NewColumn "id".toList INTEGER).parseColumnTag "PRIMARY KEY AUTOINCREMENT".toList).map
        (fun c => c.constraint) = .ok ["PRIMARY KEY ASC AUTOINCREMENT".toList] := by
  decide

/-- C2, amended: on a column of type INTEGER that carries neither GENERATED
nor DEFAULT, for every annotation made of `PRIMARY KEY` and, after it, only
options `ASC`, `DESC` and `AUTOINCREMENT` in any letter case, `AUTOINCREMENT`
among them, `parseColumnTag` returns the column with the flags of the primary
key set and exactly one fragment added, `PRIMARY KEY <order> AUTOINCREMENT`,
where `<order>` is the sort order that the options name last, and `ASC` when
they name none. -/
theorem C2_primary_key_autoincrement_fragment (c : Column) (tag k0 k1 : Str)
    (opts : List Str)
    (hfields : strings.Fields tag = k0 :: k1 :: opts)
    (hkey : strings.ToUpper k0 = "PRIMARY".toList ∧ strings.ToUpper k1 = "KEY".toList)
    (hint : c.colType = INTEGER) (hgen : c.hasGenerated = false) (hdef : c.hasDefault = false)
    (hopts : ∀ t ∈ opts, strings.ToUpper t = ASC ∨ strings.ToUpper t = DESC ∨
      strings.ToUpper t = "AUTOINCREMENT".toList)
    (hauto : ∃ t ∈ opts, strings.ToUpper t = "AUTOINCREMENT".toList) :
    c.parseColumnTag tag =
      .ok { c with
        hasNotNull := true
        hasPrimaryKey := true
        hasAutoincrement := true
        constraint := c.constraint ++
          ["PRIMARY KEY ".toList ++ lastSortOrder opts ++ " AUTOINCREMENT".toList] } ∧
    (lastSortOrder opts = ASC ∨ lastSortOrder opts = DESC) := by
  refine ⟨?_, lastSortOrder_cases opts⟩
  have htag : tag ≠ [] := by
    intro h
    rw [h] at hfields
    cases hfields
  unfold Column.parseColumnTag
  simp only [htag, if_false, hfields, List.length_cons, Nat.add_one_ne_zero]
  simp only [parseColumnTagLoop, Nat.zero_lt_succ, if_true,
    step_of_primary_key_options c k0 k1 opts hkey.1 hint hgen hdef hopts hauto]
  simp only [List.length_cons, Nat.zero_lt_succ, if_true, Nat.lt_irrefl, if_false]

/-- C2, witness: the annotation `primary key asc AutoIncrement desc` on an
INTEGER column; the sort order named last is `DESC`. -/
theorem C2_primary_key_autoincrement_fragment_witness :
    (NewColumn "id".toList INTEGER).parseColumnTag "primary key asc AutoIncrement desc".toList =
      .ok { NewColumn "id".toList INTEGER with
        hasNotNull := true
        hasPrimaryKey := true
        hasAutoincrement := true
        constraint := ["PRIMARY KEY DESC AUTOINCREMENT".toList] } ∧
    (lastSortOrder ["asc".toList, "AutoIncrement".toList, "desc".toList] = ASC ∨
      lastSortOrder ["asc".toList, "AutoIncrement".toList, "desc".toList] = DESC) :=
  C2_primary_key_autoincrement_fragment (NewColumn "id".toList INTEGER)
    "primary key asc AutoIncrement desc".toList "primary".toList "key".toList
    ["asc".toList, "AutoIncrement".toList, "desc".toList]
    (by decide) (by decide) (by decide) (by decide) (by decide) (by decide)
    ⟨"AutoIncrement".toList, by decide, by decide⟩

set_option maxRecDepth 100000 in
/-- With a conflict clause the PRIMARY KEY branch takes the token after `ON`
for the action: `ON CONFLICT ABORT` is read as the action `CONFLICT`, which is
none, and the clause is lost; `ON ABORT` renders the bare word `ABORT`. -/
theorem primary_key_conflict_clause :
    ((NewColumn "id".toList INTEGER).parseColumnTag
        "PRIMARY KEY ON CONFLICT ABORT AUTOINCREMENT".toList).map (fun c => c.constraint) =
      .ok ["PRIMARY KEY ASC AUTOINCREMENT".toList] ∧
    ((NewColumn "id".toList INTEGER).parseColumnTag
        "PRIMARY KEY ON ABORT AUTOINCREMENT".toList).map (fun c => c.constraint) =
      .ok ["PRIMARY KEY ASC ABORT AUTOINCREMENT".toList] := by
  decide

/-! ## GENERATED, DEFAULT and CHECK annotations -/

/-- C3, evaluation at the failing input: the annotation
`GENERATED ALWAYS AS ( a + b ) STORED DEFAULT 0` is parsed without any error
and the column carries the GENERATED fragment only: after `STORED` the cursor
is advanced a second time, past the DEFAULT clause. Without the storage
keyword, and with DEFAULT first, the compatibility panic is raised. -/
theorem C3_generated_stored_then_default_is_dropped :
    (NewColumn "total".toList REAL).parseColumnTag
        "GENERATED ALWAYS AS ( a + b ) STORED DEFAULT 0".toList =
      .ok { NewColumn "total".toList REAL with
        hasGenerated := true
        constraint := ["GENERATED ALWAYS AS (( a + b ))STORED".toList] } ∧
    (NewColumn "total".toList REAL).parseColumnTag
        "GENERATED ALWAYS AS ( a + b ) DEFAULT 0".toList =
      .error (.msg "GENERATED column cannot have DEFAULT value".toList) ∧
    (NewColumn "total".toList REAL).parseColumnTag
        "DEFAULT 0 GENERATED ALWAYS AS ( a + b ) STORED".toList =
      .error (.msg "GENERATED column cannot have DEFAULT value".toList) := by
  decide

/-- C4, evaluation at the failing input: the annotations `CHECK(Price >= 0)`
and `CHECK(length(Name) > 0)` add no constraint and leave `hasCheck` unset: the
token `CHECK(Price` is not contained in the keyword `CHECK`. A CHECK clause is
read when the parentheses are tokens of their own. -/
theorem C4_check_with_attached_parenthesis_is_lost :
    (NewColumn "price".toList REAL).parseColumnTag "CHECK(Price >= 0)".toList =
      .ok (NewColumn "price".toList REAL) ∧
    (NewColumn "name".toList TEXT).parseColumnTag "CHECK(length(Name) > 0)".toList =
      .ok (NewColumn "name".toList TEXT) ∧
    (NewColumn "price".toList REAL).parseColumnTag "NOT NULL CHECK(Price >= 0)".toList =
      .ok { NewColumn "price".toList REAL with
        hasNotNull := true
        constraint := ["NOT NULL".toList] } ∧
    findBalancedParentheses (strings.Fields "CHECK(Price >= 0)".toList) 1 = [] ∧
    (NewColumn "price".toList REAL).parseColumnTag "CHECK ( Price >= 0 )".toList =
      .ok { NewColumn "price".toList REAL with
        hasCheck := true
        constraint := ["CHECK (( Price >= 0 ))".toList] } := by
  decide

/-! ## Foreign-key resolution -/

theorem lookupForeignTable_none (foreignTables : List GoValue) (name : Str)
    (h : ∀ t ∈ foreignTables, GetStructName t ≠ name) :
    lookupForeignTable foreignTables name = .nil := by
  unfold lookupForeignTable
  have key : ∀ (l : List GoValue) (init : GoValue), (∀ t ∈ l, GetStructName t ≠ name) →
      l.foldl (fun found t => if name = GetStructName t then t else found) init = init := by
    intro l
    induction l with
    | nil => intro init _; rfl
    | cons a l ih =>
      intro init hl
      have ha : ¬ name = GetStructName a := fun e => hl a (List.mem_cons_self _ _) e.symm
      simp only [List.foldl_cons, if_neg ha]
      exact ih init (fun t ht => hl t (List.mem_cons_of_mem _ ht))
  exact key foreignTables .nil h

/-- C5: when the target entity name of a REFERENCES annotation equals the name
of none of the candidate models, `ParseReference` returns the error that names
the target, and `Column.ForeignKey` fails: it raises that error (on a GENERATED
column the compatibility panic comes first), so no column with a REFERENCES
fragment results. -/
theorem C5_unresolved_target_fails (c : Column) (constraintName content name : Str)
    (htarget : referencedEntity content = some name)
    (hnone : ∀ t ∈ c.models, GetStructName t ≠ name) :
    ParseReference c.name c.models content =
      .ok (.error
        ("Error from provided structs as foreign tables none of them are matching ".toList ++
          name)) ∧
    (∃ p, c.ForeignKey constraintName content = .error p) ∧
    (c.hasGenerated = false →
      c.ForeignKey constraintName content =
        .error (.msg
          ("Error from provided structs as foreign tables none of them are matching ".toList ++
            name))) := by
  have hparse : ParseReference c.name c.models content =
      .ok (.error
        ("Error from provided structs as foreign tables none of them are matching ".toList ++
          name)) := by
    unfold referencedEntity at htarget
    unfold ParseReference
    simp only [] at htarget ⊢
    split_ifs at htarget ⊢ with h1
    cases hscan : scanTablePart
        (strings.TrimSpace ((strings.TrimSpace content).drop "REFERENCES".toList.length)) 0 with
    | error p => rw [hscan] at htarget; simp at htarget
    | ok r =>
      obtain ⟨index, atParen⟩ := r
      rw [hscan] at htarget
      simp only [Option.some.injEq] at htarget
      simp only [htarget, lookupForeignTable_none c.models name hnone, if_true]
  refine ⟨hparse, ?_, ?_⟩
  · unfold Column.ForeignKey
    rw [hparse]
    split_ifs
    · exact ⟨_, rfl⟩
    · exact ⟨_, rfl⟩
  · intro hg
    unfold Column.ForeignKey
    rw [hparse]
    simp [hg]

/-- C5, witness: the annotation `REFERENCES Nope (Id)` with the candidate
`Category`. -/
theorem C5_unresolved_target_fails_witness :
    ParseReference
        ({ NewColumn "category_id".toList INTEGER with models := [modelCategory] }).name
        ({ NewColumn "category_id".toList INTEGER with models := [modelCategory] }).models
        "REFERENCES Nope (Id)".toList =
      .ok (.error
        ("Error from provided structs as foreign tables none of them are matching ".toList ++
          "Nope".toList)) ∧
    (∃ p, ({ NewColumn "category_id".toList INTEGER with models := [modelCategory] }).ForeignKey
      [] "REFERENCES Nope (Id)".toList = .error p) ∧
    (({ NewColumn "category_id".toList INTEGER with models := [modelCategory] }).hasGenerated
        = false →
      ({ NewColumn "category_id".toList INTEGER with models := [modelCategory] }).ForeignKey
          [] "REFERENCES Nope (Id)".toList =
        .error (.msg
          ("Error from provided structs as foreign tables none of them are matching ".toList ++
            "Nope".toList))) :=
  C5_unresolved_target_fails
    { NewColumn "category_id".toList INTEGER with models := [modelCategory] }
    [] "REFERENCES Nope (Id)".toList "Nope".toList (by decide) (by decide)

/-! ## The flags of a column -/

theorem call_flagsConsistent (c c1 : Column) (call : ColumnCall)
    (h : c.call call = .ok c1) (hi : c.FlagsConsistent) : c1.FlagsConsistent := by
  obtain ⟨hg, hp, ha⟩ := hi
  cases call with
  | primaryKey n so cf a =>
    simp only [Column.call, Column.PrimaryKey] at h
    split_ifs at h with h1 h2 h3
    cases h
    simp only [Bool.not_eq_true] at h2 h3
    refine ⟨?_, ?_, ?_⟩
    · intro hgen; simp only [h2] at hgen; exact absurd hgen (by decide)
    · intro _; exact h3
    · intro hauto
      refine ⟨rfl, ?_⟩
      simp only at hauto
      by_contra hne
      apply h1
      simp [hauto, hne]
  | notNull n cf =>
    simp only [Column.call, Column.NotNull] at h
    cases h
    exact ⟨hg, hp, ha⟩
  | unique n cf =>
    simp only [Column.call, Column.Unique] at h
    split_ifs at h with h1
    cases h
    simp only [Bool.not_eq_true] at h1
    refine ⟨?_, hp, ha⟩
    intro hgen; simp only [h1] at hgen; exact absurd hgen (by decide)
  | check n ex =>
    simp only [Column.call, Column.Check] at h
    cases h
    exact ⟨hg, hp, ha⟩
  | defaultValue n content =>
    simp only [Column.call, Column.Default] at h
    split_ifs at h with h1 h2
    split at h
    · cases h
    · cases h
      simp only [Bool.not_eq_true] at h1 h2
      refine ⟨?_, ?_, ha⟩
      · intro hgen; simp only [h2] at hgen; exact absurd hgen (by decide)
      · intro hpk; simp only [h1] at hpk; exact absurd hpk (by decide)
  | collate n name =>
    simp only [Column.call, Column.Collate] at h
    cases h
    exact ⟨hg, hp, ha⟩
  | foreignKey n content =>
    simp only [Column.call, Column.ForeignKey] at h
    split_ifs at h with h1
    split at h
    · cases h
    · cases h
    · split at h
      · cases h
      · cases h
        simp only [Bool.not_eq_true] at h1
        refine ⟨?_, hp, ha⟩
        intro hgen; simp only [h1] at hgen; exact absurd hgen (by decide)
  | generated n always ex st =>
    simp only [Column.call, Column.Generated] at h
    split_ifs at h with h1 h2 h3 h4
    cases h
    simp only [Bool.not_eq_true] at h1 h2 h3 h4
    refine ⟨fun _ => ⟨h1, h2, h3, h4⟩, hp, ha⟩

theorem callAll_flagsConsistent (calls : List ColumnCall) :
    ∀ (c c1 : Column), c.callAll calls = .ok c1 → c.FlagsConsistent → c1.FlagsConsistent := by
  induction calls with
  | nil =>
    intro c c1 h hi
    simp only [Column.callAll] at h
    cases h
    exact hi
  | cons call rest ih =>
    intro c c1 h hi
    simp only [Column.callAll] at h
    split at h
    · cases h
    · rename_i c2 hc
      exact ih c2 c1 h (call_flagsConsistent c c2 call hc hi)

/-- C6: starting from `NewColumn` (with the candidate models attached), after
any sequence of successful calls of `PrimaryKey`, `NotNull`, `Unique`, `Check`,
`Default`, `Collate`, `ForeignKey` and `Generated` the flags are consistent:
`hasGenerated` excludes `hasPrimaryKey`, `hasUnique`, `hasDefault` and
`hasForeignKey`; `hasPrimaryKey` excludes `hasDefault`; `hasAutoincrement`
implies `hasPrimaryKey` and the column type INTEGER. -/
theorem C6_flags_invariant (name : Str) (colType : SQLiteType) (models : List GoValue)
    (calls : List ColumnCall) (c : Column)
    (h : ({ NewColumn name colType with models := models }).callAll calls = .ok c) :
    (c.hasGenerated = true →
      c.hasPrimaryKey = false ∧ c.hasUnique = false ∧ c.hasDefault = false ∧
        c.hasForeignKey = false) ∧
    (c.hasPrimaryKey = true → c.hasDefault = false) ∧
    (c.hasAutoincrement = true → c.hasPrimaryKey = true ∧ c.colType = INTEGER) :=
  callAll_flagsConsistent calls _ c h
    ⟨fun hgen => absurd hgen (by simp [NewColumn]), fun hpk => absurd hpk (by simp [NewColumn]),
      fun hauto => absurd hauto (by simp [NewColumn])⟩

/-- C6, witness: an INTEGER column after `PrimaryKey` with AUTOINCREMENT,
`NotNull`, `Check` and `ForeignKey`. -/
theorem C6_flags_invariant_witness :
    ∃ c : Column,
      ({ NewColumn "id".toList INTEGER with models := [modelCategory] }).callAll
        [.primaryKey [] ASC [] true, .notNull [] [], .check [] (NewExpression "( id > 0 )".toList),
         .foreignKey [] "REFERENCES Category (Id)".toList] = .ok c ∧
      c.hasAutoincrement = true ∧ c.hasForeignKey = true ∧
      ((c.hasGenerated = true →
        c.hasPrimaryKey = false ∧ c.hasUnique = false ∧ c.hasDefault = false ∧
          c.hasForeignKey = false) ∧
      (c.hasPrimaryKey = true → c.hasDefault = false) ∧
      (c.hasAutoincrement = true → c.hasPrimaryKey = true ∧ c.colType = INTEGER)) :=
  ⟨{ NewColumn "id".toList INTEGER with
      models := [modelCategory]
      hasPrimaryKey := true
      hasNotNull := true
      hasCheck := true
      hasForeignKey := true
      hasAutoincrement := true
      constraint := ["PRIMARY KEY ASC AUTOINCREMENT".toList, "NOT NULL".toList,
        "CHECK (( id > 0 ))".toList, "REFERENCES category (id)".toList] },
    by decide, rfl, rfl,
    C6_flags_invariant "id".toList INTEGER [modelCategory]
      [.primaryKey [] ASC [] true, .notNull [] [], .check [] (NewExpression "( id > 0 )".toList),
       .foreignKey [] "REFERENCES Category (Id)".toList] _ (by decide)⟩

/-- C7: `Column.PrimaryKey` panics exactly when AUTOINCREMENT is asked for on a
column whose type is not INTEGER, or the column carries GENERATED, or it
carries DEFAULT; in every other case it returns the column with exactly one
fragment appended, the PRIMARY KEY clause (behind `CONSTRAINT <name> ` when a
name is given). -/
theorem C7_primary_key_fails_exactly_when (c : Column) (constraintName : Str)
    (sortOrder : SortOrder) (conflict : Str) (autoincrement : Bool) :
    (((autoincrement = true ∧ c.colType ≠ INTEGER) ∨ c.hasGenerated = true ∨
        c.hasDefault = true) ∧
      ∃ p, c.PrimaryKey constraintName sortOrder conflict autoincrement = .error p) ∨
    (¬ ((autoincrement = true ∧ c.colType ≠ INTEGER) ∨ c.hasGenerated = true ∨
        c.hasDefault = true) ∧
      ∃ (c1 : Column) (pre suf : Str),
        c.PrimaryKey constraintName sortOrder conflict autoincrement = .ok c1 ∧
        c1.constraint = c.constraint ++ [pre ++ "PRIMARY KEY".toList ++ suf] ∧
        (pre = [] ∨ pre = "CONSTRAINT ".toList ++ constraintName ++ " ".toList) ∧
        c1.hasPrimaryKey = true ∧ c1.hasAutoincrement = autoincrement) := by
  unfold Column.PrimaryKey
  simp only []
  split_ifs with h1 h2 h3
  · left
    refine ⟨Or.inl ?_, _, rfl⟩
    simpa using h1
  · left; exact ⟨Or.inr (Or.inl h2), _, rfl⟩
  · left; exact ⟨Or.inr (Or.inr h3), _, rfl⟩
  · right
    refine ⟨?_, ?_⟩
    · rintro (⟨ha, hne⟩ | hg | hd)
      · apply h1; simp [ha, hne]
      · exact h2 hg
      · exact h3 hd
    · by_cases hn : constraintName = []
      · refine ⟨_, [], ((if sortOrder ≠ UNSORTED then " ".toList ++ sortOrder else []) ++
            ((if conflict ≠ [] then " ".toList ++ conflict else []) ++
              (if autoincrement = true then " AUTOINCREMENT".toList else []))), rfl, ?_, Or.inl rfl, rfl, rfl⟩
        simp [named, hn, ColumnPrimaryKey.Build, ColumnPrimaryKey.Conflict,
          ColumnPrimaryKey.Autoincrement, NewColumnPrimaryKey]
      · refine ⟨_, "CONSTRAINT ".toList ++ constraintName ++ " ".toList, ((if sortOrder ≠ UNSORTED then " ".toList ++ sortOrder else []) ++
            ((if conflict ≠ [] then " ".toList ++ conflict else []) ++
              (if autoincrement = true then " AUTOINCREMENT".toList else []))), rfl, ?_,
          Or.inr rfl, rfl, rfl⟩
        simp [named, hn, ColumnPrimaryKey.Build, ColumnPrimaryKey.Conflict,
          ColumnPrimaryKey.Autoincrement, NewColumnPrimaryKey]

/-! ## Building twice -/

theorem snakeRunes_of_no_capital :
    ∀ (s : Str) (first : Bool), (∀ c ∈ s, ¬ ('A' ≤ c ∧ c ≤ 'Z')) → snakeRunes first s = s := by
  intro s
  induction s with
  | nil => intro first _; rfl
  | cons r rs ih =>
    intro first h
    have hr : ¬ ('A' ≤ r ∧ r ≤ 'Z') := h r (List.mem_cons_self _ _)
    have hrs : ∀ c ∈ rs, ¬ ('A' ≤ c ∧ c ≤ 'Z') := fun c hc => h c (List.mem_cons_of_mem _ hc)
    simp only [snakeRunes, hr, decide_False, Bool.and_false, Bool.false_eq_true, if_false,
      ih false hrs, List.singleton_append]

theorem ToSnakeCaseWith_lowerRune (s : Str) : ToSnakeCaseWith lowerRune s = ToSnakeCase s := rfl

theorem resultColumn_buildWith_lowerRune (rc : ResultColumn) :
    ResultColumn.BuildWith lowerRune rc = ResultColumn.Build rc := by
  cases rc <;> rfl

theorem selectPartsWith_lowerRune (st : Str) (rc : List ResultColumn) (ft : Option Str)
    (w : Option Expression) (g : List Expression) (h : Option Expression) (o : List OrderBy)
    (l off : Int) (hl ho : Bool) :
    selectPartsWith lowerRune st rc ft w g h o l off hl ho =
      selectParts st rc ft w g h o l off hl ho := by
  have e : ResultColumn.BuildWith lowerRune = ResultColumn.Build :=
    funext resultColumn_buildWith_lowerRune
  unfold selectPartsWith selectParts
  rw [e]

mutual
theorem select_buildWith_lowerRune : ∀ s : Select, Select.BuildWith lowerRune s = Select.Build s
  | .mk st rc none w g h o l off hl ho statement => by
    simp [Select.BuildWith, Select.Build, selectPartsWith_lowerRune]
  | .mk st rc (some f) w g h o l off hl ho statement => by
    have ih := from_buildWith_lowerRune f
    simp [Select.BuildWith, Select.Build, selectPartsWith_lowerRune, ih]
theorem from_buildWith_lowerRune : ∀ f : From, From.BuildWith lowerRune f = From.Build f
  | .mk tn a none js => by
    have ih := buildJoinsWith_lowerRune js
    simp [From.BuildWith, From.Build, ih, ToSnakeCaseWith_lowerRune]
  | .mk tn a (some q) js => by
    have ih := buildJoinsWith_lowerRune js
    have ihq := select_buildWith_lowerRune q
    simp [From.BuildWith, From.Build, ih, ihq, ToSnakeCaseWith_lowerRune]
theorem join_buildWith_lowerRune : ∀ j : Join, Join.BuildWith lowerRune j = Join.Build j
  | .mk jt tn none a on_ us => by
    have e : ToSnakeCaseWith lowerRune = ToSnakeCase := funext ToSnakeCaseWith_lowerRune
    cases on_ <;> simp [Join.BuildWith, Join.Build, e]
  | .mk jt tn (some q) a on_ us => by
    have e : ToSnakeCaseWith lowerRune = ToSnakeCase := funext ToSnakeCaseWith_lowerRune
    have ihq := select_buildWith_lowerRune q
    cases on_ <;> simp [Join.BuildWith, Join.Build, e, ihq]
theorem buildJoinsWith_lowerRune :
    ∀ js : List Join, buildJoinsWith lowerRune js = buildJoins js
  | [] => by simp [buildJoinsWith, buildJoins]
  | j :: js => by
    have ih1 := join_buildWith_lowerRune j
    have ih2 := buildJoinsWith_lowerRune js
    simp [buildJoinsWith, buildJoins, ih1, ih2]
end

theorem table_buildWith_lowerRune (t : Table) : t.BuildWith lowerRune = t.Build := by
  unfold Table.BuildWith Table.Build
  simp only [ToSnakeCaseWith_lowerRune, select_buildWith_lowerRune]

theorem schemaTablesLoopWith_lowerRune :
    ∀ (tables : List Table) (schema : Str),
      schemaTablesLoopWith lowerRune tables schema = schemaTablesLoop tables schema := by
  intro tables
  induction tables with
  | nil => intro schema; rfl
  | cons table rest ih =>
    intro schema
    simp only [schemaTablesLoopWith, schemaTablesLoop, table_buildWith_lowerRune, ih]

theorem schema_buildWith_lowerRune (s : Schema) : s.BuildWith lowerRune = s.Build := by
  unfold Schema.BuildWith Schema.Build
  simp only [schemaTablesLoopWith_lowerRune]

theorem ToSnakeCaseWith_no_capital (lower : Char → Char)
    (hcap : ∀ c, ¬ ('A' ≤ lower c ∧ lower c ≤ 'Z')) (s : Str) :
    ∀ c ∈ ToSnakeCaseWith lower s, ¬ ('A' ≤ c ∧ c ≤ 'Z') := by
  intro c hc
  simp only [ToSnakeCaseWith, List.mem_map] at hc
  obtain ⟨d, _, rfl⟩ := hc
  exact hcap d

theorem map_lower_idem (lower : Char → Char) (hidem : ∀ c, lower (lower c) = lower c)
    (s : Str) : (s.map lower).map lower = s.map lower := by
  simp [List.map_map, Function.comp_def, hidem]

theorem ToSnakeCaseWith_idem (lower : Char → Char)
    (hidem : ∀ c, lower (lower c) = lower c)
    (hcap : ∀ c, ¬ ('A' ≤ lower c ∧ lower c ≤ 'Z')) (s : Str) :
    ToSnakeCaseWith lower (ToSnakeCaseWith lower s) = ToSnakeCaseWith lower s := by
  have h := ToSnakeCaseWith_no_capital lower hcap s
  unfold ToSnakeCaseWith at h ⊢
  rw [snakeRunes_of_no_capital _ true h, map_lower_idem lower hidem]

theorem buildJoinsWith_length (lower : Char → Char) (js : List Join) :
    (buildJoinsWith lower js).2.length = js.length := by
  induction js with
  | nil => simp [buildJoinsWith]
  | cons j js ih => simp [buildJoinsWith, ih]

mutual
theorem select_buildWith_twice (lower : Char → Char)
    (hsnake : ∀ s, ToSnakeCaseWith lower (ToSnakeCaseWith lower s) = ToSnakeCaseWith lower s) :
    ∀ s : Select, Select.BuildWith lower (Select.BuildWith lower s).2 = Select.BuildWith lower s
  | .mk st rc none w g h o l off hl ho statement => by
    by_cases hs : statement = []
    · simp [Select.BuildWith, hs]
    · simp [Select.BuildWith, hs]
  | .mk st rc (some f) w g h o l off hl ho statement => by
    have ih := from_buildWith_twice lower hsnake f
    by_cases hs : statement = []
    · simp [Select.BuildWith, hs, ih]
    · simp [Select.BuildWith, hs]
theorem from_buildWith_twice (lower : Char → Char)
    (hsnake : ∀ s, ToSnakeCaseWith lower (ToSnakeCaseWith lower s) = ToSnakeCaseWith lower s) :
    ∀ f : From, From.BuildWith lower (From.BuildWith lower f).2 = From.BuildWith lower f
  | .mk tn a none js => by
    have ih := buildJoinsWith_twice lower hsnake js
    have hl := buildJoinsWith_length lower js
    by_cases ht : tn = []
    · simp [From.BuildWith, ht, ih]
      rw [hl]
    · simp [From.BuildWith, ht, ih]
      rw [hl]
  | .mk tn a (some q) js => by
    have ih := buildJoinsWith_twice lower hsnake js
    have ihq := select_buildWith_twice lower hsnake q
    have hl := buildJoinsWith_length lower js
    by_cases ht : tn = []
    · simp [From.BuildWith, ht, ih, ihq]
      rw [hl]
    · simp [From.BuildWith, ht, ih]
      rw [hl]
theorem join_buildWith_twice (lower : Char → Char)
    (hsnake : ∀ s, ToSnakeCaseWith lower (ToSnakeCaseWith lower s) = ToSnakeCaseWith lower s) :
    ∀ j : Join, Join.BuildWith lower (Join.BuildWith lower j).2 = Join.BuildWith lower j
  | .mk jt tn none a on_ us => by
    by_cases ht : tn = []
    · cases on_ <;> simp [Join.BuildWith, ht, Function.comp_def, hsnake]
    · cases on_ <;> simp [Join.BuildWith, ht, Function.comp_def, hsnake]
  | .mk jt tn (some q) a on_ us => by
    have ihq := select_buildWith_twice lower hsnake q
    by_cases ht : tn = []
    · cases on_ <;> simp [Join.BuildWith, ht, Function.comp_def, hsnake, ihq]
    · cases on_ <;> simp [Join.BuildWith, ht, Function.comp_def, hsnake]
theorem buildJoinsWith_twice (lower : Char → Char)
    (hsnake : ∀ s, ToSnakeCaseWith lower (ToSnakeCaseWith lower s) = ToSnakeCaseWith lower s) :
    ∀ js : List Join,
      buildJoinsWith lower (buildJoinsWith lower js).2 = buildJoinsWith lower js
  | [] => by simp [buildJoinsWith]
  | j :: js => by
    have ih1 := join_buildWith_twice lower hsnake j
    have ih2 := buildJoinsWith_twice lower hsnake js
    simp [buildJoinsWith, ih1, ih2]
end

theorem table_buildWith_twice (lower : Char → Char)
    (hsnake : ∀ s, ToSnakeCaseWith lower (ToSnakeCaseWith lower s) = ToSnakeCaseWith lower s)
    (t t1 : Table) (text : Str) (h : t.BuildWith lower = .ok (text, t1)) :
    t1.BuildWith lower = .ok (text, t1) := by
  unfold Table.BuildWith at h
  simp only [] at h
  cases hsel : t.selectSTMT with
  | none =>
    rw [hsel] at h
    simp only [] at h
    split at h
    · cases h
    · rename_i columns hc
      have h1 : t1 = t := by
        injection h with h
        injection h with _ h2
        exact h2.symm
      subst h1
      unfold Table.BuildWith
      simp only [hsel, hc]
      exact h
  | some statement =>
    rw [hsel] at h
    simp only [] at h
    injection h with h
    injection h with h1 h2
    subst h2
    subst h1
    unfold Table.BuildWith
    simp only [select_buildWith_twice lower hsnake]

theorem schemaTablesLoopWith_twice (lower : Char → Char)
    (hsnake : ∀ s, ToSnakeCaseWith lower (ToSnakeCaseWith lower s) = ToSnakeCaseWith lower s) :
    ∀ (tables tables1 : List Table) (schema text : Str),
      schemaTablesLoopWith lower tables schema = .ok (text, tables1) →
      schemaTablesLoopWith lower tables1 schema = .ok (text, tables1) := by
  intro tables
  induction tables with
  | nil =>
    intro tables1 schema text h
    simp only [schemaTablesLoopWith] at h
    injection h with h
    injection h with h1 h2
    subst h1
    subst h2
    rfl
  | cons table rest ih =>
    intro tables1 schema text h
    simp only [schemaTablesLoopWith] at h
    split at h
    · cases h
    · rename_i t text1 table1 hb
      split at h
      · cases h
      · rename_i t2 schema1 rest1 hr
        injection h with h
        injection h with h1 h2
        subst h1
        subst h2
        simp only [schemaTablesLoopWith, table_buildWith_twice lower hsnake table table1 text1 hb,
          ih rest1 _ _ hr]

theorem schema_buildWith_twice (lower : Char → Char)
    (hsnake : ∀ s, ToSnakeCaseWith lower (ToSnakeCaseWith lower s) = ToSnakeCaseWith lower s)
    (s s1 : Schema) (text : Str) (h : s.BuildWith lower = .ok (text, s1)) :
    s1.BuildWith lower = .ok (text, s1) := by
  unfold Schema.BuildWith at h
  simp only [] at h
  split at h
  · cases h
  · rename_i t schema2 tables1 ht
    split at h
    · cases h
    · rename_i t2 schema3 hi
      injection h with h
      injection h with h1 h2
      subst h1
      subst h2
      unfold Schema.BuildWith
      simp only [schemaTablesLoopWith_twice lower hsnake _ _ _ _ ht, hi]

/-- C8: building twice gives the same text, whatever the rune mapping `lower`
of `strings.ToLower` is, as long as it maps its own results to themselves and
never yields a letter `A`..`Z`. For every Select, From and Join (with ON,
USING and subqueries) the second `Build` returns what the first returned,
text and state; for every Table and every Schema whose first `Build` returns
the text `text` and leaves the state `t1`, the second `Build` returns `text`
again. -/
theorem C8_build_twice_same_text (lower : Char → Char)
    (hidem : ∀ c, lower (lower c) = lower c)
    (hcap : ∀ c, ¬ ('A' ≤ lower c ∧ lower c ≤ 'Z'))
    (sel : Select) (f : From) (j : Join)
    (t t1 : Table) (tableText : Str) (s s1 : Schema) (schemaText : Str)
    (ht : t.BuildWith lower = .ok (tableText, t1))
    (hs : s.BuildWith lower = .ok (schemaText, s1)) :
    Select.BuildWith lower (Select.BuildWith lower sel).2 = Select.BuildWith lower sel ∧
    From.BuildWith lower (From.BuildWith lower f).2 = From.BuildWith lower f ∧
    Join.BuildWith lower (Join.BuildWith lower j).2 = Join.BuildWith lower j ∧
    t1.BuildWith lower = .ok (tableText, t1) ∧
    s1.BuildWith lower = .ok (schemaText, s1) :=
  ⟨select_buildWith_twice lower (ToSnakeCaseWith_idem lower hidem hcap) sel,
    from_buildWith_twice lower (ToSnakeCaseWith_idem lower hidem hcap) f,
    join_buildWith_twice lower (ToSnakeCaseWith_idem lower hidem hcap) j,
    table_buildWith_twice lower (ToSnakeCaseWith_idem lower hidem hcap) t t1 tableText ht,
    schema_buildWith_twice lower (ToSnakeCaseWith_idem lower hidem hcap) s s1 schemaText hs⟩

set_option maxRecDepth 100000 in
/-- C8, witness: the ASCII mapping `lowerRune`, with `selectWithJoins`, its
FROM clause and a USING join, the table backed by `selectWithJoins`, and
`exampleSchema`. -/
theorem C8_build_twice_same_text_witness :
    Select.BuildWith lowerRune (Select.BuildWith lowerRune selectWithJoins).2 =
      Select.BuildWith lowerRune selectWithJoins ∧
    From.BuildWith lowerRune (From.BuildWith lowerRune ((NewTableFrom "OrderItem".toList).Join
        ((NewTableJoin "INNER JOIN".toList "Product".toList).Using ["ProductId".toList]))).2 =
      From.BuildWith lowerRune ((NewTableFrom "OrderItem".toList).Join
        ((NewTableJoin "INNER JOIN".toList "Product".toList).Using ["ProductId".toList])) ∧
    Join.BuildWith lowerRune (Join.BuildWith lowerRune
        ((NewTableJoin "INNER JOIN".toList "Product".toList).Using ["ProductId".toList])).2 =
      Join.BuildWith lowerRune
        ((NewTableJoin "INNER JOIN".toList "Product".toList).Using ["ProductId".toList]) ∧
    ({ (NewTable modelCategory []).Select selectWithJoins with
        selectSTMT := some (Select.BuildWith lowerRune selectWithJoins).2 } : Table).BuildWith
        lowerRune =
      .ok (("CREATE TABLE category AS SELECT o.Id, * FROM order_item AS o " ++
          "INNER JOIN product USING (product_id, order_id) " ++
          "LEFT JOIN (SELECT * FROM category) AS c ON c.id = o.category_id LIMIT 0").toList,
        { (NewTable modelCategory []).Select selectWithJoins with
          selectSTMT := some (Select.BuildWith lowerRune selectWithJoins).2 }) ∧
    ({ exampleSchema with
        tables := [NewTable modelT [],
          { (NewTable modelCategory []).Select selectWithJoins with
            selectSTMT := some (Select.BuildWith lowerRune selectWithJoins).2 }] } :
        Schema).BuildWith lowerRune =
      .ok (("PRAGMA foreign_keys;\n\nCREATE TABLE t (\n\tid INTEGER PRIMARY KEY ASC " ++
          "AUTOINCREMENT,\n\tname TEXT NOT NULL\n);\n\nCREATE TABLE category AS SELECT o.Id, * " ++
          "FROM order_item AS o INNER JOIN product USING (product_id, order_id) " ++
          "LEFT JOIN (SELECT * FROM category) AS c ON c.id = o.category_id LIMIT 0;\n\n" ++
          "CREATE INDEX idx_name ON T (name, );\n").toList,
        { exampleSchema with
          tables := [NewTable modelT [],
            { (NewTable modelCategory []).Select selectWithJoins with
              selectSTMT := some (Select.BuildWith lowerRune selectWithJoins).2 }] }) :=
  C8_build_twice_same_text lowerRune lowerRune_idem lowerRune_not_capital selectWithJoins
    ((NewTableFrom "OrderItem".toList).Join
      ((NewTableJoin "INNER JOIN".toList "Product".toList).Using ["ProductId".toList]))
    ((NewTableJoin "INNER JOIN".toList "Product".toList).Using ["ProductId".toList])
    ((NewTable modelCategory []).Select selectWithJoins) _ _ exampleSchema _ _ rfl rfl

/-! ## The SELECT statement -/

set_option maxRecDepth 100000 in
/-- C9, evaluation at the failing input: the statement made by
`SELECT(DISTINCT, ...)` with all clauses renders every clause in the fixed
order except the modifier: `NewSelect` does not store the select type, so the
text starts with `SELECT o.id` and not with `SELECT DISTINCT o.id`. -/
theorem C9_select_distinct_is_dropped :
    (Select.Build selectDistinct).1 =
      ("SELECT o.id, COUNT(*) AS n FROM orders INNER JOIN customers " ++
        "ON orders.customer_id = customers.id WHERE o.total > 0 GROUP BY o.id " ++
        "HAVING COUNT(*) > 1 ORDER BY o.id ASC, n DESC LIMIT 10 OFFSET 5").toList ∧
    (Select.Build selectDistinct).1 ≠
      ("SELECT DISTINCT o.id, COUNT(*) AS n FROM orders INNER JOIN customers " ++
        "ON orders.customer_id = customers.id WHERE o.total > 0 GROUP BY o.id " ++
        "HAVING COUNT(*) > 1 ORDER BY o.id ASC, n DESC LIMIT 10 OFFSET 5").toList := by
  decide

/-- C10: for every Select (the raw `statement` field, which no function of the
package sets, being empty) `Build` returns the single-space join of, in this
order: `SELECT` with its modifier when the select type is set; the result
columns joined by `, `, or `*` when there are none; `FROM <from>` when a FROM
clause is set; `WHERE <expr>` when set; `GROUP BY <exprs>` when the list is not
empty; `HAVING <expr>` when set; `ORDER BY <keys>` when the list is not empty;
`LIMIT <n>` when a limit was given, also for 0; `OFFSET <m>` when an offset was
given. An absent clause contributes nothing to the list. -/
theorem C10_select_build_clauses (selectType : Str) (resultColumns : List ResultColumn)
    (from_ : Option From) (where_ : Option Expression) (groupBy : List Expression)
    (having : Option Expression) (orderBy : List OrderBy) (limit offset : Int)
    (hasLimit hasOffset : Bool) :
    (Select.Build
      (.mk selectType resultColumns from_ where_ groupBy having orderBy limit offset
        hasLimit hasOffset [])).1 =
      strings.Join
        (["SELECT".toList ++ (if selectType = [] then [] else " ".toList ++ selectType)] ++
         [if resultColumns = [] then "*".toList
          else strings.Join (resultColumns.map ResultColumn.Build) ", ".toList] ++
         (from_.map (fun f => "FROM ".toList ++ (From.Build f).1)).toList ++
         (where_.map (fun e => "WHERE ".toList ++ e.Build)).toList ++
         (if groupBy = [] then []
          else ["GROUP BY ".toList ++ strings.Join (groupBy.map Expression.Build) ", ".toList]) ++
         (having.map (fun e => "HAVING ".toList ++ e.Build)).toList ++
         (if orderBy = [] then []
          else ["ORDER BY ".toList ++ strings.Join (orderBy.map OrderBy.Build) ", ".toList]) ++
         (if hasLimit = true then ["LIMIT ".toList ++ fmtInt limit] else []) ++
         (if hasOffset = true then ["OFFSET ".toList ++ fmtInt offset] else []))
        " ".toList ∧
    fmtInt 0 = "0".toList := by
  refine ⟨?_, by decide⟩
  have hsel : (if selectType ≠ [] then "SELECT ".toList ++ selectType else "SELECT".toList) =
      "SELECT".toList ++ (if selectType = [] then [] else " ".toList ++ selectType) := by
    by_cases h : selectType = [] <;> simp [h]
  have hrc : (if resultColumns.length = 0 then "*".toList
      else strings.Join (resultColumns.map ResultColumn.Build) ", ".toList) =
      (if resultColumns = [] then "*".toList
       else strings.Join (resultColumns.map ResultColumn.Build) ", ".toList) := by
    cases resultColumns <;> simp
  have hg : (if groupBy.length > 0 then
        ["GROUP BY ".toList ++ strings.Join (groupBy.map Expression.Build) ", ".toList]
      else []) =
      (if groupBy = [] then []
       else ["GROUP BY ".toList ++ strings.Join (groupBy.map Expression.Build) ", ".toList]) := by
    cases groupBy <;> simp
  have ho : (if orderBy.length > 0 then
        ["ORDER BY ".toList ++ strings.Join (orderBy.map OrderBy.Build) ", ".toList]
      else []) =
      (if orderBy = [] then []
       else ["ORDER BY ".toList ++ strings.Join (orderBy.map OrderBy.Build) ", ".toList]) := by
    cases orderBy <;> simp
  cases from_ <;> cases where_ <;> cases having <;>
    simp only [Select.Build, selectParts, hsel, hrc, hg, ho, Option.map, Option.toList,
      ne_eq, not_true_eq_false, if_false]

/-! ## DEFERRABLE and NOT DEFERRABLE -/

theorem call_keeps_deferrable (r r1 : References) (call : RefCall)
    (h : r.call call = .ok r1) (hd : r.deferrableVal ≠ none) : r1.deferrableVal ≠ none := by
  cases call with
  | onDelete action => simp only [References.call, References.OnDelete] at h; cases h; exact hd
  | onUpdate action => simp only [References.call, References.OnUpdate] at h; cases h; exact hd
  | matchName name => simp only [References.call, References.Match] at h; cases h; exact hd
  | deferrable action =>
    simp only [References.call, References.Deferrable] at h
    split_ifs at h <;> cases h
    · exact hd
    · simp
  | notDeferrable action =>
    simp only [References.call, References.NotDeferrable, if_pos hd] at h
    cases h; exact hd
  | foreighColumns columns =>
    simp only [References.call, References.ForeighColumns] at h
    split_ifs at h
    cases h; exact hd
  | foreignTable t => simp only [References.call, References.ForeignTable] at h; cases h; exact hd

theorem call_keeps_notDeferrable (r r1 : References) (call : RefCall)
    (h : r.call call = .ok r1) (hd : r.notDeferrableVal ≠ none) : r1.notDeferrableVal ≠ none := by
  cases call with
  | onDelete action => simp only [References.call, References.OnDelete] at h; cases h; exact hd
  | onUpdate action => simp only [References.call, References.OnUpdate] at h; cases h; exact hd
  | matchName name => simp only [References.call, References.Match] at h; cases h; exact hd
  | deferrable action =>
    simp only [References.call, References.Deferrable, if_pos hd] at h
    cases h; exact hd
  | notDeferrable action =>
    simp only [References.call, References.NotDeferrable] at h
    split_ifs at h <;> cases h
    · exact hd
    · simp
  | foreighColumns columns =>
    simp only [References.call, References.ForeighColumns] at h
    split_ifs at h
    cases h; exact hd
  | foreignTable t => simp only [References.call, References.ForeignTable] at h; cases h; exact hd

theorem call_keeps_one_unset (r r1 : References) (call : RefCall)
    (h : r.call call = .ok r1) (hd : r.deferrableVal = none ∨ r.notDeferrableVal = none) :
    r1.deferrableVal = none ∨ r1.notDeferrableVal = none := by
  cases call with
  | onDelete action => simp only [References.call, References.OnDelete] at h; cases h; exact hd
  | onUpdate action => simp only [References.call, References.OnUpdate] at h; cases h; exact hd
  | matchName name => simp only [References.call, References.Match] at h; cases h; exact hd
  | deferrable action =>
    simp only [References.call, References.Deferrable] at h
    split_ifs at h with h1 <;> cases h
    · exact hd
    · right; simpa using h1
  | notDeferrable action =>
    simp only [References.call, References.NotDeferrable] at h
    split_ifs at h with h1 <;> cases h
    · exact hd
    · left; simpa using h1
  | foreighColumns columns =>
    simp only [References.call, References.ForeighColumns] at h
    split_ifs at h
    cases h; exact hd
  | foreignTable t => simp only [References.call, References.ForeignTable] at h; cases h; exact hd

theorem callAll_keeps (P : References → Prop)
    (step : ∀ (r r1 : References) (call : RefCall), r.call call = .ok r1 → P r → P r1)
    (calls : List RefCall) :
    ∀ (r r1 : References), r.callAll calls = .ok r1 → P r → P r1 := by
  induction calls with
  | nil =>
    intro r r1 h hp
    simp only [References.callAll] at h
    cases h; exact hp
  | cons call rest ih =>
    intro r r1 h hp
    simp only [References.callAll] at h
    split at h
    · cases h
    · rename_i r2 hc
      exact ih r2 r1 h (step r r2 call hc hp)

/-- The guards test the stored state. After `NotDeferrable`, which sets the
NOT DEFERRABLE state first, a call of `Deferrable` is a no-op; it sets
nothing, so a later call of `NotDeferrable` with another qualifier is not held
back by it and replaces the qualifier of the state that was set first. -/
theorem noop_call_does_not_shield :
    (((NewReferences "category_id".toList modelCategory "Id".toList).NotDeferrable []).Deferrable
        []).NotDeferrable "INITIALLY DEFERRED".toList ≠
      ((NewReferences "category_id".toList modelCategory "Id".toList).NotDeferrable []).Deferrable
        [] := by
  decide

/-! ## Rendering a reference -/

theorem join_cons_foldr (sep : Str) :
    ∀ (l : List Str) (a : Str),
      strings.Join (a :: l) sep = a ++ l.foldr (fun x t => sep ++ x ++ t) [] := by
  intro l
  induction l with
  | nil => intro a; simp [strings.Join]
  | cons b l ih =>
    intro a
    simp only [strings.Join, ih b, List.foldr_cons, List.append_assoc]

theorem foldl_append_foldr (sep : Str) (g : Str → Str) :
    ∀ (es : List Str) (acc : Str),
      es.foldl (fun out elem => out ++ sep ++ g elem) acc =
        acc ++ (es.map g).foldr (fun x t => sep ++ x ++ t) [] := by
  intro es
  induction es with
  | nil => intro acc; simp
  | cons e es ih =>
    intro acc
    rw [List.foldl_cons, ih, List.map_cons, List.foldr_cons]
    simp only [List.append_assoc]

theorem utilsJoin_eq_join (elems : List Str) (sep : Str) :
    utilsJoin elems sep = strings.Join (elems.map ToSnakeCase) ", ".toList := by
  cases elems with
  | nil => rfl
  | cons e es =>
    simp only [utilsJoin, List.map_cons, join_cons_foldr, foldl_append_foldr]

theorem build_of_columns_exist (r : References)
    (hcols : ∀ col ∈ r.foreignColumnsName, col ∈ GetStructFieldsNames r.foreignTable) :
    r.Build = .ok
      ((if r.tableTypeReference = true then
          "FOREIGN KEY (".toList ++ strings.Join (r.columnsName.map ToSnakeCase) ", ".toList ++
            ") ".toList
        else []) ++
       "REFERENCES ".toList ++ ToSnakeCase (GetStructName r.foreignTable) ++
       (if r.foreignColumnsName = [] then []
        else " (".toList ++ strings.Join (r.foreignColumnsName.map ToSnakeCase) ", ".toList ++
          ")".toList) ++
       (if r.onDeleteVal = [] then [] else " ON DELETE ".toList ++ r.onDeleteVal) ++
       (if r.onUpdateVal = [] then [] else " ON UPDATE ".toList ++ r.onUpdateVal) ++
       (if r.matchVal = [] then [] else " MATCH ".toList ++ r.matchVal) ++
       (match r.deferrableVal with
        | none => []
        | some q => " DEFERRABLE".toList ++ (if q = [] then [] else " ".toList ++ q)) ++
       (match r.notDeferrableVal with
        | none => []
        | some q => " NOT DEFERRABLE".toList ++ (if q = [] then [] else " ".toList ++ q))) := by
  have hfind : r.foreignColumnsName.find?
      (fun col => !(GetStructFieldsNames r.foreignTable).contains col) = none := by
    rw [List.find?_eq_none]
    intro x hx
    simp [hcols x hx]
  unfold References.Build
  simp only [hfind, utilsJoin_eq_join]
  congr 1
  have e1 : (if r.foreignColumnsName.length > 0 then
        " (".toList ++ strings.Join (r.foreignColumnsName.map ToSnakeCase) ", ".toList ++
          ")".toList
      else []) =
      (if r.foreignColumnsName = [] then []
        else " (".toList ++ strings.Join (r.foreignColumnsName.map ToSnakeCase) ", ".toList ++
          ")".toList) := by
    cases r.foreignColumnsName <;> simp
  rw [e1]
  cases r.deferrableVal <;> cases r.notDeferrableVal <;>
    simp only [ne_eq, ite_not, List.append_assoc, List.append_nil]

/-! ## The deferral state that is set first -/

theorem build_panics_or_renders (r : References) :
    (∃ text, r.Build = .error (.msg text)) ∨
    r.Build = .ok
      (referenceBeforeDeferral r ++
       (match r.deferrableVal with
        | none => []
        | some q => " DEFERRABLE".toList ++ (if q = [] then [] else " ".toList ++ q)) ++
       (match r.notDeferrableVal with
        | none => []
        | some q => " NOT DEFERRABLE".toList ++ (if q = [] then [] else " ".toList ++ q))) := by
  by_cases hcols : ∀ col ∈ r.foreignColumnsName, col ∈ GetStructFieldsNames r.foreignTable
  · right
    rw [build_of_columns_exist r hcols]
    rfl
  · left
    unfold References.Build
    simp only []
    split
    · exact ⟨_, rfl⟩
    · rename_i hfind
      exfalso
      apply hcols
      intro col hcol
      rw [List.find?_eq_none] at hfind
      have := hfind col hcol
      simpa using this

/-- C11: the deferral state that is set first wins. On a value whose NOT
DEFERRABLE state is not set, once `Deferrable` has been called every later
call of `NotDeferrable`, after whatever other calls, leaves the value
unchanged; on a value whose DEFERRABLE state is not set, once `NotDeferrable`
has been called every later call of `Deferrable` leaves the value unchanged.
Every value reached by method calls from one with at most one of the two
states set has at most one of them set, and `Build` on it panics or returns
the text before the deferral clauses followed by at most one clause: none when
neither state is set, the DEFERRABLE clause alone, or the NOT DEFERRABLE
clause alone. -/
theorem C11_first_setter_wins
    (r : References) (a b : Str) (calls : List RefCall) (r1 : References)
    (s : References) (c d : Str) (callsS : List RefCall) (s1 : References)
    (r0 : References) (calls0 : List RefCall) (r2 : References)
    (hr : r.notDeferrableVal = none) (hr1 : (r.Deferrable a).callAll calls = .ok r1)
    (hs : s.deferrableVal = none) (hs1 : (s.NotDeferrable c).callAll callsS = .ok s1)
    (h0 : r0.deferrableVal = none ∨ r0.notDeferrableVal = none)
    (h2 : r0.callAll calls0 = .ok r2) :
    r1.NotDeferrable b = r1 ∧
    s1.Deferrable d = s1 ∧
    (r2.deferrableVal = none ∨ r2.notDeferrableVal = none) ∧
    ((∃ text, r2.Build = .error (.msg text)) ∨
      ∃ clause, r2.Build = .ok (referenceBeforeDeferral r2 ++ clause) ∧
        ((r2.deferrableVal = none ∧ r2.notDeferrableVal = none ∧ clause = []) ∨
         (∃ q, r2.deferrableVal = some q ∧ r2.notDeferrableVal = none ∧
            clause = " DEFERRABLE".toList ++ (if q = [] then [] else " ".toList ++ q)) ∨
         (∃ q, r2.deferrableVal = none ∧ r2.notDeferrableVal = some q ∧
            clause = " NOT DEFERRABLE".toList ++ (if q = [] then [] else " ".toList ++ q)))) := by
  have h1 : r1.deferrableVal ≠ none :=
    callAll_keeps (fun x => x.deferrableVal ≠ none) call_keeps_deferrable calls _ r1 hr1
      (by simp [References.Deferrable, hr])
  have h3 : s1.notDeferrableVal ≠ none :=
    callAll_keeps (fun x => x.notDeferrableVal ≠ none) call_keeps_notDeferrable callsS _ s1 hs1
      (by simp [References.NotDeferrable, hs])
  have h4 : r2.deferrableVal = none ∨ r2.notDeferrableVal = none :=
    callAll_keeps (fun x => x.deferrableVal = none ∨ x.notDeferrableVal = none)
      call_keeps_one_unset calls0 r0 r2 h2 h0
  refine ⟨?_, ?_, h4, ?_⟩
  · simp only [References.NotDeferrable, if_pos h1]
  · simp only [References.Deferrable, if_pos h3]
  · rcases build_panics_or_renders r2 with hb | hb
    · exact Or.inl hb
    · right
      rw [hb]
      cases hd : r2.deferrableVal with
      | none =>
        cases hn : r2.notDeferrableVal with
        | none => exact ⟨[], by simp, Or.inl ⟨rfl, rfl, rfl⟩⟩
        | some q => exact ⟨_, by simp, Or.inr (Or.inr ⟨q, rfl, rfl, rfl⟩)⟩
      | some q =>
        have hn : r2.notDeferrableVal = none := by
          rcases h4 with h | h
          · rw [hd] at h; cases h
          · exact h
        rw [hn]
        exact ⟨_, by simp, Or.inr (Or.inl ⟨q, rfl, rfl, rfl⟩)⟩

/-- C11, witness: a column-level reference on which `Deferrable` is called
first, one on which `NotDeferrable` is called first, each followed by further
calls, and the value left by `NotDeferrable("")`, `Deferrable("")`. -/
theorem C11_first_setter_wins_witness :
    (((NewReferences "category_id".toList modelCategory "Id".toList).Deferrable
        "INITIALLY DEFERRED".toList).OnDelete "CASCADE".toList).NotDeferrable [] =
      ((NewReferences "category_id".toList modelCategory "Id".toList).Deferrable
        "INITIALLY DEFERRED".toList).OnDelete "CASCADE".toList ∧
    (((NewReferences "category_id".toList modelCategory "Id".toList).NotDeferrable
        []).Match "FULL".toList).Deferrable "INITIALLY IMMEDIATE".toList =
      ((NewReferences "category_id".toList modelCategory "Id".toList).NotDeferrable
        []).Match "FULL".toList ∧
    ((((NewReferences "category_id".toList modelCategory "Id".toList).NotDeferrable
        []).Deferrable []).deferrableVal = none ∨
      (((NewReferences "category_id".toList modelCategory "Id".toList).NotDeferrable
        []).Deferrable []).notDeferrableVal = none) ∧
    ((∃ text, (((NewReferences "category_id".toList modelCategory "Id".toList).NotDeferrable
          []).Deferrable []).Build = .error (.msg text)) ∨
      ∃ clause, (((NewReferences "category_id".toList modelCategory "Id".toList).NotDeferrable
          []).Deferrable []).Build =
          .ok (referenceBeforeDeferral
            (((NewReferences "category_id".toList modelCategory "Id".toList).NotDeferrable
              []).Deferrable []) ++ clause) ∧
        (((((NewReferences "category_id".toList modelCategory "Id".toList).NotDeferrable
              []).Deferrable []).deferrableVal = none ∧
            (((NewReferences "category_id".toList modelCategory "Id".toList).NotDeferrable
              []).Deferrable []).notDeferrableVal = none ∧ clause = []) ∨
         (∃ q, (((NewReferences "category_id".toList modelCategory "Id".toList).NotDeferrable
              []).Deferrable []).deferrableVal = some q ∧
            (((NewReferences "category_id".toList modelCategory "Id".toList).NotDeferrable
              []).Deferrable []).notDeferrableVal = none ∧
            clause = " DEFERRABLE".toList ++ (if q = [] then [] else " ".toList ++ q)) ∨
         (∃ q, (((NewReferences "category_id".toList modelCategory "Id".toList).NotDeferrable
              []).Deferrable []).deferrableVal = none ∧
            (((NewReferences "category_id".toList modelCategory "Id".toList).NotDeferrable
              []).Deferrable []).notDeferrableVal = some q ∧
            clause = " NOT DEFERRABLE".toList ++ (if q = [] then [] else " ".toList ++ q)))) :=
  C11_first_setter_wins
    (NewReferences "category_id".toList modelCategory "Id".toList) "INITIALLY DEFERRED".toList []
    [.onDelete "CASCADE".toList] _
    (NewReferences "category_id".toList modelCategory "Id".toList) [] "INITIALLY IMMEDIATE".toList
    [.matchName "FULL".toList] _
    (NewReferences "category_id".toList modelCategory "Id".toList)
    [.notDeferrable [], .deferrable []] _
    (by decide) (by decide) (by decide) (by decide) (by decide) (by decide)

/-! ## The text of a reference read from a tag -/

theorem applyClause_tableTypeReference (r : References) (clause : Str) :
    (applyClause r clause).tableTypeReference = r.tableTypeReference := by
  unfold applyClause
  split_ifs
  · split <;> rfl
  · split <;> rfl
  · rfl
  · split
    · simp only [References.Deferrable]; split_ifs <;> rfl
    · rfl
  · split
    · simp only [References.NotDeferrable]; split_ifs <;> rfl
    · rfl
  · rfl

theorem foldl_applyClause_tableTypeReference (clauses : List Str) :
    ∀ r : References,
      (clauses.foldl applyClause r).tableTypeReference = r.tableTypeReference := by
  induction clauses with
  | nil => intro r; rfl
  | cons c cs ih =>
    intro r
    simp only [List.foldl_cons, ih, applyClause_tableTypeReference]

theorem ParseReference_column_level (colName : Str) (foreignTables : List GoValue) (tag : Str)
    (r : References) (h : ParseReference colName foreignTables tag = .ok (.ok r)) :
    r.tableTypeReference = false := by
  unfold ParseReference at h
  simp only [] at h
  split_ifs at h
  · injection h with h
    cases h
  · split at h
    · cases h
    · split_ifs at h <;>
        first
        | (injection h with h; cases h; done)
        | (injection h with h
           injection h with h
           subst h
           rw [foldl_applyClause_tableTypeReference])

theorem build_column_level (r : References) (text : Str) (hc : r.tableTypeReference = false)
    (h : r.Build = .ok text) :
    strings.HasPrefix text "REFERENCES ".toList = true ∧
      strings.HasPrefix text "FOREIGN KEY".toList = false := by
  unfold References.Build at h
  simp only [hc] at h
  split at h
  · cases h
  · injection h with h
    subst h
    constructor <;> simp [strings.HasPrefix, List.isPrefixOf]

/-- C12: when every target column is a field of the target model,
`References.Build` returns the concatenation of `FOREIGN KEY (<owning cols>) `
(exactly when the reference is table-level), `REFERENCES <target name>`,
` (<target cols>)` when target columns are given, ` ON DELETE <a>`,
` ON UPDATE <a>` and ` MATCH <name>` for each one that is set, and the
DEFERRABLE and NOT DEFERRABLE clauses that are set, each with its qualifier
when that is not empty; names are snake-cased and lists are separated by `, `.
The text of a column-level reference, as returned by `ParseReference` or made
by `NewReferences`, begins with `REFERENCES ` and not with `FOREIGN KEY`. -/
theorem C12_references_build_text (r : References) (colName : Str)
    (foreignTables : List GoValue) (tag : Str) (parsed : References)
    (columName : Str) (foreignTablePtr : GoValue) (foreignColumn : Str)
    (hcols : ∀ col ∈ r.foreignColumnsName, col ∈ GetStructFieldsNames r.foreignTable)
    (hparsed : ParseReference colName foreignTables tag = .ok (.ok parsed)) :
    r.Build = .ok
      ((if r.tableTypeReference = true then
          "FOREIGN KEY (".toList ++ strings.Join (r.columnsName.map ToSnakeCase) ", ".toList ++
            ") ".toList
        else []) ++
       "REFERENCES ".toList ++ ToSnakeCase (GetStructName r.foreignTable) ++
       (if r.foreignColumnsName = [] then []
        else " (".toList ++ strings.Join (r.foreignColumnsName.map ToSnakeCase) ", ".toList ++
          ")".toList) ++
       (if r.onDeleteVal = [] then [] else " ON DELETE ".toList ++ r.onDeleteVal) ++
       (if r.onUpdateVal = [] then [] else " ON UPDATE ".toList ++ r.onUpdateVal) ++
       (if r.matchVal = [] then [] else " MATCH ".toList ++ r.matchVal) ++
       (match r.deferrableVal with
        | none => []
        | some q => " DEFERRABLE".toList ++ (if q = [] then [] else " ".toList ++ q)) ++
       (match r.notDeferrableVal with
        | none => []
        | some q => " NOT DEFERRABLE".toList ++ (if q = [] then [] else " ".toList ++ q))) ∧
    (∀ text, parsed.Build = .ok text →
      strings.HasPrefix text "REFERENCES ".toList = true ∧
        strings.HasPrefix text "FOREIGN KEY".toList = false) ∧
    (∀ text, (NewReferences columName foreignTablePtr foreignColumn).Build = .ok text →
      strings.HasPrefix text "REFERENCES ".toList = true ∧
        strings.HasPrefix text "FOREIGN KEY".toList = false) :=
  ⟨build_of_columns_exist r hcols,
    fun text h => build_column_level parsed text
      (ParseReference_column_level colName foreignTables tag parsed hparsed) h,
    fun text h => build_column_level _ text rfl h⟩

set_option maxRecDepth 100000 in
/-- C12, witness: the table-level reference with every clause set renders as
`FOREIGN KEY (category_id) REFERENCES category (id) ON DELETE CASCADE ON UPDATE
SET NULL MATCH FULL DEFERRABLE INITIALLY DEFERRED`, and the reference parsed
from `REFERENCES Category (Id) ON DELETE CASCADE` begins with `REFERENCES `. -/
theorem C12_references_build_text_witness :
    tableLevelReference.Build = .ok
      ("FOREIGN KEY (category_id) REFERENCES category (id) ON DELETE CASCADE " ++
        "ON UPDATE SET NULL MATCH FULL DEFERRABLE INITIALLY DEFERRED").toList ∧
    (∀ text,
      (References.OnDelete
        { columnsName := ["category_id".toList], foreignTable := modelCategory,
          foreignColumnsName := ["Id".toList] } "CASCADE".toList).Build = .ok text →
      strings.HasPrefix text "REFERENCES ".toList = true ∧
        strings.HasPrefix text "FOREIGN KEY".toList = false) :=
  ⟨(C12_references_build_text tableLevelReference "category_id".toList [modelCategory]
      "REFERENCES Category (Id) ON DELETE CASCADE".toList
      (References.OnDelete
        { columnsName := ["category_id".toList], foreignTable := modelCategory,
          foreignColumnsName := ["Id".toList] } "CASCADE".toList)
      "category_id".toList modelCategory "Id".toList (by decide) (by decide)).1.trans (by decide),
   (C12_references_build_text tableLevelReference "category_id".toList [modelCategory]
      "REFERENCES Category (Id) ON DELETE CASCADE".toList
      (References.OnDelete
        { columnsName := ["category_id".toList], foreignTable := modelCategory,
          foreignColumnsName := ["Id".toList] } "CASCADE".toList)
      "category_id".toList modelCategory "Id".toList (by decide) (by decide)).2.1⟩

/-! ## When rendering and parsing a reference fail -/

/-- C13: `References.Build` panics if and only if one of the target column
names of the reference is not among the field names of the target model; a
panic carries no SQL text, and otherwise a text is returned. -/
theorem C13_build_fails_iff_column_missing (r : References) :
    ((∃ p, r.Build = .error p) ↔
      ∃ col ∈ r.foreignColumnsName, col ∉ GetStructFieldsNames r.foreignTable) ∧
    ((∃ text, r.Build = .ok text) ↔
      ∀ col ∈ r.foreignColumnsName, col ∈ GetStructFieldsNames r.foreignTable) := by
  by_cases hall : ∀ col ∈ r.foreignColumnsName, col ∈ GetStructFieldsNames r.foreignTable
  · have hb := build_of_columns_exist r hall
    constructor
    · constructor
      · rintro ⟨p, hp⟩
        rw [hb] at hp
        cases hp
      · rintro ⟨col, hc, hn⟩
        exact absurd (hall col hc) hn
    · exact ⟨fun _ => hall, fun _ => ⟨_, hb⟩⟩
  · have hex : ∃ col ∈ r.foreignColumnsName, col ∉ GetStructFieldsNames r.foreignTable := by
      push_neg at hall
      exact hall
    have hfind : ∃ col, r.foreignColumnsName.find?
        (fun col => !(GetStructFieldsNames r.foreignTable).contains col) = some col := by
      cases hf : r.foreignColumnsName.find?
          (fun col => !(GetStructFieldsNames r.foreignTable).contains col) with
      | some col => exact ⟨col, rfl⟩
      | none =>
        exfalso
        rw [List.find?_eq_none] at hf
        obtain ⟨col, hc, hn⟩ := hex
        have := hf col hc
        simp at this
        exact hn this
    obtain ⟨col, hcol⟩ := hfind
    have hb : ∃ p, r.Build = .error p := by
      unfold References.Build
      simp only [hcol]
      exact ⟨_, rfl⟩
    constructor
    · exact ⟨fun _ => hex, fun _ => hb⟩
    · constructor
      · rintro ⟨text, ht⟩
        obtain ⟨p, hp⟩ := hb
        rw [hp] at ht
        cases ht
      · intro h
        exact absurd h hall

theorem ParseReferenceWith_upperRune (colName : Str) (foreignTables : List GoValue) (tag : Str) :
    ParseReferenceWith upperRune colName foreignTables tag =
      ParseReference colName foreignTables tag := rfl

/-- C14: for every tag that, trimmed of surrounding white space, does not
start with `REFERENCES` in any letter case, `ParseReference` returns an error
(and so no reference): the error that names the first word of the tag. The
letter case is that of `strings.ToUpper`, whatever its rune mapping `upper`
does. -/
theorem C14_missing_keyword_is_error (upper : Char → Char) (colName : Str)
    (foreignTables : List GoValue) (tag : Str)
    (h : strings.HasPrefix ((strings.TrimSpace tag).map upper) "REFERENCES".toList = false) :
    ParseReferenceWith upper colName foreignTables tag =
      .ok (.error ("Error tag doesn't start with REFERENCES instead starts with ".toList ++
        (strings.Split (strings.TrimSpace tag) ' ').headD [])) ∧
    ∀ r, ParseReferenceWith upper colName foreignTables tag ≠ .ok (.ok r) := by
  have hp : ParseReferenceWith upper colName foreignTables tag =
      .ok (.error ("Error tag doesn't start with REFERENCES instead starts with ".toList ++
        (strings.Split (strings.TrimSpace tag) ' ').headD [])) := by
    unfold ParseReferenceWith
    simp only [h, Bool.not_false, if_true]
  refine ⟨hp, ?_⟩
  intro r hr
  rw [hp] at hr
  injection hr with hr
  cases hr

/-- C14, witness: the ASCII mapping `upperRune`, at which `ParseReferenceWith`
is `ParseReference`, and the tag ` foreign key Category (Id) `. -/
theorem C14_missing_keyword_is_error_witness :
    ParseReferenceWith upperRune "category_id".toList [modelCategory]
        " foreign key Category (Id) ".toList =
      .ok (.error ("Error tag doesn't start with REFERENCES instead starts with ".toList ++
        (strings.Split (strings.TrimSpace " foreign key Category (Id) ".toList) ' ').headD [])) ∧
    ∀ r, ParseReferenceWith upperRune "category_id".toList [modelCategory]
      " foreign key Category (Id) ".toList ≠ .ok (.ok r) :=
  C14_missing_keyword_is_error upperRune "category_id".toList [modelCategory]
    " foreign key Category (Id) ".toList (by decide)

/-! ## The REFERENCES clause: actions, boundary scan, capture -/

set_option maxRecDepth 100000 in
/-- C15, evaluation at the failing input: for the tag
`REFERENCES Category (Id) ON DELETE EXPLODE ON UPDATE CASCADE` `rowAction`
returns an error for `EXPLODE`, yet `ParseReference` returns a reference and no
error: the error value is discarded, the ON DELETE clause is left out and the
text is `REFERENCES category (id) ON UPDATE CASCADE`. The same holds for the
qualifier `INITIALLY LATER` of DEFERRABLE. -/
theorem C15_ill_formed_action_is_dropped :
    rowAction "EXPLODE".toList = .error "invalid RowAction: EXPLODE".toList ∧
    ParseReference "category_id".toList [modelCategory]
        "REFERENCES Category (Id) ON DELETE EXPLODE ON UPDATE CASCADE".toList =
      .ok (.ok { columnsName := ["category_id".toList], foreignTable := modelCategory,
                 foreignColumnsName := ["Id".toList], onUpdateVal := "CASCADE".toList }) ∧
    (References.Build { columnsName := ["category_id".toList], foreignTable := modelCategory,
                        foreignColumnsName := ["Id".toList], onUpdateVal := "CASCADE".toList }) =
      .ok "REFERENCES category (id) ON UPDATE CASCADE".toList ∧
    defferableAction "INITIALLY LATER".toList =
      .error "invalid DeferrableAction: INITIALLY LATER".toList ∧
    ParseReference "category_id".toList [modelCategory]
        "REFERENCES Category (Id) DEFERRABLE INITIALLY LATER".toList =
      .ok (.ok { columnsName := ["category_id".toList], foreignTable := modelCategory,
                 foreignColumnsName := ["Id".toList] }) := by
  decide

theorem ParseReference_errors (colName : Str) (foreignTables : List GoValue) (tag msg : Str)
    (h : ParseReference colName foreignTables tag = .ok (.error msg)) :
    (strings.HasPrefix (strings.ToUpper (strings.TrimSpace tag)) "REFERENCES".toList = false ∧
      msg = "Error tag doesn't start with REFERENCES instead starts with ".toList ++
        (strings.Split (strings.TrimSpace tag) ' ').headD []) ∨
    ∃ name, msg =
      "Error from provided structs as foreign tables none of them are matching ".toList ++
        name := by
  unfold ParseReference at h
  simp only [] at h
  split_ifs at h with h1
  · left
    injection h with h
    injection h with h
    refine ⟨by simpa using h1, h.symm⟩
  · split at h
    · cases h
    · split_ifs at h <;>
        first
        | (injection h with h; cases h; done)
        | (injection h with h
           injection h with h
           exact Or.inr ⟨_, h.symm⟩)

theorem applyClause_of_ill_formed_action (r : References) (rest e restD eD : Str)
    (hrow : rowAction (strings.TrimSpace rest) = .error e)
    (hdef : defferableAction (strings.TrimSpace restD) = .error eD) :
    applyClause r ("ON DELETE".toList ++ rest) = r ∧
    applyClause r ("ON UPDATE".toList ++ rest) = r ∧
    applyClause r ("DEFERRABLE".toList ++ restD) = r ∧
    applyClause r ("NOT DEFERRABLE".toList ++ restD) = r := by
  refine ⟨?_, ?_, ?_, ?_⟩
  · simp [applyClause, strings.HasPrefix, strings.TrimPrefix, List.isPrefixOf, hrow]
  · simp [applyClause, strings.HasPrefix, strings.TrimPrefix, List.isPrefixOf, hrow]
  · simp [applyClause, strings.HasPrefix, strings.TrimPrefix, List.isPrefixOf, hdef]
  · simp [applyClause, strings.HasPrefix, strings.TrimPrefix, List.isPrefixOf, hdef]

set_option maxRecDepth 100000 in
/-- C16, evaluation at the failing input: the example of the claim is parsed
and rendered as claimed, but for the tag
`REFERENCES Device (Id, ONLINE) ON DELETE CASCADE` the boundary scan stops at
the blank before `ONLINE`, which it takes for the marker ` ON`: the reference
has no target columns and renders as `REFERENCES device ON DELETE CASCADE`. -/
theorem C16_marker_inside_column_list :
    ParseReference "category_id".toList [modelCategory, modelDevice]
        "REFERENCES Category (Id) ON DELETE SET NULL ON UPDATE CASCADE".toList =
      .ok (.ok { columnsName := ["category_id".toList], foreignTable := modelCategory,
                 foreignColumnsName := ["Id".toList], onDeleteVal := "SET NULL".toList,
                 onUpdateVal := "CASCADE".toList }) ∧
    (References.Build { columnsName := ["category_id".toList], foreignTable := modelCategory,
                        foreignColumnsName := ["Id".toList], onDeleteVal := "SET NULL".toList,
                        onUpdateVal := "CASCADE".toList }) =
      .ok "REFERENCES category (id) ON DELETE SET NULL ON UPDATE CASCADE".toList ∧
    scanTablePart "Device (Id, ONLINE) ON DELETE CASCADE".toList 0 = .ok (11, false) ∧
    ParseReference "device_id".toList [modelCategory, modelDevice]
        "REFERENCES Device (Id, ONLINE) ON DELETE CASCADE".toList =
      .ok (.ok { columnsName := ["device_id".toList], foreignTable := modelDevice,
                 foreignColumnsName := [], onDeleteVal := "CASCADE".toList }) ∧
    (References.Build { columnsName := ["device_id".toList], foreignTable := modelDevice,
                        foreignColumnsName := [], onDeleteVal := "CASCADE".toList }) =
      .ok "REFERENCES device ON DELETE CASCADE".toList := by
  decide

theorem dropWhile_isSpace_of_head (s : Str) (h : ∀ c, s.head? = some c → isSpace c = false) :
    s.dropWhile isSpace = s := by
  cases s with
  | nil => rfl
  | cons a rest =>
    have ha : isSpace a = false := h a rfl
    simp [List.dropWhile, ha]

theorem TrimSpace_of_no_space (s : Str) (h : ∀ c ∈ s, isSpace c = false) :
    strings.TrimSpace s = s := by
  unfold strings.TrimSpace
  rw [dropWhile_isSpace_of_head s (fun c hc => h c (List.mem_of_mem_head? hc))]
  rw [dropWhile_isSpace_of_head s.reverse
    (fun c hc => h c (List.mem_reverse.mp (List.mem_of_mem_head? hc)))]
  exact List.reverse_reverse s

theorem scanTablePart_of_bare :
    ∀ (s : Str) (index : Nat), (∀ c ∈ s, isSpace c = false ∧ c ≠ ')') →
      scanTablePart s index = .error .indexOutOfRange := by
  intro s
  induction s with
  | nil => intro index _; rfl
  | cons a rest ih =>
    intro index h
    have ha := h a (List.mem_cons_self _ _)
    have hsp : a ≠ ' ' := by
      intro e
      rw [e] at ha
      exact absurd ha.1 (by decide)
    unfold scanTablePart
    rw [if_neg ha.2]
    have h3 : ¬ ((3 < (a :: rest).length && decide ((a :: rest).take 3 = " ON".toList)) = true) := by
      intro hc
      simp only [Bool.and_eq_true, decide_eq_true_eq] at hc
      have := congrArg List.head? hc.2
      cases rest <;> simp at this <;> exact hsp this
    have h6 : ¬ ((6 < (a :: rest).length && decide ((a :: rest).take 6 = " MATCH".toList)) = true) := by
      intro hc
      simp only [Bool.and_eq_true, decide_eq_true_eq] at hc
      have := congrArg List.head? hc.2
      cases rest <;> simp at this <;> exact hsp this
    have h8 : ¬ ((8 < (a :: rest).length && decide ((a :: rest).take 8 = " NOT DEF".toList)) = true) := by
      intro hc
      simp only [Bool.and_eq_true, decide_eq_true_eq] at hc
      have := congrArg List.head? hc.2
      cases rest <;> simp at this <;> exact hsp this
    have h9 : ¬ ((8 < (a :: rest).length && decide ((a :: rest).take 8 = " DEFERRA".toList)) = true) := by
      intro hc
      simp only [Bool.and_eq_true, decide_eq_true_eq] at hc
      have := congrArg List.head? hc.2
      cases rest <;> simp at this <;> exact hsp this
    rw [if_neg h3, if_neg h6, if_neg h8, if_neg h9]
    exact ih (index + 1) (fun c hc => h c (List.mem_cons_of_mem _ hc))

/-- Every tag of the bare form `REFERENCES <name>`, the name holding neither
white space nor a closing parenthesis, makes `ParseReference` read past the end
of the tag. -/
theorem ParseReference_of_bare (colName : Str) (foreignTables : List GoValue) (name : Str)
    (h : ∀ c ∈ name, isSpace c = false ∧ c ≠ ')') :
    ParseReference colName foreignTables ("REFERENCES ".toList ++ name) =
      .error .indexOutOfRange := by
  cases name with
  | nil =>
    have htrim : strings.TrimSpace ("REFERENCES ".toList ++ []) = "REFERENCES".toList := by
      decide
    have hpre : strings.HasPrefix (strings.ToUpper "REFERENCES".toList)
        "REFERENCES".toList = true := by decide
    have hdrop : strings.TrimSpace
        ("REFERENCES".toList.drop "REFERENCES".toList.length) = [] := by decide
    have hscan : scanTablePart [] 0 = .error .indexOutOfRange := rfl
    unfold ParseReference
    simp only [htrim, hpre, hdrop, hscan]
    rfl
  | cons a rest =>
    have hsp : ∀ c ∈ a :: rest, isSpace c = false := fun c hc => (h c hc).1
    have hlast : ∀ (p : Str) (c : Char), (p ++ a :: rest).reverse.head? = some c →
        isSpace c = false := by
      intro p c hc
      rw [List.reverse_append] at hc
      obtain ⟨b, l, hbl⟩ := List.exists_cons_of_ne_nil
        (show (a :: rest).reverse ≠ [] by simp)
      rw [hbl] at hc
      have hb : b ∈ a :: rest := by
        rw [← List.mem_reverse, hbl]
        exact List.mem_cons_self _ _
      have hcb : b = c := by simpa using hc
      rw [← hcb]
      exact hsp b hb
    have htrim : strings.TrimSpace ("REFERENCES ".toList ++ a :: rest) =
        "REFERENCES ".toList ++ a :: rest := by
      unfold strings.TrimSpace
      rw [dropWhile_isSpace_of_head ("REFERENCES ".toList ++ a :: rest) (by
        intro c hc
        have hR : 'R' = c := by simpa using hc
        rw [← hR]; decide)]
      rw [dropWhile_isSpace_of_head ("REFERENCES ".toList ++ a :: rest).reverse
        (hlast "REFERENCES ".toList)]
      exact List.reverse_reverse _
    have hdrop : strings.TrimSpace
        (("REFERENCES ".toList ++ a :: rest).drop "REFERENCES".toList.length) = a :: rest := by
      have : ("REFERENCES ".toList ++ a :: rest).drop "REFERENCES".toList.length =
          ' ' :: a :: rest := rfl
      rw [this]
      have hd : (' ' :: a :: rest).dropWhile isSpace = a :: rest := by
        have h1 : isSpace ' ' = true := by decide
        have h2 : isSpace a = false := hsp a (List.mem_cons_self _ _)
        simp [List.dropWhile, h1, h2]
      unfold strings.TrimSpace
      rw [hd]
      rw [dropWhile_isSpace_of_head (a :: rest).reverse (hlast [])]
      exact List.reverse_reverse _
    have hpre : strings.HasPrefix (strings.ToUpper ("REFERENCES ".toList ++ a :: rest))
        "REFERENCES".toList = true := by
      simp [strings.HasPrefix, strings.ToUpper, List.isPrefixOf]
      decide
    unfold ParseReference
    simp only [htrim, hpre, hdrop, scanTablePart_of_bare (a :: rest) 0 h]
    rfl
/-- C17, evaluation at the failing input: for the bare tag
`REFERENCES Category` the boundary scan finds neither a closing parenthesis nor
a marker, reads `tag[index]` at `index = len(tag)` and panics with an index out
of range; `ParseReference` returns nothing. With an action clause after the
name the scan stops at the marker ` ON`. -/
theorem C17_bare_reference_reads_out_of_range :
    scanTablePart "Category".toList 0 = .error .indexOutOfRange ∧
    ParseReference "category_id".toList [modelCategory] "REFERENCES Category".toList =
      .error .indexOutOfRange ∧
    ParseReference "category_id".toList [modelCategory]
        "REFERENCES Category ON DELETE CASCADE".toList =
      .ok (.ok { columnsName := ["category_id".toList], foreignTable := modelCategory,
                 onDeleteVal := "CASCADE".toList }) := by
  decide

/-- C18, evaluation at the failing input: `ON` is contained in `CONSTRAINT`
and `NOT` in `NOT NULL`, so outside a parenthesised list the capture stops at
them: without a column list, and after a column list split over tokens, the
action clauses are cut off. Only a column list written as one token keeps the
capture going, because `inParentheses` is then never cleared. A target name
contained in a keyword (`T` in `CONSTRAINT`) ends the capture at once. -/
theorem C18_action_clauses_are_cut_off :
    isConstraintKeyword "ON".toList = true ∧
    extractReferencesClause
        ["REFERENCES".toList, "Category".toList, "ON".toList, "DELETE".toList,
         "CASCADE".toList] = "REFERENCES Category".toList ∧
    extractReferencesClause
        ["REFERENCES".toList, "Category".toList, "(Id,".toList, "Name)".toList, "ON".toList,
         "DELETE".toList, "CASCADE".toList] = "REFERENCES Category (Id, Name)".toList ∧
    extractReferencesClause
        ["REFERENCES".toList, "Category".toList, "(Id,".toList, "Name)".toList, "MATCH".toList,
         "FULL".toList, "NOT".toList, "DEFERRABLE".toList] =
      "REFERENCES Category (Id, Name) MATCH FULL".toList ∧
    extractReferencesClause
        ["REFERENCES".toList, "T".toList, "(Id)".toList, "ON".toList, "DELETE".toList,
         "CASCADE".toList] = "REFERENCES".toList ∧
    extractReferencesClause
        ["REFERENCES".toList, "Category".toList, "(Id)".toList, "ON".toList, "DELETE".toList,
         "CASCADE".toList] = "REFERENCES Category (Id) ON DELETE CASCADE".toList := by
  decide

set_option maxRecDepth 100000 in
/-- C19, evaluation at the failing input: for the annotation
`REFERENCES Category (Id) NOT NULL` the captured clause is the whole
annotation, the cursor is moved past `NULL`, and the column carries the
REFERENCES fragment only: NOT NULL is never applied. With the column list
split over two tokens the capture ends before `NOT` and both fragments are
added. -/
theorem C19_constraint_after_references_is_swallowed :
    extractReferencesClause (strings.Fields "REFERENCES Category (Id) NOT NULL".toList) =
      "REFERENCES Category (Id) NOT NULL".toList ∧
    ({ NewColumn "category_id".toList INTEGER with models := [modelCategory] }).parseColumnTag
        "REFERENCES Category (Id) NOT NULL".toList =
      .ok { NewColumn "category_id".toList INTEGER with
        models := [modelCategory]
        hasForeignKey := true
        constraint := ["REFERENCES category (id)".toList] } ∧
    ({ NewColumn "category_id".toList INTEGER with models := [modelCategory] }).parseColumnTag
        "REFERENCES Category (Id, Name) NOT NULL".toList =
      .ok { NewColumn "category_id".toList INTEGER with
        models := [modelCategory]
        hasForeignKey := true
        hasNotNull := true
        constraint := ["REFERENCES category (id, name)".toList, "NOT NULL".toList] } := by
  decide

/-! ## Tokens that no branch recognises -/

theorem step_of_unrecognised (tokens : List Str) (i : Nat) (c : Column)
    (hne : strings.ToUpper (tokens.getD i []) ≠ CONSTRAINT)
    (hnot : containedInKeyword (tokens.getD i []) = false) :
    parseColumnTagStep tokens i c = .ok (i, c) := by
  unfold containedInKeyword at hnot
  simp only [Bool.or_eq_false_iff] at hnot
  obtain ⟨⟨⟨⟨⟨⟨⟨h1, h2⟩, h3⟩, h4⟩, h5⟩, h6⟩, h7⟩, h8⟩ := hnot
  unfold parseColumnTagStep
  simp only [hne, false_and, decide_False, Bool.false_eq_true, if_false, h1, h2, h3, h4, h5, h6,
    h7, h8]

theorem loop_of_unrecognised (tokens : List Str) (c : Column)
    (h : ∀ t ∈ tokens, strings.ToUpper t ≠ CONSTRAINT ∧ containedInKeyword t = false) :
    ∀ (fuel i : Nat), tokens.length - i ≤ fuel → parseColumnTagLoop fuel tokens i c = .ok c := by
  intro fuel
  induction fuel with
  | zero =>
    intro i hi
    have : ¬ i < tokens.length := by omega
    simp only [parseColumnTagLoop, this, if_false]
  | succ fuel ih =>
    intro i hi
    by_cases hlt : i < tokens.length
    · have hmem : tokens.getD i [] ∈ tokens := by
        rw [List.getD_eq_getElem _ _ hlt]
        exact List.getElem_mem hlt
      have hs := step_of_unrecognised tokens i c (h _ hmem).1 (h _ hmem).2
      simp only [parseColumnTagLoop, hlt, if_true, hs]
      exact ih (i + 1) (by omega)
    · simp only [parseColumnTagLoop, hlt, if_false]

/-- C20, as stated, fails: the tokens `a` and `null` are none of the
recognised keywords and no argument of a clause, yet `a`, contained in
`PRIMARY KEY`, adds a PRIMARY KEY fragment and sets two flags, `null` adds a
NOT NULL fragment, and on a GENERATED column the token `q`, contained in
`UNIQUE`, raises the compatibility panic. -/
theorem C20_part_of_keyword_is_not_skipped :
    (NewColumn "x".toList TEXT).parseColumnTag "a".toList =
      .ok { NewColumn "x".toList TEXT with
        hasPrimaryKey := true
        hasNotNull := true
        constraint := ["PRIMARY KEY ASC".toList] } ∧
    (NewColumn "x".toList TEXT).parseColumnTag "null".toList =
      .ok { NewColumn "x".toList TEXT with
        hasNotNull := true
        constraint := ["NOT NULL".toList] } ∧
    ({ NewColumn "x".toList TEXT with hasGenerated := true }).parseColumnTag "q".toList =
      .error (.msg "GENERATED column cannot be UNIQUE".toList) := by
  decide

/-- C20, amended: a token of ASCII characters at the cursor that is not
`CONSTRAINT` and, in capitals, is not contained as a substring in any of the
keywords `PRIMARY KEY`, `NOT NULL`, `UNIQUE`, `CHECK`, `DEFAULT`, `COLLATE`,
`REFERENCES`, `GENERATED` is skipped: the pass of the token loop leaves the
cursor and the column as they are, without a panic. An annotation made of such
tokens only is parsed to the unchanged column. -/
theorem C20_unrecognised_token_is_skipped (tokens : List Str) (i : Nat) (c : Column)
    (tag : Str)
    (htoken : isASCII (tokens.getD i []) = true ∧
      strings.ToUpper (tokens.getD i []) ≠ CONSTRAINT ∧
      containedInKeyword (tokens.getD i []) = false)
    (hall : ∀ t ∈ strings.Fields tag,
      isASCII t = true ∧ strings.ToUpper t ≠ CONSTRAINT ∧ containedInKeyword t = false) :
    parseColumnTagStep tokens i c = .ok (i, c) ∧ c.parseColumnTag tag = .ok c := by
  refine ⟨step_of_unrecognised tokens i c htoken.2.1 htoken.2.2, ?_⟩
  unfold Column.parseColumnTag
  simp only []
  split_ifs
  · rfl
  · rfl
  · exact loop_of_unrecognised (strings.Fields tag) c (fun t ht => (hall t ht).2) _ 0 (by omega)

/-- C20, witness: the token `indexed` between NOT NULL and UNIQUE, and the
annotation `sparse indexed`. -/
theorem C20_unrecognised_token_is_skipped_witness :
    parseColumnTagStep (strings.Fields "NOT NULL indexed UNIQUE".toList) 2
        (NewColumn "x".toList TEXT) = .ok (2, NewColumn "x".toList TEXT) ∧
    (NewColumn "x".toList TEXT).parseColumnTag "sparse indexed".toList =
      .ok (NewColumn "x".toList TEXT) :=
  C20_unrecognised_token_is_skipped (strings.Fields "NOT NULL indexed UNIQUE".toList) 2
    (NewColumn "x".toList TEXT) "sparse indexed".toList
    (by decide) (by decide)

/-! ## Fields that mean no column -/

theorem ParseStructField_of_no_column (models : List GoValue) (field : StructField)
    (h : field.tag = [] ∨ field.tag = "-".toList) :
    ParseStructField models field = .ok none := by
  unfold ParseStructField
  simp only [h, if_true]

theorem columnsDefinitionLoop_of_nil :
    ∀ (columns : List (Option Column)) (existConstraints : Bool) (result : Str),
      none ∈ columns →
      columnsDefinitionLoop columns existConstraints result = .error .nilDereference := by
  intro columns
  induction columns with
  | nil => intro _ _ h; cases h
  | cons col rest ih =>
    intro existConstraints result h
    cases col with
    | none => rfl
    | some c =>
      have hrest : none ∈ rest := by
        rcases List.mem_cons.mp h with h1 | h1
        · cases h1
        · exact h1
      have hne : rest.isEmpty = false := by
        cases rest with
        | nil => cases hrest
        | cons _ _ => rfl
      unfold columnsDefinitionLoop
      simp only [hne, Bool.false_and, Bool.false_eq_true, if_false]
      exact ih existConstraints _ hrest

theorem getColumnsLoop_nil_mem (foreignTables : List GoValue) :
    ∀ (fields : List StructField) (columns : List (Option Column)),
      getColumnsLoop foreignTables fields = .ok columns →
      (∃ f ∈ fields, f.tag = [] ∨ f.tag = "-".toList) → none ∈ columns := by
  intro fields
  induction fields with
  | nil => intro _ _ h; obtain ⟨f, hf, _⟩ := h; cases hf
  | cons field rest ih =>
    intro columns hok h
    unfold getColumnsLoop at hok
    cases href : ParseStructField foreignTables field with
    | error p => rw [href] at hok; cases hok
    | ok ref =>
      rw [href] at hok
      cases hrest : getColumnsLoop foreignTables rest with
      | error p => rw [hrest] at hok; cases hok
      | ok columns1 =>
        rw [hrest] at hok
        injection hok with hok
        subst hok
        obtain ⟨f, hf, htag⟩ := h
        rcases List.mem_cons.mp hf with h1 | h1
        · subst h1
          rw [ParseStructField_of_no_column foreignTables f htag] at href
          injection href with href
          subst href
          exact List.mem_cons_self _ _
        · exact List.mem_cons_of_mem _ (ih columns1 hrest ⟨f, h1, htag⟩)

/-- A table with no backing SELECT whose model has a field with the empty
annotation or the annotation `-` is never rendered: `Table.Build` panics, with
the nil dereference when the annotations of all fields are parsed. -/
theorem build_of_field_without_column (t : Table) (hsel : t.selectSTMT = none)
    (h : ∃ f ∈ GetStructFields t.model, f.tag = [] ∨ f.tag = "-".toList) :
    (∃ p, t.Build = .error p) ∧
    ((∃ columns, t.getColumns = .ok columns) → t.Build = .error .nilDereference) := by
  have key : ∀ columns, t.getColumns = .ok columns → t.Build = .error .nilDereference := by
    intro columns hc
    have hmem := getColumnsLoop_nil_mem t.foreignTables _ columns hc h
    unfold Table.Build
    simp only [hsel, Table.buildColumnsDefinition, hc,
      columnsDefinitionLoop_of_nil columns _ _ hmem]
  refine ⟨?_, fun ⟨columns, hc⟩ => key columns hc⟩
  cases hc : t.getColumns with
  | ok columns => exact ⟨_, key columns hc⟩
  | error p =>
    refine ⟨p, ?_⟩
    unfold Table.Build
    simp only [hsel, Table.buildColumnsDefinition, hc]

set_option maxRecDepth 100000 in
/-- C21, evaluation at the failing input: `ParseStructField` returns no column
for the empty annotation and for `-`, but `Table.getColumns` keeps the nil
column and `Table.buildColumnsDefinition` calls `Build` on it: for the model
with the fields `Id`, `Name`, `Description` (annotation empty) and `Secret`
(annotation `-`) `Table.Build` panics with a nil dereference and renders
nothing. The same model without the last two fields is rendered. -/
theorem C21_field_without_column_panics :
    ParseStructField [] { name := "Description".toList, type := .string, tag := [] } =
      .ok none ∧
    ParseStructField [] { name := "Secret".toList, type := .string, tag := "-".toList } =
      .ok none ∧
    (NewTable modelProduct []).getColumns.map (List.map Option.isSome) =
      .ok [true, true, false, false] ∧
    (NewTable modelProduct []).Build.map Prod.fst = .error .nilDereference ∧
    (NewTable modelProductAnnotated []).Build.map Prod.fst =
      .ok ("CREATE TABLE product (\n\tid INTEGER PRIMARY KEY ASC AUTOINCREMENT,\n\t" ++
        "name TEXT NOT NULL UNIQUE\n)").toList := by
  decide

/-! ## The text of a table -/

theorem join_cons_cons (a b : Str) (rest : List Str) (sep : Str) :
    strings.Join (a :: b :: rest) sep = a ++ sep ++ strings.Join (b :: rest) sep := rfl

theorem join_append_cons (sep : Str) (b : Str) (r : List Str) :
    ∀ l : List Str,
      strings.Join (l ++ b :: r) sep =
        (l.map (fun x => x ++ sep)).flatten ++ strings.Join (b :: r) sep := by
  intro l
  induction l with
  | nil => simp
  | cons a l ih =>
    cases l with
    | nil => simp [join_cons_cons]
    | cons c l =>
      rw [List.cons_append, List.cons_append, join_cons_cons, ← List.cons_append, ih]
      simp [List.append_assoc]

theorem join_tab_lines :
    ∀ l : List Str, l ≠ [] →
      "\t".toList ++ strings.Join l ",\n\t".toList =
        strings.Join (l.map (fun x => "\t".toList ++ x)) ",\n".toList := by
  intro l
  induction l with
  | nil => intro h; exact absurd rfl h
  | cons a l ih =>
    intro _
    cases l with
    | nil => rfl
    | cons b l =>
      rw [List.map_cons, List.map_cons, join_cons_cons, join_cons_cons, ← List.map_cons,
        ← ih (by simp)]
      simp [List.append_assoc]

theorem getColumnsLoop_of_columns (foreignTables : List GoValue) :
    ∀ (fields : List StructField) (cols : List Column),
      List.Forall₂ (fun field col => ParseStructField foreignTables field = .ok (some col))
        fields cols →
      getColumnsLoop foreignTables fields = .ok (cols.map some) := by
  intro fields cols h
  induction h with
  | nil => rfl
  | cons h _ ih => simp only [getColumnsLoop, h, ih, List.map_cons]

theorem columnsDefinitionLoop_last :
    ∀ (cols : List Column) (result : Str),
      columnsDefinitionLoop (cols.map some) false result =
        .ok (result ++ strings.Join (cols.map Column.Build) ",\n\t".toList) := by
  intro cols
  induction cols with
  | nil => intro result; simp [columnsDefinitionLoop, strings.Join]
  | cons c cols ih =>
    intro result
    cases cols with
    | nil => simp [columnsDefinitionLoop, strings.Join]
    | cons d cols =>
      rw [List.map_cons, columnsDefinitionLoop]
      simp only [List.map_cons, List.isEmpty_cons, Bool.false_and, Bool.false_eq_true, if_false]
      rw [← List.map_cons, ih]
      simp [join_cons_cons, List.append_assoc]

theorem columnsDefinitionLoop_more :
    ∀ (cols : List Column) (result : Str),
      columnsDefinitionLoop (cols.map some) true result =
        .ok (result ++ (cols.map (fun c => c.Build ++ ",\n\t".toList)).flatten) := by
  intro cols
  induction cols with
  | nil => intro result; simp [columnsDefinitionLoop]
  | cons c cols ih =>
    intro result
    rw [List.map_cons, columnsDefinitionLoop]
    simp only [Bool.not_true, Bool.and_false, Bool.false_eq_true, if_false]
    rw [ih]
    simp [List.append_assoc]

/-- The body of a table: a tab, then the column definitions and the table-level
constraints, joined by a comma, a line break and a tab. -/
theorem columns_and_constraints (cols : List Column) (constraints : List Str) (columns : Str)
    (h : columnsDefinitionLoop (cols.map some) (decide (constraints.length > 0)) "\t".toList =
      .ok columns) :
    columns ++ strings.Join constraints ",\n\t".toList =
      "\t".toList ++ strings.Join (cols.map Column.Build ++ constraints) ",\n\t".toList := by
  cases constraints with
  | nil =>
    have hd : decide (([] : List Str).length > 0) = false := by decide
    rw [hd, columnsDefinitionLoop_last] at h
    injection h with h
    subst h
    simp [strings.Join]
  | cons b r =>
    have hd : decide ((b :: r).length > 0) = true := by simp
    rw [hd, columnsDefinitionLoop_more] at h
    injection h with h
    subst h
    rw [join_append_cons, List.map_map]
    simp only [List.append_assoc]
    rfl

theorem call_fields (t t1 : Table) (call : TableCall) (h : t.call call = .ok t1) :
    t1.model = t.model ∧ t1.foreignTables = t.foreignTables ∧ t1.name = t.name ∧
    t1.temporary = (t.temporary || call.isTemporary) ∧
    t1.ifNotExists = (t.ifNotExists || call.isIfNotExists) ∧
    t1.withoutRowID = (t.withoutRowID || call.isWithouRowID) ∧
    t1.strict = (t.strict || call.isStrict) ∧
    t1.schema = schemaAfter t.schema call ∧
    (call.isSelect = false → t1.selectSTMT = t.selectSTMT) ∧
    ((call.entry = none ∧ t1.constraints = t.constraints) ∨
      ∃ entry, call.entry = some (.ok entry) ∧ t1.constraints = t.constraints ++ [entry]) := by
  cases call with
  | temporary | ifNotExists | withouRowID | strict =>
    injection h with h
    subst h
    simp [Table.Temporary, Table.IfNotExists, Table.WithouRowID, Table.Strict,
      TableCall.isTemporary, TableCall.isIfNotExists, TableCall.isWithouRowID,
      TableCall.isStrict, TableCall.isSelect, TableCall.entry, schemaAfter]
  | schema schemaName =>
    injection h with h
    subst h
    simp [Table.Schema, TableCall.isTemporary, TableCall.isIfNotExists,
      TableCall.isWithouRowID, TableCall.isStrict, TableCall.isSelect, TableCall.entry,
      schemaAfter]
  | select statement =>
    injection h with h
    subst h
    simp [Table.Select, TableCall.isTemporary, TableCall.isIfNotExists,
      TableCall.isWithouRowID, TableCall.isStrict, TableCall.isSelect, TableCall.entry,
      schemaAfter]
  | check constraintName expression =>
    injection h with h
    subst h
    simp [Table.Check, TableCall.isTemporary, TableCall.isIfNotExists,
      TableCall.isWithouRowID, TableCall.isStrict, TableCall.isSelect, TableCall.entry,
      schemaAfter]
  | primaryKey constraintName key =>
    simp only [Table.call, Table.PrimaryKey] at h
    cases hk : key.Build with
    | error p => rw [hk] at h; cases h
    | ok text =>
      rw [hk] at h
      injection h with h
      subst h
      simp [TableCall.isTemporary, TableCall.isIfNotExists, TableCall.isWithouRowID,
        TableCall.isStrict, TableCall.isSelect, TableCall.entry, schemaAfter, hk, Except.map]
  | unique constraintName key =>
    simp only [Table.call, Table.Unique] at h
    cases hk : key.Build with
    | error p => rw [hk] at h; cases h
    | ok text =>
      rw [hk] at h
      injection h with h
      subst h
      simp [TableCall.isTemporary, TableCall.isIfNotExists, TableCall.isWithouRowID,
        TableCall.isStrict, TableCall.isSelect, TableCall.entry, schemaAfter, hk, Except.map]
  | foreignKey constraintName key =>
    simp only [Table.call, Table.ForeignKey] at h
    cases hk : key.Build with
    | error p => rw [hk] at h; cases h
    | ok text =>
      rw [hk] at h
      injection h with h
      subst h
      simp [TableCall.isTemporary, TableCall.isIfNotExists, TableCall.isWithouRowID,
        TableCall.isStrict, TableCall.isSelect, TableCall.entry, schemaAfter, hk, Except.map]

theorem callAll_fields :
    ∀ (calls : List TableCall) (t0 t : Table), t0.callAll calls = .ok t →
      t.model = t0.model ∧ t.foreignTables = t0.foreignTables ∧ t.name = t0.name ∧
      t.temporary = (t0.temporary || calls.any TableCall.isTemporary) ∧
      t.ifNotExists = (t0.ifNotExists || calls.any TableCall.isIfNotExists) ∧
      t.withoutRowID = (t0.withoutRowID || calls.any TableCall.isWithouRowID) ∧
      t.strict = (t0.strict || calls.any TableCall.isStrict) ∧
      t.schema = calls.foldl schemaAfter t0.schema ∧
      (calls.any TableCall.isSelect = false → t.selectSTMT = t0.selectSTMT) ∧
      ∃ entries, t.constraints = t0.constraints ++ entries ∧
        List.Forall₂ (fun call entry => call.entry = some (.ok entry))
          (calls.filter (fun call => call.entry.isSome)) entries := by
  intro calls
  induction calls with
  | nil =>
    intro t0 t h
    injection h with h
    subst h
    simp
  | cons call rest ih =>
    intro t0 t h
    unfold Table.callAll at h
    cases h1 : t0.call call with
    | error p => rw [h1] at h; cases h
    | ok t1 =>
      rw [h1] at h
      obtain ⟨a1, a2, a3, a4, a5, a6, a7, a8, a9, a10⟩ := call_fields t0 t1 call h1
      obtain ⟨b1, b2, b3, b4, b5, b6, b7, b8, b9, entries, b10, b11⟩ := ih t1 t h
      refine ⟨b1.trans a1, b2.trans a2, b3.trans a3, ?_, ?_, ?_, ?_, ?_, ?_, ?_⟩
      · rw [b4, a4, List.any_cons, Bool.or_assoc]
      · rw [b5, a5, List.any_cons, Bool.or_assoc]
      · rw [b6, a6, List.any_cons, Bool.or_assoc]
      · rw [b7, a7, List.any_cons, Bool.or_assoc]
      · rw [b8, a8, List.foldl_cons]
      · intro hs
        rw [List.any_cons, Bool.or_eq_false_iff] at hs
        exact (b9 hs.2).trans (a9 hs.1)
      · rcases a10 with ⟨hnone, hc⟩ | ⟨entry, hsome, hc⟩
        · refine ⟨entries, by rw [b10, hc], ?_⟩
          rw [List.filter_cons, hnone]
          simpa using b11
        · refine ⟨entry :: entries, by rw [b10, hc, List.append_assoc]; rfl, ?_⟩
          rw [List.filter_cons, hsome]
          simp only [Option.isSome_some, if_true]
          exact List.Forall₂.cons hsome b11

/-- The text of a table with no backing SELECT, from the calls that made it
and the rendered column definitions. -/
theorem build_of_calls (model : GoValue) (foreignTables : List GoValue)
    (calls : List TableCall) (t : Table) (columns : Str)
    (hcalls : (NewTable model foreignTables).callAll calls = .ok t)
    (hsel : calls.any TableCall.isSelect = false)
    (hbody : t.buildColumnsDefinition (decide (t.constraints.length > 0)) = .ok columns) :
    t.Build = .ok
      ("CREATE".toList ++
        (if calls.any TableCall.isTemporary = true then " TEMP".toList else []) ++
        " TABLE".toList ++
        (if calls.any TableCall.isIfNotExists = true then " IF NOT EXISTS".toList else []) ++
        " ".toList ++
        (if schemaSet calls ≠ [] then schemaSet calls ++ ".".toList else []) ++
        ToSnakeCase (GetStructName model) ++
        " (\n".toList ++ (columns ++ strings.Join t.constraints ",\n\t".toList) ++
        "\n)".toList ++
        (if calls.any TableCall.isWithouRowID = true then " WITHOUT ROWID".toList else []) ++
        (if calls.any TableCall.isStrict = true then
          (if calls.any TableCall.isWithouRowID = true then ", STRICT".toList
           else " STRICT".toList)
         else []), t) := by
  obtain ⟨_, _, h3, h4, h5, h6, h7, h8, h9, _⟩ :=
    callAll_fields calls (NewTable model foreignTables) t hcalls
  have hs : t.selectSTMT = none := h9 hsel
  have h4a : t.temporary = calls.any TableCall.isTemporary := by rw [h4]; rfl
  have h5a : t.ifNotExists = calls.any TableCall.isIfNotExists := by rw [h5]; rfl
  have h6a : t.withoutRowID = calls.any TableCall.isWithouRowID := by rw [h6]; rfl
  have h7a : t.strict = calls.any TableCall.isStrict := by rw [h7]; rfl
  have h8a : t.schema = schemaSet calls := h8
  have h3a : t.name = GetStructName model := h3
  unfold Table.Build
  simp only [hs, hbody, h4a, h5a, h6a, h7a, h8a, h3a]
  cases calls.any TableCall.isTemporary <;> cases calls.any TableCall.isIfNotExists <;>
    cases calls.any TableCall.isWithouRowID <;> cases calls.any TableCall.isStrict <;>
    simp [List.append_assoc]

/-- C22: for a table made by `NewTable` and any sequence of method calls
without `Select`, whose column definitions are rendered, `Table.Build` returns
`CREATE`, ` TEMP` exactly when `Temporary` was called, ` TABLE`,
` IF NOT EXISTS` exactly when `IfNotExists` was called, a space, the schema
name and a dot exactly when the schema set last is not empty, the table name
in snake case, ` (`, a line break, the body, a line break, `)`, then
` WITHOUT ROWID` exactly when `WithouRowID` was called and, exactly when
`Strict` was called, `, STRICT` after WITHOUT ROWID and ` STRICT` otherwise. -/
theorem C22_table_build_options (model : GoValue) (foreignTables : List GoValue)
    (calls : List TableCall) (t : Table) (columns : Str)
    (hcalls : (NewTable model foreignTables).callAll calls = .ok t)
    (hsel : calls.any TableCall.isSelect = false)
    (hbody : t.buildColumnsDefinition (decide (t.constraints.length > 0)) = .ok columns) :
    t.Build = .ok
      ("CREATE".toList ++
        (if calls.any TableCall.isTemporary = true then " TEMP".toList else []) ++
        " TABLE".toList ++
        (if calls.any TableCall.isIfNotExists = true then " IF NOT EXISTS".toList else []) ++
        " ".toList ++
        (if schemaSet calls ≠ [] then schemaSet calls ++ ".".toList else []) ++
        ToSnakeCase (GetStructName model) ++
        " (\n".toList ++ (columns ++ strings.Join t.constraints ",\n\t".toList) ++
        "\n)".toList ++
        (if calls.any TableCall.isWithouRowID = true then " WITHOUT ROWID".toList else []) ++
        (if calls.any TableCall.isStrict = true then
          (if calls.any TableCall.isWithouRowID = true then ", STRICT".toList
           else " STRICT".toList)
         else []), t) :=
  build_of_calls model foreignTables calls t columns hcalls hsel hbody

set_option maxRecDepth 100000 in
/-- C22, witness: the model `T` after
`Temporary().IfNotExists().Schema("main").WithouRowID().Strict()` and a named
CHECK. -/
theorem C22_table_build_options_witness :
    ({ NewTable modelT [] with
        temporary := true
        ifNotExists := true
        schema := "main".toList
        withoutRowID := true
        strict := true
        constraints := ["CONSTRAINT positive CHECK (id > 0)".toList] } : Table).Build.map
      Prod.fst =
      .ok ("CREATE TEMP TABLE IF NOT EXISTS main.t (\n\tid INTEGER PRIMARY KEY ASC " ++
        "AUTOINCREMENT,\n\tname TEXT NOT NULL,\n\tCONSTRAINT positive CHECK (id > 0)\n) " ++
        "WITHOUT ROWID, STRICT").toList :=
  (congrArg (Except.map Prod.fst)
    (C22_table_build_options modelT [] optionCalls
      { NewTable modelT [] with
        temporary := true
        ifNotExists := true
        schema := "main".toList
        withoutRowID := true
        strict := true
        constraints := ["CONSTRAINT positive CHECK (id > 0)".toList] }
      "\tid INTEGER PRIMARY KEY ASC AUTOINCREMENT,\n\tname TEXT NOT NULL,\n\t".toList
      rfl (by decide) (by decide))).trans (by decide)

/-- C23: for a table made by `NewTable` and any sequence of method calls
without `Select`, every field of whose model is parsed to a column, the
table-level constraints are the entries of the calls of `PrimaryKey`, `Unique`,
`Check` and `ForeignKey` in the order of the calls (behind `CONSTRAINT <name> `
when named), and the body that `Table.Build` renders between ` (` and `)` is a
tab followed by the column definitions, in the order of the fields, and then
the constraints, all joined by a comma, a line break and a tab: every entry is
on a line of its own behind one tab, and nothing follows the last entry. -/
theorem C23_columns_then_constraints (model : GoValue) (foreignTables : List GoValue)
    (calls : List TableCall) (t : Table) (cols : List Column)
    (hcalls : (NewTable model foreignTables).callAll calls = .ok t)
    (hsel : calls.any TableCall.isSelect = false)
    (hcols : List.Forall₂
      (fun field col => ParseStructField foreignTables field = .ok (some col))
      (GetStructFields model) cols) :
    List.Forall₂ (fun call entry => call.entry = some (.ok entry))
      (calls.filter (fun call => call.entry.isSome)) t.constraints ∧
    t.Build = .ok
      ("CREATE".toList ++
        (if calls.any TableCall.isTemporary = true then " TEMP".toList else []) ++
        " TABLE".toList ++
        (if calls.any TableCall.isIfNotExists = true then " IF NOT EXISTS".toList else []) ++
        " ".toList ++
        (if schemaSet calls ≠ [] then schemaSet calls ++ ".".toList else []) ++
        ToSnakeCase (GetStructName model) ++
        " (\n".toList ++
        ("\t".toList ++
          strings.Join (cols.map Column.Build ++ t.constraints) ",\n\t".toList) ++
        "\n)".toList ++
        (if calls.any TableCall.isWithouRowID = true then " WITHOUT ROWID".toList else []) ++
        (if calls.any TableCall.isStrict = true then
          (if calls.any TableCall.isWithouRowID = true then ", STRICT".toList
           else " STRICT".toList)
         else []), t) ∧
    (cols.map Column.Build ++ t.constraints ≠ [] →
      "\t".toList ++ strings.Join (cols.map Column.Build ++ t.constraints) ",\n\t".toList =
        strings.Join ((cols.map Column.Build ++ t.constraints).map
          (fun entry => "\t".toList ++ entry)) ",\n".toList) := by
  obtain ⟨h1, h2, _, _, _, _, _, _, _, entries, h10, h11⟩ :=
    callAll_fields calls (NewTable model foreignTables) t hcalls
  have hcons : t.constraints = entries := by rw [h10]; rfl
  have hget : t.getColumns = .ok (cols.map some) := by
    unfold Table.getColumns
    rw [h1, h2]
    exact getColumnsLoop_of_columns foreignTables _ cols hcols
  have hloop : ∃ columns,
      columnsDefinitionLoop (cols.map some) (decide (t.constraints.length > 0)) "\t".toList =
        .ok columns := by
    cases decide (t.constraints.length > 0) with
    | false => exact ⟨_, columnsDefinitionLoop_last cols _⟩
    | true => exact ⟨_, columnsDefinitionLoop_more cols _⟩
  obtain ⟨columns, hloop⟩ := hloop
  have hbody : t.buildColumnsDefinition (decide (t.constraints.length > 0)) = .ok columns := by
    unfold Table.buildColumnsDefinition
    rw [hget]
    exact hloop
  refine ⟨hcons ▸ h11, ?_, join_tab_lines _⟩
  rw [← columns_and_constraints cols t.constraints columns hloop]
  exact build_of_calls model foreignTables calls t columns hcalls hsel hbody

set_option maxRecDepth 100000 in
/-- C23, witness: the model `T` with a named PRIMARY KEY, a UNIQUE with a
conflict clause, a CHECK and a named FOREIGN KEY, called in that order. -/
theorem C23_columns_then_constraints_witness :
    ({ NewTable modelT [] with
        constraints :=
          ["CONSTRAINT pk_t PRIMARY KEY (id)".toList,
           "UNIQUE (name) ON CONFLICT ROLLBACK".toList,
           "CHECK (id > 0)".toList,
           ("CONSTRAINT fk_t FOREIGN KEY (category_id) REFERENCES category (id) " ++
             "ON DELETE CASCADE ON UPDATE SET NULL MATCH FULL DEFERRABLE " ++
             "INITIALLY DEFERRED").toList] } : Table).Build.map Prod.fst =
      .ok ("CREATE TABLE t (\n\tid INTEGER PRIMARY KEY ASC AUTOINCREMENT,\n" ++
        "\tname TEXT NOT NULL,\n" ++
        "\tCONSTRAINT pk_t PRIMARY KEY (id),\n" ++
        "\tUNIQUE (name) ON CONFLICT ROLLBACK,\n" ++
        "\tCHECK (id > 0),\n" ++
        "\tCONSTRAINT fk_t FOREIGN KEY (category_id) REFERENCES category (id) " ++
        "ON DELETE CASCADE ON UPDATE SET NULL MATCH FULL DEFERRABLE " ++
        "INITIALLY DEFERRED\n)").toList :=
  (congrArg (Except.map Prod.fst)
    (C23_columns_then_constraints modelT [] constraintCalls
      { NewTable modelT [] with
        constraints :=
          ["CONSTRAINT pk_t PRIMARY KEY (id)".toList,
           "UNIQUE (name) ON CONFLICT ROLLBACK".toList,
           "CHECK (id > 0)".toList,
           ("CONSTRAINT fk_t FOREIGN KEY (category_id) REFERENCES category (id) " ++
             "ON DELETE CASCADE ON UPDATE SET NULL MATCH FULL DEFERRABLE " ++
             "INITIALLY DEFERRED").toList] }
      columnsOfT rfl (by decide)
      (List.Forall₂.cons (by decide) (List.Forall₂.cons (by decide) List.Forall₂.nil))).2.1).trans
    (by decide)

/-! ## The text of an index -/

/-- The column list of `Index.Build`: every column is followed by `, `, the
last one as well. -/
theorem indexColumnsLoop_of_texts :
    ∀ (columns : List IndexedColumn) (texts : List Str) (col : Str),
      List.Forall₂ (fun column text => column.Build = .ok text) columns texts →
      indexColumnsLoop columns col =
        .ok (col ++ (texts.map (fun text => text ++ ", ".toList)).flatten) := by
  intro columns texts col h
  induction h generalizing col with
  | nil => simp [indexColumnsLoop]
  | cons h _ ih =>
    simp only [indexColumnsLoop, h, ih, List.map_cons, List.flatten_cons, List.append_assoc]

/-- What `Index.Build` returns for an index whose columns are rendered: after
the last column there is a separator. -/
theorem index_build_text (i : Index) (texts : List Str)
    (h : List.Forall₂ (fun column text => column.Build = .ok text) i.columns texts) :
    i.Build = .ok
      ("CREATE ".toList ++ (if i.unique = true then "UNIQUE ".toList else []) ++
        "INDEX ".toList ++ (if i.ifNotExists = true then "IF NOT EXISTS ".toList else []) ++
        (if i.schemaName ≠ [] then i.schemaName ++ ".".toList else []) ++ i.name ++
        " ON ".toList ++ GetStructName i.table ++ " (".toList ++
        (texts.map (fun text => text ++ ", ".toList)).flatten ++ ")".toList ++
        (match i.where_ with
         | some e => " WHERE ".toList ++ e.Build
         | none => [])) := by
  unfold Index.Build
  rw [indexColumnsLoop_of_texts i.columns texts [] h]
  cases i.where_ <;> simp

set_option maxRecDepth 100000 in
/-- C24, evaluation at the failing input: `Index.Build` appends `, ` after
every column, the last one as well, so the index on the column `Name` of the
model `T` is rendered with `(name, )`, and with every option set and two
columns the list is `(id DESC, name, )`. With `strings.Join`, as the claim has
it, the lists are `(name)` and `(id DESC, name)`. -/
theorem C24_separator_after_last_column :
    (NewIndex modelT "idx_t_name".toList [NewIndexedColumnNames "Name".toList]).Build =
      .ok "CREATE INDEX idx_t_name ON T (name, )".toList ∧
    ((((NewIndex modelT "idx_t".toList
        [(NewIndexedColumnNames "Id".toList).DESC, NewIndexedColumnNames "Name".toList]).Unique
        ).IfNotExists.Schema "main".toList).Where (NewExpression "name IS NOT NULL".toList)).Build =
      .ok ("CREATE UNIQUE INDEX IF NOT EXISTS main.idx_t ON T (id DESC, name, ) " ++
        "WHERE name IS NOT NULL").toList ∧
    strings.Join ["id DESC".toList, "name".toList] ", ".toList = "id DESC, name".toList := by
  decide

set_option maxRecDepth 100000 in
/-- C25, evaluation at the failing input: for the model `OrderItem`,
`Table.Build` and `Join.Build` render the name as `order_item`, but
`Index.Build` renders the target table as `OrderItem`, the name that
`GetStructName` returns, without `ToSnakeCase`. -/
theorem C25_index_target_is_not_snake_case :
    (NewTable modelOrderItem []).Build.map Prod.fst =
      .ok ("CREATE TABLE order_item (\n\tid INTEGER PRIMARY KEY ASC AUTOINCREMENT,\n\t" ++
        "quantity INTEGER NOT NULL\n)").toList ∧
    (Join.Build (NewTableJoin "INNER JOIN".toList "OrderItem".toList)).1 =
      "INNER JOIN order_item".toList ∧
    (NewIndex modelOrderItem "idx_orderitem_order".toList []).Build =
      .ok "CREATE INDEX idx_orderitem_order ON OrderItem ()".toList ∧
    GetStructName modelOrderItem = "OrderItem".toList ∧
    ToSnakeCase (GetStructName modelOrderItem) = "order_item".toList := by
  decide

/-! ## The schema script -/

theorem schemaPragmasLoop_eq :
    ∀ (pragmas : List Pragma) (schema : Str),
      schemaPragmasLoop pragmas schema =
        schema ++ (pragmas.map (fun pragma => pragma.Build ++ ";\n".toList)).flatten := by
  intro pragmas
  induction pragmas with
  | nil => intro schema; simp [schemaPragmasLoop]
  | cons p rest ih =>
    intro schema
    simp only [schemaPragmasLoop, ih, List.map_cons, List.flatten_cons, List.append_assoc]

theorem schemaTablesLoop_of_texts :
    ∀ (tables : List Table) (texts : List Str) (schema : Str),
      List.Forall₂ (fun table text => table.Build.map Prod.fst = .ok text) tables texts →
      (schemaTablesLoop tables schema).map Prod.fst =
        .ok (schema ++ (texts.map (fun text => text ++ ";\n\n".toList)).flatten) := by
  intro tables texts schema h
  induction h generalizing schema with
  | nil => simp [schemaTablesLoop, Except.map]
  | @cons table text tables texts h _ ih =>
    unfold schemaTablesLoop
    cases hb : table.Build with
    | error p => rw [hb] at h; cases h
    | ok r =>
      obtain ⟨text1, table1⟩ := r
      rw [hb] at h
      injection h with h
      simp only at h
      subst h
      have ih1 := ih (schema ++ text1 ++ ";\n\n".toList)
      cases hr : schemaTablesLoop tables (schema ++ text1 ++ ";\n\n".toList) with
      | error p => rw [hr] at ih1; cases ih1
      | ok r1 =>
        obtain ⟨schema1, rest1⟩ := r1
        rw [hr] at ih1
        injection ih1 with ih1
        simp only at ih1
        subst ih1
        simp only [hr]
        simp [Except.map, List.append_assoc]

theorem schemaIndexesLoop_of_texts :
    ∀ (indexes : List Index) (texts : List Str) (schema : Str),
      List.Forall₂ (fun index text => index.Build = .ok text) indexes texts →
      schemaIndexesLoop indexes schema =
        .ok (schema ++ (texts.map (fun text => text ++ ";\n".toList)).flatten) := by
  intro indexes texts schema h
  induction h generalizing schema with
  | nil => simp [schemaIndexesLoop]
  | cons h _ ih =>
    simp only [schemaIndexesLoop, h, ih, List.map_cons, List.flatten_cons, List.append_assoc]

theorem schema_calls_fields :
    ∀ (calls : List SchemaCall) (s : Schema),
      (calls.foldl Schema.call s).pragmas = s.pragmas ++ calls.flatMap SchemaCall.pragmas ∧
      (calls.foldl Schema.call s).tables = s.tables ++ calls.flatMap SchemaCall.tables ∧
      (calls.foldl Schema.call s).indexes = s.indexes ++ calls.flatMap SchemaCall.indexes := by
  intro calls
  induction calls with
  | nil => intro s; simp
  | cons call rest ih =>
    intro s
    rw [List.foldl_cons]
    obtain ⟨h1, h2, h3⟩ := ih (s.call call)
    rw [h1, h2, h3]
    cases call <;>
      simp [Schema.call, Schema.Pragma, Schema.Table, Schema.Index, SchemaCall.pragmas,
        SchemaCall.tables, SchemaCall.indexes, List.flatMap_cons]

/-- C26: for a schema made by `NewSchema` and any sequence of calls of
`Pragma`, `Table` and `Index`, all of whose tables and indexes are rendered,
`Schema.Build` returns the text of every pragma followed by `;` and a line
break, in the order in which the pragmas were added, then one line break, then
the text of every table followed by `;` and two line breaks, in the order in
which the tables were added, then the text of every index followed by `;` and
a line break, in the order in which the indexes were added, whatever the order
of the calls. -/
theorem C26_schema_script_order (name : Str) (calls : List SchemaCall)
    (tableTexts indexTexts : List Str)
    (htables : List.Forall₂ (fun table text => table.Build.map Prod.fst = .ok text)
      (calls.flatMap SchemaCall.tables) tableTexts)
    (hindexes : List.Forall₂ (fun index text => index.Build = .ok text)
      (calls.flatMap SchemaCall.indexes) indexTexts) :
    (calls.foldl Schema.call (NewSchema name)).Build.map Prod.fst =
      .ok (((calls.flatMap SchemaCall.pragmas).map
          (fun pragma => pragma.Build ++ ";\n".toList)).flatten ++
        "\n".toList ++
        (tableTexts.map (fun text => text ++ ";\n\n".toList)).flatten ++
        (indexTexts.map (fun text => text ++ ";\n".toList)).flatten) := by
  obtain ⟨h1, h2, h3⟩ := schema_calls_fields calls (NewSchema name)
  have h1a : (calls.foldl Schema.call (NewSchema name)).pragmas =
      calls.flatMap SchemaCall.pragmas := by rw [h1]; rfl
  have h2a : (calls.foldl Schema.call (NewSchema name)).tables =
      calls.flatMap SchemaCall.tables := by rw [h2]; rfl
  have h3a : (calls.foldl Schema.call (NewSchema name)).indexes =
      calls.flatMap SchemaCall.indexes := by rw [h3]; rfl
  unfold Schema.Build
  simp only [h1a, h2a, h3a, schemaPragmasLoop_eq, List.nil_append]
  have ht := schemaTablesLoop_of_texts _ tableTexts
    (((calls.flatMap SchemaCall.pragmas).map
      (fun pragma => pragma.Build ++ ";\n".toList)).flatten ++ "\n".toList) htables
  cases hr : schemaTablesLoop (calls.flatMap SchemaCall.tables)
      (((calls.flatMap SchemaCall.pragmas).map
        (fun pragma => pragma.Build ++ ";\n".toList)).flatten ++ "\n".toList) with
  | error p => rw [hr] at ht; cases ht
  | ok r =>
    obtain ⟨schema2, tables1⟩ := r
    rw [hr] at ht
    injection ht with ht
    simp only at ht
    subst ht
    simp only [schemaIndexesLoop_of_texts _ indexTexts _ hindexes]
    simp [Except.map, List.append_assoc]

set_option maxRecDepth 100000 in
/-- C26, witness: an index, a table, a pragma, a second table and a second
pragma, added in this order, are rendered as the two pragmas, a line break,
the two tables, and the index. -/
theorem C26_schema_script_order_witness :
    (mixedSchemaCalls.foldl Schema.call (NewSchema "shop.db".toList)).Build.map Prod.fst =
      .ok ("PRAGMA foreign_keys = ON;\nPRAGMA main.journal_mode;\n\n" ++
        "CREATE TABLE t (\n\tid INTEGER PRIMARY KEY ASC AUTOINCREMENT,\n" ++
        "\tname TEXT NOT NULL\n);\n\n" ++
        "CREATE TABLE category (\n\tid INTEGER PRIMARY KEY ASC AUTOINCREMENT,\n" ++
        "\tname TEXT NOT NULL UNIQUE\n);\n\n" ++
        "CREATE INDEX idx_t ON T ();\n").toList :=
  (C26_schema_script_order "shop.db".toList mixedSchemaCalls
    [("CREATE TABLE t (\n\tid INTEGER PRIMARY KEY ASC AUTOINCREMENT,\n" ++
        "\tname TEXT NOT NULL\n)").toList,
     ("CREATE TABLE category (\n\tid INTEGER PRIMARY KEY ASC AUTOINCREMENT,\n" ++
        "\tname TEXT NOT NULL UNIQUE\n)").toList]
    ["CREATE INDEX idx_t ON T ()".toList]
    (List.Forall₂.cons (by decide) (List.Forall₂.cons (by decide) List.Forall₂.nil))
    (List.Forall₂.cons (by decide) List.Forall₂.nil)).trans (by decide)

/-! ## The FROM clause and its joins -/

theorem foldl_from_join (tableName alias_ : Str) (subquery : Option Select) :
    ∀ (more joins : List Join),
      more.foldl From.Join (.mk tableName alias_ subquery joins) =
        .mk tableName alias_ subquery (joins ++ more) := by
  intro more
  induction more with
  | nil => intro joins; simp
  | cons j more ih =>
    intro joins
    rw [List.foldl_cons, From.Join, ih]
    simp

theorem buildJoins_texts :
    ∀ joins : List Join, (buildJoins joins).1 = joins.map (fun j => (Join.Build j).1) := by
  intro joins
  induction joins with
  | nil => simp [buildJoins]
  | cons j joins ih => simp [buildJoins, ih]

theorem join_space_each :
    ∀ (a : Str) (texts : List Str),
      " ".toList ++ strings.Join (a :: texts) " ".toList =
        ((a :: texts).map (fun text => " ".toList ++ text)).flatten := by
  intro a texts
  induction texts generalizing a with
  | nil => simp [strings.Join]
  | cons b texts ih =>
    rw [join_cons_cons, List.map_cons, List.flatten_cons, ← ih b]
    simp [List.append_assoc]

/-- C27: the text of a FROM clause to which joins were attached one after the
other is the text of the source followed, for every join in the order of
attachment, by a space and the text of the join; and the text of a join is the
join type, a space, the table name in snake case or the subquery in
parentheses, then ` AS <alias>` when an alias is set, then ` ON <expr>` when an
ON condition is set, otherwise ` USING (<cols>)` with the columns in snake case
when USING columns are set, otherwise nothing. -/
theorem C27_joins_in_order (tableName alias_ : Str) (subquery : Option Select)
    (joins : List Join) (joinType joinTable joinAlias : Str) (joinSubquery : Option Select)
    (on_ : Option Expression) (using_ : List Str) :
    (From.Build (joins.foldl From.Join (.mk tableName alias_ subquery []))).1 =
      (From.Build (.mk tableName alias_ subquery [])).1 ++
        (joins.map (fun j => " ".toList ++ (Join.Build j).1)).flatten ∧
    (From.Build (.mk tableName alias_ subquery [])).1 =
      joinSource tableName subquery ++
        (if alias_ ≠ [] then " AS ".toList ++ alias_ else []) ∧
    (Join.Build (.mk joinType joinTable joinSubquery joinAlias on_ using_)).1 =
      joinType ++ " ".toList ++ joinSource joinTable joinSubquery ++
        (if joinAlias ≠ [] then " AS ".toList ++ joinAlias else []) ++
        (match on_ with
         | some e => " ON ".toList ++ e.Build
         | none =>
           if using_ ≠ [] then
             " USING (".toList ++ strings.Join (using_.map ToSnakeCase) ", ".toList ++
               ")".toList
           else []) := by
  refine ⟨?_, ?_, ?_⟩
  · rw [foldl_from_join, List.nil_append]
    cases joins with
    | nil =>
      unfold From.Build
      by_cases ht : tableName = [] <;> cases subquery <;> simp [ht]
    | cons j joins =>
      have hj : " ".toList ++ strings.Join (buildJoins (j :: joins)).1 " ".toList =
          ((j :: joins).map (fun j => " ".toList ++ (Join.Build j).1)).flatten := by
        rw [buildJoins_texts, List.map_cons, join_space_each,
          ← List.map_cons (fun j => (Join.Build j).1), List.map_map]
        rfl
      rw [← hj]
      unfold From.Build
      by_cases ht : tableName = [] <;> cases subquery <;> simp [ht, List.append_assoc]
  · unfold From.Build joinSource withAlias
    by_cases ht : tableName = [] <;> cases subquery <;> by_cases ha : alias_ = [] <;>
      simp [ht, ha]
  · unfold Join.Build joinSource withAlias
    by_cases ht : joinTable = [] <;> cases joinSubquery <;> by_cases ha : joinAlias = [] <;>
      cases on_ <;> by_cases hu : using_ = [] <;> simp [ht, ha, hu, List.append_assoc]

/-! ## UNIQUE with a conflict clause, and GENERATED columns -/

set_option maxRecDepth 100000 in
/-- C28, evaluation at the failing input: for the annotation
`UNIQUE ON CONFLICT ROLLBACK` the parser hands only the action word to
`NewColumnUnique`, which renders what it is given behind a space, so the
fragment is `UNIQUE ROLLBACK`, without `ON CONFLICT`. The table-level builder
is given the text of `ConflictClause.String`, `ON CONFLICT ROLLBACK`, and
renders it whole. With a word that is no conflict action the fragment is
`UNIQUE`. -/
theorem C28_unique_conflict_loses_on_conflict :
    (NewColumn "email".toList TEXT).parseColumnTag "UNIQUE ON CONFLICT ROLLBACK".toList =
      .ok { NewColumn "email".toList TEXT with
        hasUnique := true
        constraint := ["UNIQUE ROLLBACK".toList] } ∧
    (NewColumn "email".toList TEXT).parseColumnTag "UNIQUE ON CONFLICT replace".toList =
      .ok { NewColumn "email".toList TEXT with
        hasUnique := true
        constraint := ["UNIQUE REPLACE".toList] } ∧
    (NewColumn "email".toList TEXT).parseColumnTag "UNIQUE ON CONFLICT PURGE".toList =
      .ok { NewColumn "email".toList TEXT with
        hasUnique := true
        constraint := ["UNIQUE".toList] } ∧
    NewColumnUnique (parseConflictClause "ROLLBACK".toList) = "UNIQUE ROLLBACK".toList ∧
    ConflictClause.String ROLLBACK = "ON CONFLICT ROLLBACK".toList ∧
    NewColumnUnique (ConflictClause.String ROLLBACK) = "UNIQUE ON CONFLICT ROLLBACK".toList ∧
    ((NewTableUnique [NewIndexedColumnNames "Email".toList]).OnConflict
        (ConflictClause.String ROLLBACK)).Build =
      .ok "UNIQUE (email) ON CONFLICT ROLLBACK".toList := by
  decide

set_option maxRecDepth 100000 in
/-- C29, evaluation at the failing input: for the annotation
`GENERATED ALWAYS AS ( a + b ) STORED` the fragment is
`GENERATED ALWAYS AS (( a + b ))STORED`: `NewGenerated` formats with
`%sAS (%s)%s`, so the storage keyword follows the closing parenthesis with no
space between them (and the expression, which comes with its parentheses, is
put in a second pair). The same holds for `VIRTUAL`, written or by default.
With the expression written without spaces, as in `cmd/jsonSupport/main.go`,
no fragment is added at all. -/
theorem C29_storage_keyword_without_space :
    (NewColumn "total".toList REAL).parseColumnTag
        "GENERATED ALWAYS AS ( a + b ) STORED".toList =
      .ok { NewColumn "total".toList REAL with
        hasGenerated := true
        constraint := ["GENERATED ALWAYS AS (( a + b ))STORED".toList] } ∧
    (NewColumn "total".toList REAL).parseColumnTag
        "GENERATED ALWAYS AS ( a + b ) VIRTUAL".toList =
      .ok { NewColumn "total".toList REAL with
        hasGenerated := true
        constraint := ["GENERATED ALWAYS AS (( a + b ))VIRTUAL".toList] } ∧
    (NewColumn "total".toList REAL).parseColumnTag "GENERATED ALWAYS AS ( a + b )".toList =
      .ok { NewColumn "total".toList REAL with
        hasGenerated := true
        constraint := ["GENERATED ALWAYS AS (( a + b ))VIRTUAL".toList] } ∧
    NewGenerated true (NewExpression "( a + b )".toList) STORED =
      "GENERATED ALWAYS AS (( a + b ))STORED".toList ∧
    (NewColumn "first_tag".toList TEXT).parseColumnTag
        "GENERATED ALWAYS AS (json_extract(MetadataJSON, '$.tags[0]')) STORED".toList =
      .ok (NewColumn "first_tag".toList TEXT) := by
  decide

set_option maxRecDepth 100000 in
/-- C30, evaluation at the failing input: after `STORED` or `VIRTUAL` the
GENERATED branch sets the cursor to the storage token and then still adds the
length of the expression, so the constraint specs that follow are jumped over:
for `GENERATED ALWAYS AS ( a + b ) STORED` followed by `NOT NULL`, by
`CHECK ( x > 0 )` or by `COLLATE NOCASE`, and for `VIRTUAL` followed by
`NOT NULL`, the column carries the GENERATED fragment only. Without a storage
token the following `NOT NULL` is added. -/
theorem C30_spec_after_storage_keyword_is_dropped :
    (NewColumn "total".toList REAL).parseColumnTag
        "GENERATED ALWAYS AS ( a + b ) STORED NOT NULL".toList =
      .ok { NewColumn "total".toList REAL with
        hasGenerated := true
        constraint := ["GENERATED ALWAYS AS (( a + b ))STORED".toList] } ∧
    (NewColumn "total".toList REAL).parseColumnTag
        "GENERATED ALWAYS AS ( a + b ) STORED CHECK ( x > 0 )".toList =
      .ok { NewColumn "total".toList REAL with
        hasGenerated := true
        constraint := ["GENERATED ALWAYS AS (( a + b ))STORED".toList] } ∧
    (NewColumn "total".toList REAL).parseColumnTag
        "GENERATED ALWAYS AS ( a + b ) STORED COLLATE NOCASE".toList =
      .ok { NewColumn "total".toList REAL with
        hasGenerated := true
        constraint := ["GENERATED ALWAYS AS (( a + b ))STORED".toList] } ∧
    (NewColumn "total".toList REAL).parseColumnTag
        "GENERATED ALWAYS AS ( a + b ) VIRTUAL NOT NULL".toList =
      .ok { NewColumn "total".toList REAL with
        hasGenerated := true
        constraint := ["GENERATED ALWAYS AS (( a + b ))VIRTUAL".toList] } ∧
    generatedBranch
        (strings.Fields "GENERATED ALWAYS AS ( a + b ) STORED NOT NULL".toList) 0 []
        (NewColumn "total".toList REAL) =
      .ok (15, { NewColumn "total".toList REAL with
        hasGenerated := true
        constraint := ["GENERATED ALWAYS AS (( a + b ))STORED".toList] }) ∧
    (NewColumn "total".toList REAL).parseColumnTag
        "GENERATED ALWAYS AS ( a + b ) NOT NULL".toList =
      .ok { NewColumn "total".toList REAL with
        hasGenerated := true
        hasNotNull := true
        constraint := ["GENERATED ALWAYS AS (( a + b ))VIRTUAL".toList, "NOT NULL".toList] } := by
  decide

/-! ## The balanced-parenthesis scan -/

theorem parenDepth_cons (token : Str) (rest : List Str) :
    parenDepth (token :: rest) =
      ((strings.Count token '(' : Int) - (strings.Count token ')' : Int)) + parenDepth rest := by
  simp [parenDepth]

theorem balancedLoop_span :
    ∀ (rest : List Str) (level : Int) (builder : Str),
      (balancedLoop rest level builder = [] ∧
        ∀ n, 0 < n → n ≤ rest.length → level + parenDepth (rest.take n) ≠ 0) ∨
      ∃ n, 0 < n ∧ n ≤ rest.length ∧
        balancedLoop rest level builder =
          strings.TrimSpace
            (builder ++ ((rest.take n).map (fun token => token ++ " ".toList)).flatten) ∧
        level + parenDepth (rest.take n) = 0 ∧
        ∀ m, 0 < m → m < n → level + parenDepth (rest.take m) ≠ 0 := by
  intro rest
  induction rest with
  | nil =>
    intro level builder
    left
    refine ⟨rfl, ?_⟩
    intro n h0 hn
    simp at hn
    omega
  | cons token rest ih =>
    intro level builder
    by_cases h1 : level + (strings.Count token '(' : Int) - (strings.Count token ')' : Int) = 0
    · right
      refine ⟨1, by omega, by simp, ?_, ?_, ?_⟩
      · simp [balancedLoop, h1, List.append_assoc]
      · simp [parenDepth]
        omega
      · intro m h0 hm
        omega
    · have hstep : balancedLoop (token :: rest) level builder =
          balancedLoop rest
            (level + (strings.Count token '(' : Int) - (strings.Count token ')' : Int))
            (builder ++ token ++ " ".toList) := by
        simp [balancedLoop, h1]
      have hd : ∀ k, level + parenDepth ((token :: rest).take (k + 1)) =
          (level + (strings.Count token '(' : Int) - (strings.Count token ')' : Int)) +
            parenDepth (rest.take k) := by
        intro k
        rw [List.take_succ_cons, parenDepth_cons]
        omega
      rcases ih (level + (strings.Count token '(' : Int) - (strings.Count token ')' : Int))
          (builder ++ token ++ " ".toList) with ⟨he, hall⟩ | ⟨n, h0, hn, hr, hz, hbefore⟩
      · left
        refine ⟨hstep.trans he, ?_⟩
        intro n h0 hn
        obtain ⟨k, rfl⟩ : ∃ k, n = k + 1 := ⟨n - 1, by omega⟩
        rw [hd]
        by_cases hk : k = 0
        · subst hk
          simpa [parenDepth] using h1
        · exact hall k (by omega) (by simpa using hn)
      · right
        refine ⟨n + 1, by omega, by simpa using hn, ?_, ?_, ?_⟩
        · rw [hstep, hr, List.take_succ_cons]
          simp [List.append_assoc]
        · rw [hd]; exact hz
        · intro m h0m hm
          obtain ⟨k, rfl⟩ : ∃ k, m = k + 1 := ⟨m - 1, by omega⟩
          rw [hd]
          by_cases hk : k = 0
          · subst hk
            simpa [parenDepth] using h1
          · exact hbefore k (by omega) (by omega)

theorem dropWhile_append_singleton_ne_nil (p : Char → Bool) (a : Char) (h : p a = false) :
    ∀ l : Str, (l ++ [a]).dropWhile p ≠ [] := by
  intro l
  induction l with
  | nil => simp [List.dropWhile, h]
  | cons b l ih =>
    rw [List.cons_append, List.dropWhile_cons]
    split
    · exact ih
    · simp

theorem TrimSpace_ne_nil_of_head (a : Char) (s : Str) (h : isSpace a = false) :
    strings.TrimSpace (a :: s) ≠ [] := by
  unfold strings.TrimSpace
  have hd : (a :: s).dropWhile isSpace = a :: s := by simp [List.dropWhile, h]
  rw [hd, List.reverse_cons]
  intro hc
  rw [List.reverse_eq_nil_iff] at hc
  exact dropWhile_append_singleton_ne_nil isSpace a h _ hc

theorem flatten_spaces :
    ∀ (l : List Str) (a : Str),
      ((a :: l).map (fun token => token ++ " ".toList)).flatten =
        strings.Join (a :: l) " ".toList ++ " ".toList := by
  intro l
  induction l with
  | nil => intro a; simp [strings.Join]
  | cons b l ih =>
    intro a
    rw [List.map_cons, List.flatten_cons, ih b, join_cons_cons]
    simp [List.append_assoc]

theorem join_reverse_head :
    ∀ (l : List Str) (a : Str),
      (∀ t ∈ a :: l, t ≠ [] ∧ ∀ c ∈ t, isSpace c = false) →
      ∀ c, (strings.Join (a :: l) " ".toList).reverse.head? = some c → isSpace c = false := by
  intro l
  induction l with
  | nil =>
    intro a h c hc
    have ha := h a (List.mem_cons_self _ _)
    exact ha.2 c (List.mem_reverse.mp (List.mem_of_mem_head? (by simpa [strings.Join] using hc)))
  | cons b l ih =>
    intro a h c hc
    have hrest : ∀ t ∈ b :: l, t ≠ [] ∧ ∀ c ∈ t, isSpace c = false :=
      fun t ht => h t (List.mem_cons_of_mem _ ht)
    rw [join_cons_cons, List.reverse_append] at hc
    have hne : (strings.Join (b :: l) " ".toList).reverse ≠ [] := by
      rw [join_cons_foldr]
      have hb := (hrest b (List.mem_cons_self _ _)).1
      cases b with
      | nil => exact absurd rfl hb
      | cons x xs => simp
    obtain ⟨d, r, hdr⟩ := List.exists_cons_of_ne_nil hne
    rw [hdr] at hc
    have hcd : d = c := by simpa using hc
    rw [← hcd]
    exact ih b hrest d (by rw [hdr]; rfl)

/-- For tokens that are not empty and hold no white space, as `strings.Fields`
returns them, the text of a span is its tokens joined by a space. -/
theorem spanText_of_fields (span : List Str)
    (h : ∀ t ∈ span, t ≠ [] ∧ ∀ c ∈ t, isSpace c = false) :
    spanText span = strings.Join span " ".toList := by
  cases span with
  | nil => rfl
  | cons a l =>
    unfold spanText
    rw [flatten_spaces]
    unfold strings.TrimSpace
    have hhead : ∀ c, (strings.Join (a :: l) " ".toList ++ " ".toList).head? = some c →
        isSpace c = false := by
      intro c hc
      have ha := h a (List.mem_cons_self _ _)
      cases a with
      | nil => exact absurd rfl ha.1
      | cons x xs =>
        rw [join_cons_foldr] at hc
        have hx : x = c := by simpa using hc
        rw [← hx]
        exact ha.2 x (List.mem_cons_self _ _)
    rw [dropWhile_isSpace_of_head _ hhead, List.reverse_append]
    have hsp : (" ".toList.reverse ++ (strings.Join (a :: l) " ".toList).reverse).dropWhile
        isSpace = (strings.Join (a :: l) " ".toList).reverse.dropWhile isSpace := by
      have h1 : isSpace ' ' = true := by decide
      simp [List.dropWhile, h1]
    rw [hsp, dropWhile_isSpace_of_head _ (join_reverse_head l a h), List.reverse_reverse]
/-- C31, as stated, fails: for the tokens `(`, `a))`, `(b` the scan returns
the non-empty span `( a)) (b`, yet the running depth after the second token is
-1, not strictly positive: the scan goes past the token that holds the
matching parenthesis, because it stops only when the depth is exactly zero. -/
theorem C31_depth_can_be_negative :
    findBalancedParentheses ["(".toList, "a))".toList, "(b".toList] 0 = "( a)) (b".toList ∧
    parenDepth ["(".toList, "a))".toList] = -1 ∧
    ¬ (0 < parenDepth ["(".toList, "a))".toList]) ∧
    parenDepth ["(".toList, "a))".toList, "(b".toList] = 0 := by
  decide

/-- C31, amended: `findBalancedParentheses(tokens, start)` either returns the
empty text, and then `start` is past the end, or `tokens[start]` is not exactly
`(`, or the running depth is zero after no token from `start` on; or it
returns a non-empty text, and then `tokens[start]` is `(` and the text is that
of the `n` tokens from `start` on, each followed by a space and the whole
trimmed, where the running depth is zero after the last of them and different
from zero (not always positive) after every token before it. -/
theorem C31_span_of_balanced_scan (tokens : List Str) (start : Nat) :
    (findBalancedParentheses tokens start = [] ∧
      (tokens.length ≤ start ∨ tokens.getD start [] ≠ "(".toList ∨
        ∀ n, 0 < n → n ≤ tokens.length - start →
          parenDepth ((tokens.drop start).take n) ≠ 0)) ∨
    (start < tokens.length ∧ tokens.getD start [] = "(".toList ∧
      findBalancedParentheses tokens start ≠ [] ∧
      ∃ n, 0 < n ∧ n ≤ tokens.length - start ∧
        findBalancedParentheses tokens start = spanText ((tokens.drop start).take n) ∧
        parenDepth ((tokens.drop start).take n) = 0 ∧
        ∀ m, 0 < m → m < n → parenDepth ((tokens.drop start).take m) ≠ 0) := by
  by_cases hs : tokens.length ≤ start
  · left
    exact ⟨by unfold findBalancedParentheses; rw [if_pos (Or.inl hs)], Or.inl hs⟩
  by_cases ht : tokens.getD start [] = "(".toList
  swap
  · left
    exact ⟨by unfold findBalancedParentheses; rw [if_pos (Or.inr ht)], Or.inr (Or.inl ht)⟩
  have hf : findBalancedParentheses tokens start = balancedLoop (tokens.drop start) 0 [] := by
    unfold findBalancedParentheses
    rw [if_neg]
    intro hc
    rcases hc with hc | hc
    · exact hs hc
    · exact hc ht
  rcases balancedLoop_span (tokens.drop start) 0 [] with ⟨he, hall⟩ | ⟨n, h0, hn, hr, hz, hbefore⟩
  · left
    refine ⟨hf.trans he, Or.inr (Or.inr ?_)⟩
    intro n h0 hn
    have := hall n h0 (by simpa using hn)
    simpa using this
  · right
    have hlen : start < tokens.length := by omega
    have hdrop : tokens.drop start = "(".toList :: tokens.drop (start + 1) := by
      rw [List.drop_eq_getElem_cons hlen]
      congr 1
      rw [List.getD_eq_getElem _ _ hlen] at ht
      exact ht
    have htext : findBalancedParentheses tokens start =
        spanText ((tokens.drop start).take n) := by
      rw [hf, hr]
      simp [spanText]
    refine ⟨hlen, ht, ?_, n, h0, by simpa using hn, htext, by simpa using hz, ?_⟩
    · rw [htext, hdrop]
      obtain ⟨k, rfl⟩ : ∃ k, n = k + 1 := ⟨n - 1, by omega⟩
      rw [List.take_succ_cons]
      unfold spanText
      rw [List.map_cons, List.flatten_cons]
      exact TrimSpace_ne_nil_of_head '(' _ (by decide)
    · intro m h0m hm
      simpa using hbefore m h0m hm

/-! ## The cursor of the token loop -/

theorem pkScan_cursor (b : Nat) :
    ∀ (rest : List Str) (j : Nat) (o : PkOptions),
      b ≤ o.i → b + 1 ≤ j → b ≤ (pkScan rest j o).i := by
  intro rest
  induction rest with
  | nil => intro j o h _; simpa [pkScan] using h
  | cons t rest ih =>
    intro j o h hj
    unfold pkScan
    simp only []
    split_ifs
    · exact ih _ _ (by simp; omega) (by omega)
    · exact ih _ _ (by simp; omega) (by omega)
    · exact ih _ _ (by simp; omega) (by omega)
    · exact ih _ _ (by simp; omega) (by omega)
    · simp; omega
    · exact ih _ _ h (by omega)

theorem conflictSuffix_cursor (tokens : List Str) (i : Nat) :
    i ≤ (conflictSuffix tokens i).2 := by
  unfold conflictSuffix
  split_ifs <;> simp

theorem generatedBranch_cursor (tokens : List Str) (i i1 : Nat) (constraintName : Str)
    (c c1 : Column) (h : generatedBranch tokens i constraintName c = .ok (i1, c1)) :
    i ≤ i1 := by
  unfold generatedBranch at h
  simp only [] at h
  split_ifs at h <;>
    first
    | (injection h with h; injection h with h1 _; omega)
    | (split at h
       · cases h
       · injection h with h; injection h with h1 _; simp at h1; omega)

theorem step_cursor (tokens : List Str) (i i1 : Nat) (c c1 : Column)
    (h : parseColumnTagStep tokens i c = .ok (i1, c1)) : i ≤ i1 := by
  have pA := pkScan_cursor (i + 1) (tokens.drop (i + 2)) (i + 2)
    { sortOrder := ASC, conflict := [], autoincrement := false, i := i + 1 }
    (Nat.le_refl _) (Nat.le_refl _)
  have pB := pkScan_cursor (i + 2 + 1) (tokens.drop (i + 2 + 2)) (i + 2 + 2)
    { sortOrder := ASC, conflict := [], autoincrement := false, i := i + 2 + 1 }
    (Nat.le_refl _) (Nat.le_refl _)
  have cA := conflictSuffix_cursor tokens (i + 1)
  have cB := conflictSuffix_cursor tokens (i + 2 + 1)
  have cC := conflictSuffix_cursor tokens i
  have cD := conflictSuffix_cursor tokens (i + 2)
  have gA := generatedBranch_cursor tokens i i1
  have gB := generatedBranch_cursor tokens (i + 2) i1
  by_cases hn : strings.ToUpper (tokens.getD i []) = CONSTRAINT ∧ i + 2 < tokens.length
  · unfold parseColumnTagStep at h
    simp only [hn, and_self, decide_True, if_true] at h
    generalize strings.ToUpper (tokens.getD (i + 2) []) = tok at h
    by_cases h0 : strings.Contains PRIMARY_KEY tok = true
    · rw [if_pos h0] at h
      split at h
      · cases h
      · injection h with h; injection h with h1 _; omega
    rw [if_neg h0] at h
    by_cases h1 : strings.Contains NOT_NULL tok = true
    · rw [if_pos h1] at h
      injection h with h; injection h with h1 _; omega
    rw [if_neg h1] at h
    by_cases h2 : strings.Contains UNIQUE tok = true
    · rw [if_pos h2] at h
      split at h
      · cases h
      · injection h with h; injection h with h1 _; omega
    rw [if_neg h2] at h
    by_cases h3 : strings.Contains CHECK tok = true
    · rw [if_pos h3] at h
      split_ifs at h <;> (injection h with h; injection h with h1 _; omega)
    rw [if_neg h3] at h
    by_cases h4 : strings.Contains DEFAULT tok = true
    · rw [if_pos h4] at h
      split_ifs at h <;>
        first
        | (split at h
           · cases h
           · injection h with h; injection h with h1 _; omega)
        | (injection h with h; injection h with h1 _; omega)
    rw [if_neg h4] at h
    by_cases h5 : strings.Contains COLLATE tok = true
    · rw [if_pos h5] at h
      split_ifs at h <;> (injection h with h; injection h with h1 _; omega)
    rw [if_neg h5] at h
    by_cases h6 : strings.Contains REFERENCES tok = true
    · rw [if_pos h6] at h
      split_ifs at h
      · split at h
        · cases h
        · injection h with h; injection h with h1 _; omega
      · injection h with h; injection h with h1 _; omega
    rw [if_neg h6] at h
    by_cases h7 : strings.Contains GENERATED tok = true
    · rw [if_pos h7] at h
      have := gB _ _ _ h
      omega
    rw [if_neg h7] at h
    injection h with h; injection h with h1 _; omega
  · unfold parseColumnTagStep at h
    simp only [hn, decide_False, Bool.false_eq_true, if_false] at h
    generalize strings.ToUpper (tokens.getD i []) = tok at h
    by_cases h0 : strings.Contains PRIMARY_KEY tok = true
    · rw [if_pos h0] at h
      split at h
      · cases h
      · injection h with h; injection h with h1 _; omega
    rw [if_neg h0] at h
    by_cases h1 : strings.Contains NOT_NULL tok = true
    · rw [if_pos h1] at h
      injection h with h; injection h with h1 _; omega
    rw [if_neg h1] at h
    by_cases h2 : strings.Contains UNIQUE tok = true
    · rw [if_pos h2] at h
      split at h
      · cases h
      · injection h with h; injection h with h1 _; omega
    rw [if_neg h2] at h
    by_cases h3 : strings.Contains CHECK tok = true
    · rw [if_pos h3] at h
      split_ifs at h <;> (injection h with h; injection h with h1 _; omega)
    rw [if_neg h3] at h
    by_cases h4 : strings.Contains DEFAULT tok = true
    · rw [if_pos h4] at h
      split_ifs at h <;>
        first
        | (split at h
           · cases h
           · injection h with h; injection h with h1 _; omega)
        | (injection h with h; injection h with h1 _; omega)
    rw [if_neg h4] at h
    by_cases h5 : strings.Contains COLLATE tok = true
    · rw [if_pos h5] at h
      split_ifs at h <;> (injection h with h; injection h with h1 _; omega)
    rw [if_neg h5] at h
    by_cases h6 : strings.Contains REFERENCES tok = true
    · rw [if_pos h6] at h
      split_ifs at h
      · split at h
        · cases h
        · injection h with h; injection h with h1 _; omega
      · injection h with h; injection h with h1 _; omega
    rw [if_neg h6] at h
    by_cases h7 : strings.Contains GENERATED tok = true
    · rw [if_pos h7] at h
      have := gA _ _ _ h
      omega
    rw [if_neg h7] at h
    injection h with h; injection h with h1 _; omega

theorem stripEnds_panic (content : Str) (p : Panic) (h : stripEnds content = .error p) :
    p = .sliceOutOfRange := by
  unfold stripEnds at h
  split_ifs at h
  injection h with h
  exact h.symm

theorem map_eq_error {α β : Type} (f : α → β) (r : Except Panic α) (p : Panic)
    (h : r.map f = .error p) : r = .error p := by
  cases r with
  | error q => simpa [Except.map] using h
  | ok v => cases h

theorem parseDefaultValue_panic (content : Str) (p : Panic)
    (h : parseDefaultValue content = .error p) : p = .sliceOutOfRange := by
  unfold parseDefaultValue at h
  simp only [] at h
  generalize strings.TrimSpace content = s at h
  generalize strings.ToUpper s = u at h
  by_cases h1 : u = "NULL".toList
  · rw [if_pos h1] at h; cases h
  rw [if_neg h1] at h
  by_cases h2 : u = "TRUE".toList
  · rw [if_pos h2] at h; cases h
  rw [if_neg h2] at h
  by_cases h3 : u = "FALSE".toList
  · rw [if_pos h3] at h; cases h
  rw [if_neg h3] at h
  by_cases h4 : strings.HasPrefix u "CURRENT_TIME".toList = true
  · rw [if_pos h4] at h; cases h
  rw [if_neg h4] at h
  by_cases h5 : strings.HasPrefix u "CURRENT_DATE".toList = true
  · rw [if_pos h5] at h; cases h
  rw [if_neg h5] at h
  by_cases h6 : strings.HasPrefix u "CURRENT_TIMESTAMP".toList = true
  · rw [if_pos h6] at h; cases h
  rw [if_neg h6] at h
  split_ifs at h
  · exact stripEnds_panic _ p (map_eq_error _ _ p h)
  · exact stripEnds_panic _ p (map_eq_error _ _ p h)

theorem ParseDefault_panic (content : Str) (p : Panic) (h : ParseDefault content = .error p) :
    p = .sliceOutOfRange := by
  unfold ParseDefault at h
  simp only [] at h
  split_ifs at h <;>
    first
    | cases h
    | exact parseDefaultValue_panic _ p (map_eq_error _ _ p h)

theorem scanTablePart_panic :
    ∀ (s : Str) (index : Nat) (p : Panic), scanTablePart s index = .error p →
      p = .indexOutOfRange := by
  intro s
  induction s with
  | nil => intro index p h; injection h with h; exact h.symm
  | cons a rest ih =>
    intro index p h
    unfold scanTablePart at h
    split_ifs at h
    exact ih _ p h

theorem ParseReference_panic (colName : Str) (foreignTables : List GoValue) (tag : Str)
    (p : Panic) (h : ParseReference colName foreignTables tag = .error p) :
    p = .indexOutOfRange := by
  unfold ParseReference at h
  simp only [] at h
  split_ifs at h
  split at h
  · rename_i q hq
    injection h with h
    rw [← h]
    exact scanTablePart_panic _ _ q hq
  · split_ifs at h

theorem Build_panic (r : References) (p : Panic) (h : r.Build = .error p) :
    ∃ text, p = .msg text := by
  unfold References.Build at h
  simp only [] at h
  split at h
  · injection h with h
    exact ⟨_, h.symm⟩
  · cases h

theorem PrimaryKey_panic (c : Column) (constraintName : Str) (sortOrder : SortOrder)
    (conflict : Str) (autoincrement : Bool) (p : Panic)
    (h : c.PrimaryKey constraintName sortOrder conflict autoincrement = .error p) :
    p ≠ .outOfFuel := by
  unfold Column.PrimaryKey at h
  simp only [] at h
  split_ifs at h <;> (injection h with h; rw [← h]; intro hc; cases hc)

theorem Unique_panic (c : Column) (constraintName conflict : Str) (p : Panic)
    (h : c.Unique constraintName conflict = .error p) : p ≠ .outOfFuel := by
  unfold Column.Unique at h
  split_ifs at h
  injection h with h
  rw [← h]
  intro hc
  cases hc

theorem Default_panic (c : Column) (constraintName content : Str) (p : Panic)
    (h : c.Default constraintName content = .error p) : p ≠ .outOfFuel := by
  unfold Column.Default at h
  split_ifs at h
  · injection h with h; rw [← h]; intro hc; cases hc
  · injection h with h; rw [← h]; intro hc; cases hc
  · split at h
    · rename_i q hq
      injection h with h
      rw [← h, ParseDefault_panic content q hq]
      intro hc
      cases hc
    · cases h

theorem ForeignKey_panic (c : Column) (constraintName content : Str) (p : Panic)
    (h : c.ForeignKey constraintName content = .error p) : p ≠ .outOfFuel := by
  unfold Column.ForeignKey at h
  split_ifs at h
  · injection h with h; rw [← h]; intro hc; cases hc
  · split at h
    · rename_i q hq
      injection h with h
      rw [← h, ParseReference_panic _ _ _ q hq]
      intro hc
      cases hc
    · injection h with h; rw [← h]; intro hc; cases hc
    · split at h
      · rename_i q hq
        injection h with h
        obtain ⟨text, ht⟩ := Build_panic _ q hq
        rw [← h, ht]
        intro hc
        cases hc
      · cases h

theorem Generated_panic (c : Column) (constraintName : Str) (always : Bool) (ex : Expression)
    (storageType : StorageType) (p : Panic)
    (h : c.Generated constraintName always ex storageType = .error p) : p ≠ .outOfFuel := by
  unfold Column.Generated at h
  split_ifs at h <;> (injection h with h; rw [← h]; intro hc; cases hc)

theorem generatedBranch_panic (tokens : List Str) (i : Nat) (constraintName : Str) (c : Column)
    (p : Panic) (h : generatedBranch tokens i constraintName c = .error p) :
    p ≠ .outOfFuel := by
  unfold generatedBranch at h
  simp only [] at h
  split_ifs at h <;>
    first
    | cases h
    | (split at h
       · rename_i q hq
         injection h with h
         rw [← h]
         exact Generated_panic _ _ _ _ _ q hq
       · cases h)

theorem step_panic (tokens : List Str) (i : Nat) (c : Column) (p : Panic)
    (h : parseColumnTagStep tokens i c = .error p) : p ≠ .outOfFuel := by
  by_cases hn : strings.ToUpper (tokens.getD i []) = CONSTRAINT ∧ i + 2 < tokens.length
  · unfold parseColumnTagStep at h
    simp only [hn, and_self, decide_True, if_true] at h
    generalize strings.ToUpper (tokens.getD (i + 2) []) = tok at h
    by_cases h0 : strings.Contains PRIMARY_KEY tok = true
    · rw [if_pos h0] at h
      split at h
      · rename_i q hq
        injection h with h
        rw [← h]
        exact PrimaryKey_panic _ _ _ _ _ q hq
      · cases h
    rw [if_neg h0] at h
    by_cases h1 : strings.Contains NOT_NULL tok = true
    · rw [if_pos h1] at h
      cases h
    rw [if_neg h1] at h
    by_cases h2 : strings.Contains UNIQUE tok = true
    · rw [if_pos h2] at h
      split at h
      · rename_i q hq
        injection h with h
        rw [← h]
        exact Unique_panic _ _ _ q hq
      · cases h
    rw [if_neg h2] at h
    by_cases h3 : strings.Contains CHECK tok = true
    · rw [if_pos h3] at h
      split_ifs at h
    rw [if_neg h3] at h
    by_cases h4 : strings.Contains DEFAULT tok = true
    · rw [if_pos h4] at h
      split_ifs at h <;>
        (split at h
         · rename_i q hq
           injection h with h
           rw [← h]
           exact Default_panic _ _ _ q hq
         · cases h)
    rw [if_neg h4] at h
    by_cases h5 : strings.Contains COLLATE tok = true
    · rw [if_pos h5] at h
      split_ifs at h
    rw [if_neg h5] at h
    by_cases h6 : strings.Contains REFERENCES tok = true
    · rw [if_pos h6] at h
      split_ifs at h
      split at h
      · rename_i q hq
        injection h with h
        rw [← h]
        exact ForeignKey_panic _ _ _ q hq
      · cases h
    rw [if_neg h6] at h
    by_cases h7 : strings.Contains GENERATED tok = true
    · rw [if_pos h7] at h
      exact generatedBranch_panic _ _ _ _ p h
    rw [if_neg h7] at h
    cases h
  · unfold parseColumnTagStep at h
    simp only [hn, decide_False, Bool.false_eq_true, if_false] at h
    generalize strings.ToUpper (tokens.getD i []) = tok at h
    by_cases h0 : strings.Contains PRIMARY_KEY tok = true
    · rw [if_pos h0] at h
      split at h
      · rename_i q hq
        injection h with h
        rw [← h]
        exact PrimaryKey_panic _ _ _ _ _ q hq
      · cases h
    rw [if_neg h0] at h
    by_cases h1 : strings.Contains NOT_NULL tok = true
    · rw [if_pos h1] at h
      cases h
    rw [if_neg h1] at h
    by_cases h2 : strings.Contains UNIQUE tok = true
    · rw [if_pos h2] at h
      split at h
      · rename_i q hq
        injection h with h
        rw [← h]
        exact Unique_panic _ _ _ q hq
      · cases h
    rw [if_neg h2] at h
    by_cases h3 : strings.Contains CHECK tok = true
    · rw [if_pos h3] at h
      split_ifs at h
    rw [if_neg h3] at h
    by_cases h4 : strings.Contains DEFAULT tok = true
    · rw [if_pos h4] at h
      split_ifs at h <;>
        (split at h
         · rename_i q hq
           injection h with h
           rw [← h]
           exact Default_panic _ _ _ q hq
         · cases h)
    rw [if_neg h4] at h
    by_cases h5 : strings.Contains COLLATE tok = true
    · rw [if_pos h5] at h
      split_ifs at h
    rw [if_neg h5] at h
    by_cases h6 : strings.Contains REFERENCES tok = true
    · rw [if_pos h6] at h
      split_ifs at h
      split at h
      · rename_i q hq
        injection h with h
        rw [← h]
        exact ForeignKey_panic _ _ _ q hq
      · cases h
    rw [if_neg h6] at h
    by_cases h7 : strings.Contains GENERATED tok = true
    · rw [if_pos h7] at h
      exact generatedBranch_panic _ _ _ _ p h
    rw [if_neg h7] at h
    cases h

theorem loop_fuel :
    ∀ (fuel : Nat) (tokens : List Str) (i : Nat) (c : Column),
      tokens.length ≤ fuel + i → parseColumnTagLoop fuel tokens i c ≠ .error .outOfFuel := by
  intro fuel
  induction fuel with
  | zero =>
    intro tokens i c h
    unfold parseColumnTagLoop
    rw [if_neg (by omega)]
    intro hc
    cases hc
  | succ fuel ih =>
    intro tokens i c h
    unfold parseColumnTagLoop
    split_ifs with hi
    · cases hs : parseColumnTagStep tokens i c with
      | error p =>
        simp only []
        intro hc
        injection hc with hc
        exact step_panic tokens i c p hs hc
      | ok r =>
        obtain ⟨i1, c1⟩ := r
        simp only []
        exact ih tokens (i1 + 1) c1 (by have := step_cursor tokens i i1 c c1 hs; omega)
    · intro hc
      cases hc

theorem parseColumnTag_fuel (c : Column) (tag : Str) :
    c.parseColumnTag tag ≠ .error .outOfFuel := by
  unfold Column.parseColumnTag
  simp only []
  split_ifs
  · intro hc; cases hc
  · intro hc; cases hc
  · exact loop_fuel _ _ 0 c (by omega)

/-- C32: in every pass of the token loop of `parseColumnTag` that does not
panic, the cursor at the end of the body is not lower than at its start, so
after the `i++` of the loop it is strictly greater: no branch, the PRIMARY KEY
look-ahead included, moves the cursor backwards. Hence as many passes as there
are tokens are enough: `parseColumnTag` returns a column or panics, on every
column and every annotation, and never runs out of passes. -/
theorem C32_cursor_moves_forward (tokens : List Str) (i i1 : Nat) (c c1 : Column)
    (h : parseColumnTagStep tokens i c = .ok (i1, c1)) :
    i ≤ i1 ∧ i < i1 + 1 ∧
    (∀ (c0 : Column) (tag : Str), c0.parseColumnTag tag ≠ .error .outOfFuel) ∧
    (∀ (c0 : Column) (tag : Str),
      (∃ c2, c0.parseColumnTag tag = .ok c2) ∨
        ∃ p, c0.parseColumnTag tag = .error p ∧ p ≠ .outOfFuel) := by
  have hle := step_cursor tokens i i1 c c1 h
  refine ⟨hle, by omega, parseColumnTag_fuel, ?_⟩
  intro c0 tag
  cases hr : c0.parseColumnTag tag with
  | ok c2 => exact Or.inl ⟨c2, rfl⟩
  | error p =>
    refine Or.inr ⟨p, rfl, ?_⟩
    intro hp
    rw [hp] at hr
    exact parseColumnTag_fuel c0 tag hr

set_option maxRecDepth 100000 in
/-- C32, witness: the pass at `PRIMARY KEY` of `PRIMARY KEY ON UNIQUE`, where
the look-ahead first sets the cursor to 3 and then, at the keyword `UNIQUE`,
back to 2, ends above its start 0. -/
theorem C32_cursor_moves_forward_witness :
    parseColumnTagStep (strings.Fields "PRIMARY KEY ON UNIQUE".toList) 0
        (NewColumn "id".toList INTEGER) =
      .ok (2, { NewColumn "id".toList INTEGER with
        hasPrimaryKey := true
        hasNotNull := true
        constraint := ["PRIMARY KEY ASC".toList] }) ∧
    0 ≤ 2 ∧ 0 < 2 + 1 :=
  ⟨by decide,
    (C32_cursor_moves_forward (strings.Fields "PRIMARY KEY ON UNIQUE".toList) 0 2
      (NewColumn "id".toList INTEGER)
      { NewColumn "id".toList INTEGER with
        hasPrimaryKey := true
        hasNotNull := true
        constraint := ["PRIMARY KEY ASC".toList] } (by decide)).1,
    (C32_cursor_moves_forward (strings.Fields "PRIMARY KEY ON UNIQUE".toList) 0 2
      (NewColumn "id".toList INTEGER)
      { NewColumn "id".toList INTEGER with
        hasPrimaryKey := true
        hasNotNull := true
        constraint := ["PRIMARY KEY ASC".toList] } (by decide)).2.1⟩

/-! ## Rendering and the state of a join -/

set_option maxRecDepth 100000 in
/-- C33, evaluation at the failing input: `Join.Build` on a join with the
USING columns `ProductId`, `OrderId` and no ON condition writes the snake-case
names back into the list (`j.using[i] = utils.ToSnakeCase(col)`): after the
call the join holds `product_id`, `order_id`. With an ON condition the list is
left as it is. -/
theorem C33_build_rewrites_using_columns :
    (NewTableJoin "INNER JOIN".toList "Product".toList).Using
        ["ProductId".toList, "OrderId".toList] =
      .mk "INNER JOIN".toList "Product".toList none [] none
        ["ProductId".toList, "OrderId".toList] ∧
    (Join.Build ((NewTableJoin "INNER JOIN".toList "Product".toList).Using
        ["ProductId".toList, "OrderId".toList])).1 =
      "INNER JOIN product USING (product_id, order_id)".toList ∧
    (Join.Build ((NewTableJoin "INNER JOIN".toList "Product".toList).Using
        ["ProductId".toList, "OrderId".toList])).2 =
      .mk "INNER JOIN".toList "Product".toList none [] none
        ["product_id".toList, "order_id".toList] ∧
    ["ProductId".toList, "OrderId".toList] ≠ ["product_id".toList, "order_id".toList] ∧
    (Join.Build (((NewTableJoin "INNER JOIN".toList "Product".toList).Using
        ["ProductId".toList]).On (NewExpression "a = b".toList))).2 =
      ((NewTableJoin "INNER JOIN".toList "Product".toList).Using
        ["ProductId".toList]).On (NewExpression "a = b".toList) :=
  ⟨rfl, by decide, rfl, by decide, rfl⟩

/-! ## DEFAULT values -/

set_option maxRecDepth 100000 in
/-- C34, evaluation at the failing input: `parseDefaultValue` tests the prefix
`CURRENT_TIME` before the prefix `CURRENT_TIMESTAMP`, so the branch of
`CURRENT_TIMESTAMP` is never reached: `CURRENT_TIMESTAMP` yields
`DEFAULT CURRENT_TIME`. The other two keywords yield themselves. -/
theorem C34_current_timestamp_becomes_current_time :
    ParseDefault "CURRENT_TIMESTAMP".toList = .ok "DEFAULT CURRENT_TIME".toList ∧
    ParseDefault "current_timestamp".toList = .ok "DEFAULT CURRENT_TIME".toList ∧
    ParseDefault "CURRENT_TIME".toList = .ok "DEFAULT CURRENT_TIME".toList ∧
    ParseDefault "CURRENT_DATE".toList = .ok "DEFAULT CURRENT_DATE".toList ∧
    (NewColumn "created".toList TEXT).parseColumnTag "DEFAULT CURRENT_TIMESTAMP".toList =
      .ok { NewColumn "created".toList TEXT with
        hasDefault := true
        constraint := ["DEFAULT CURRENT_TIME".toList] } := by
  decide

set_option maxRecDepth 100000 in
/-- C35, evaluation at the failing input: for a quoted literal
`parseDefaultValue` removes the quotes and `LiteralValue.String` renders the
content as it is, so `'pending'` and `"pending"` yield `DEFAULT pending`, and
the empty literal `''` yields `DEFAULT NULL`, because `String` renders the
empty literal value as `NULL`. -/
theorem C35_quoted_default_loses_quotes :
    ParseDefault "'pending'".toList = .ok "DEFAULT pending".toList ∧
    ParseDefault "\"pending\"".toList = .ok "DEFAULT pending".toList ∧
    ParseDefault "''".toList = .ok "DEFAULT NULL".toList ∧
    (NewColumn "status".toList TEXT).parseColumnTag "NOT NULL DEFAULT 'pending'".toList =
      .ok { NewColumn "status".toList TEXT with
        hasNotNull := true
        hasDefault := true
        constraint := ["NOT NULL".toList, "DEFAULT pending".toList] } := by
  decide

/-! ## Pragmas -/

/-- What `Pragma.Build` returns after `FuncType` with a non-empty argument: the
parentheses hold `eqValue`, which is empty, and not the argument. -/
theorem build_of_func_type (schemaName name value : Str) (h : value ≠ []) :
    ((NewPragma schemaName name).FuncType value).map Pragma.Build =
      .ok ("PRAGMA ".toList ++ (if schemaName ≠ [] then schemaName ++ ".".toList else []) ++
        name ++ " ()".toList) := by
  simp [NewPragma, Pragma.FuncType, Pragma.Build, Except.map, h]

set_option maxRecDepth 100000 in
/-- C36, evaluation at the failing input: `TableInfo("users")` builds
`PRAGMA table_info ()`: in the branch of `colValue`, `Pragma.Build` formats
`p.eqValue`, which is empty there, instead of `p.colValue`. The forms with
`ValueType` and without a value are rendered as the claim says. -/
theorem C36_func_type_argument_is_lost :
    (TableInfo "users".toList).map Pragma.Build = .ok "PRAGMA table_info ()".toList ∧
    (TableInfo "users".toList).map (fun p => p.colValue) = .ok "users".toList ∧
    ((NewPragma "main".toList "journal_mode".toList).ValueType "WAL".toList).map Pragma.Build =
      .ok "PRAGMA main.journal_mode = WAL".toList ∧
    (NewPragma [] "foreign_keys".toList).Build = "PRAGMA foreign_keys".toList := by
  decide

/-! ## Snake case -/

/-- C37: `ToSnakeCase` is idempotent, whatever the rune mapping `lower` of
`strings.ToLower` is, as long as it maps its own results to themselves and
never yields a letter `A`..`Z`: for every string the result holds no letter
`A`..`Z`, so the second pass over the runes inserts no underscore and the
second lower-casing changes no character. -/
theorem C37_snake_case_idempotent (lower : Char → Char)
    (hidem : ∀ c, lower (lower c) = lower c)
    (hcap : ∀ c, ¬ ('A' ≤ lower c ∧ lower c ≤ 'Z')) (s : Str) :
    ToSnakeCaseWith lower (ToSnakeCaseWith lower s) = ToSnakeCaseWith lower s ∧
    (∀ c ∈ ToSnakeCaseWith lower s, ¬ ('A' ≤ c ∧ c ≤ 'Z')) ∧
    snakeRunes true (ToSnakeCaseWith lower s) = ToSnakeCaseWith lower s ∧
    (ToSnakeCaseWith lower s).map lower = ToSnakeCaseWith lower s :=
  ⟨ToSnakeCaseWith_idem lower hidem hcap s, ToSnakeCaseWith_no_capital lower hcap s,
    snakeRunes_of_no_capital _ true (ToSnakeCaseWith_no_capital lower hcap s),
    map_lower_idem lower hidem _⟩

/-- C37, witness: the ASCII mapping `lowerRune`, at which `ToSnakeCaseWith` is
`ToSnakeCase`, and the name `UserID`. -/
theorem C37_snake_case_idempotent_witness :
    ToSnakeCaseWith lowerRune (ToSnakeCaseWith lowerRune "UserID".toList) =
      ToSnakeCaseWith lowerRune "UserID".toList ∧
    (∀ c ∈ ToSnakeCaseWith lowerRune "UserID".toList, ¬ ('A' ≤ c ∧ c ≤ 'Z')) ∧
    snakeRunes true (ToSnakeCaseWith lowerRune "UserID".toList) =
      ToSnakeCaseWith lowerRune "UserID".toList ∧
    (ToSnakeCaseWith lowerRune "UserID".toList).map lowerRune =
      ToSnakeCaseWith lowerRune "UserID".toList :=
  C37_snake_case_idempotent lowerRune lowerRune_idem lowerRune_not_capital "UserID".toList

/-! ## RAISE -/

set_option maxRecDepth 100000 in
/-- C38, evaluation at the failing input: `RAISE` formats the action with the
verb `%s`, which calls `ConflictClause.String`, so the text holds
`ON CONFLICT ` before the action word: `RAISE(IGNORE, e)` returns
`RAISE(ON CONFLICT IGNORE)` and `RAISE(ABORT, e)` returns
`RAISE(ON CONFLICT ABORT, <text of e>)`. For `REPLACE` and for the empty
conflict clause the call panics, as the claim says. -/
theorem C38_raise_renders_on_conflict :
    RAISE IGNORE (some (NewExpression "'no'".toList)) = .ok "RAISE(ON CONFLICT IGNORE)".toList ∧
    RAISE ABORT (some (NewExpression "'no'".toList)) =
      .ok "RAISE(ON CONFLICT ABORT, 'no')".toList ∧
    RAISE ROLLBACK (some (NewExpression "'no'".toList)) =
      .ok "RAISE(ON CONFLICT ROLLBACK, 'no')".toList ∧
    RAISE FAIL (some (NewExpression "'no'".toList)) =
      .ok "RAISE(ON CONFLICT FAIL, 'no')".toList ∧
    RAISE REPLACE (some (NewExpression "'no'".toList)) =
      .error (.msg "RAISE statement cannot be used with REPLACE or empty string".toList) ∧
    RAISE NO_CONFLICT (some (NewExpression "'no'".toList)) =
      .error (.msg "RAISE statement cannot be used with REPLACE or empty string".toList) := by
  decide
/-! ## The first generator: tag options and foreign keys -/

set_option maxHeartbeats 2000000 in
/-- C39: `TagOptions.Validate` returns an error if and only if AutoIncrement
is set while PrimaryKey is not set or the type is not `INTEGER`, or Generated
is set together with a non-empty Default, PrimaryKey, Unique or a ForeignKey,
or PrimaryKey is set with a non-empty Default, or Index is set on a Generated
column that is not Stored; and when it returns no error, the options it leaves
are the ones it was given with NotNull set when PrimaryKey is set. -/
theorem C39_validate_error_iff (t : TagOptions) :
    ((t.Validate).1 ≠ none ↔
      (t.AutoIncrement = true ∧ (t.PrimaryKey = false ∨ t.Type_ ≠ "INTEGER".toList)) ∨
      (t.Generated ≠ none ∧
        (t.Default ≠ [] ∨ t.PrimaryKey = true ∨ t.Unique = true ∨ t.ForeignKey ≠ none)) ∨
      (t.PrimaryKey = true ∧ t.Default ≠ []) ∨
      (t.Index ≠ none ∧ ∃ g, t.Generated = some g ∧ g.Stored = false)) ∧
    ((t.Validate).1 = none →
      (t.Validate).2 = { t with NotNull := t.NotNull || t.PrimaryKey }) := by
  obtain ⟨ty, pk, fk, un, nn, ai, df, ck, co, ge, oc, de, ind, ix⟩ := t
  unfold TagOptions.Validate
  generalize "INTEGER".toList = integer
  cases pk <;> cases nn <;> simp only [Bool.not_true, Bool.not_false, Bool.false_eq_true,
    false_and, and_false, and_true, true_and, if_false, if_true, Bool.or_false, Bool.or_true,
    Bool.true_or, Bool.false_or, ne_eq, not_true_eq_false, not_false_eq_true, or_false,
    false_or, true_or, or_true] <;> cases ge <;> cases ix <;>
    simp only [not_true_eq_false, not_false_eq_true, false_and, if_false, true_and,
      reduceCtorEq, false_or, exists_false, and_false, or_false, Option.some.injEq,
      exists_eq_left', and_true, exists_eq_left] <;>
    split_ifs <;> simp_all

/-- What `ForeignKey.String` of the root package returns: the test of the
action is the wrong way round, so a non-empty action is left out and an empty
one leaves a space at the end. -/
theorem foreign_key_text (f : ForeignKey) :
    (f.Action ≠ [] →
      f.String = "FOREIGN KEY (".toList ++ f.Column ++ ") REFERENCES ".toList ++ f.References) ∧
    (f.Action = [] →
      f.String =
        "FOREIGN KEY (".toList ++ f.Column ++ ") REFERENCES ".toList ++ f.References ++
          " ".toList) := by
  unfold ForeignKey.String
  constructor
  · intro h
    rw [if_neg h]
  · intro h
    rw [if_pos h, h, List.append_nil]

set_option maxRecDepth 100000 in
/-- C40, evaluation at the failing input: `parseForeignKey` on
`chat (id),ON DELETE CASCADE` gives the reference `chat (id)` and the action
`ON DELETE CASCADE`, but `ForeignKey.String` formats the action only when it
is empty: the text is `FOREIGN KEY (chat_id) REFERENCES chat (id)`, without
the action. With the empty action, as in the tags of `schema_test.go`, the
text ends with a space after the reference. -/
theorem C40_action_is_left_out :
    parseForeignKey "chat (id),ON DELETE CASCADE".toList =
      { References := "chat (id)".toList, Action := "ON DELETE CASCADE".toList } ∧
    ({ parseForeignKey "chat (id),ON DELETE CASCADE".toList with
        Column := "chat_id".toList } : ForeignKey).String =
      "FOREIGN KEY (chat_id) REFERENCES chat (id)".toList ∧
    ({ parseForeignKey "chat (id)".toList with Column := "chat_id".toList } : ForeignKey).String =
      "FOREIGN KEY (chat_id) REFERENCES chat (id) ".toList := by
  decide

end Sqlofi
